import Mathlib

/-!
Cluster deployer drivers (hack/deployer/runner): AKS and GKE, and the pod
helpers of the StatefulSet controller (pkg/controller/elasticsearch/sset)

A shallow embedding of `aks.go`, `gke.go` and `pod.go`.  The drivers are sequential
programs that talk to two collaborators, the command executor and the secret
resolver.  Both collaborators are taken as a parameter (`World`): a
deterministic oracle that answers each request from the history of everything
that happened before it.  A Go function `f() error` becomes
`f : World → Driver → Exec (Option GoError)`, where `Exec` threads the history
(the trace of events) and can end in a Go panic.
-/

namespace Runner

/-! ## Go values -/

/-- A Go `error` value; `none : Option GoError` is the nil error. -/
structure GoError where
  msg : String
deriving DecidableEq, Repr

/-- A value stored in a template context (`map[string]interface{}`). -/
inductive Value where
  | str (s : String)
  | int (i : Int)
deriving DecidableEq, Repr

/-- A template context: `map[string]interface{}`, keys in the order written. -/
abbrev Ctx := List (String × Value)

/-- Modelled from the spec: `VaultInfo` is an opaque handle that is passed to
the secret resolver factory; its declaration is not part of the sources. -/
structure VaultInfo where
  handle : String
deriving DecidableEq, Repr

/-- Modelled from the spec: the secret resolver client returned by `NewClient`;
its declaration is not part of the sources. -/
structure VaultClient where
  info : VaultInfo
deriving DecidableEq, Repr

/-- Modelled from the spec: the AKS sub-struct of `Plan` (section 3), with the
fields the driver reads as `plan.Aks.X`. -/
structure AksSettings where
  ResourceGroup : String
  AcrName : String
  NodeCount : Int
deriving DecidableEq, Repr

/-- Modelled from the spec: the GKE sub-struct of `Plan` (section 3), with the
fields the driver reads as `plan.Gke.X`. -/
structure GkeSettings where
  GCloudProject : String
  Region : String
  AdminUsername : String
  LocalSsdCount : Int
  GcpScopes : String
  NodeCountPerZone : Int
deriving DecidableEq, Repr

/-- Modelled from the spec: `Plan` (section 3); the declaration is not part of
the sources.  `Operation` is a string (the drivers switch on it with a default
case), `VaultInfo` is a pointer (the drivers dereference it), and `Psp` and
`VmMapMax` are read by the GKE driver as `plan.Psp` and `plan.VmMapMax`. -/
structure Plan where
  Provider : String
  Operation : String
  ClusterName : String
  MachineType : String
  KubernetesVersion : String
  ServiceAccount : Bool
  VaultInfo : Option VaultInfo
  Aks : AksSettings
  Gke : GkeSettings
  Psp : Bool
  VmMapMax : Bool
deriving DecidableEq, Repr

/-! ## Strings -/

/-- Go `strings.Contains` on character lists: `sub` occurs in `s`. -/
def containsChars (sub : List Char) : List Char → Bool
  | [] => sub.isEmpty
  | c :: cs => sub.isPrefixOf (c :: cs) || containsChars sub cs

/-- Go `strings.Contains(s, sub)`. -/
def strContains (s sub : String) : Bool := containsChars sub.data s.data

/-- Go `strings.Split` with a one-character separator, on character lists:
the fields between the separators, one more than there are separators. -/
def splitChars (sep : Char) : List Char → List (List Char)
  | [] => [[]]
  | c :: cs =>
    if c = sep then [] :: splitChars sep cs
    else
      match splitChars sep cs with
      | [] => [[c]]
      | f :: fs => (c :: f) :: fs

/-- Go `strings.Split(s, sep)` for a one-character separator. -/
def strSplit (s : String) (sep : Char) : List String :=
  (splitChars sep s.data).map String.mk

/-! ## Commands, events and the collaborators -/

/-- Modelled from the spec: the command builder of the command executor
(section 6: a command template, an optional template context, live streaming
on by default, and a choice between full output and stdout only); its
declaration is not part of the sources. -/
structure Command where
  command : String
  params : Option Ctx
  stream : Bool
  stderr : Bool
deriving DecidableEq, Repr

/-- Modelled from the spec: `NewCommand(command)`, a plain command that streams
its output and captures stdout and stderr. -/
def NewCommand (command : String) : Command :=
  { command := command, params := none, stream := true, stderr := true }

/-- Modelled from the spec: `AsTemplate(ctx)`, the command string is a template
rendered with `ctx`. -/
def Command.AsTemplate (c : Command) (ctx : Ctx) : Command :=
  { c with params := some ctx }

/-- Modelled from the spec: `WithoutStreaming()`, output is captured silently. -/
def Command.WithoutStreaming (c : Command) : Command :=
  { c with stream := false }

/-- Modelled from the spec: `StdoutOnly()`, only stdout is captured. -/
def Command.StdoutOnly (c : Command) : Command :=
  { c with stderr := false }

/-- What a driver does to the outside, in the order it happens. -/
inductive Event where
  | log (msg : String)
  | exec (c : Command)
  | newClient (info : VaultInfo)
  | vaultGet (client : VaultClient) (path field : String)
  | vaultGetMany (client : VaultClient) (path : String) (fields : List String)
  | vaultReadIntoFile (client : VaultClient) (file path field : String)
  | removeFile (name : String)
deriving DecidableEq, Repr

/-- The two collaborators.  Every answer may depend on the whole history. -/
structure World where
  /-- the command executor: full output and error of one command -/
  exec : List Event → Command → String × Option GoError
  /-- the secret resolver factory `NewClient` -/
  newClient : List Event → VaultInfo → Option GoError
  /-- the secret resolver `Get(path, field)` -/
  get : List Event → VaultClient → String → String → String × Option GoError
  /-- the secret resolver `GetMany(path, fields...)` -/
  getMany : List Event → VaultClient → String → List String → List String × Option GoError
  /-- the secret resolver `ReadIntoFile(file, path, field)` -/
  readIntoFile : List Event → VaultClient → String → String → String → Option GoError

/-- How a Go call ends: it returns a value, or it panics. -/
inductive Res (α : Type) where
  | val (a : α)
  | panic (why : String)
deriving DecidableEq, Repr

/-- A Go computation: from the history so far to its end and the history then. -/
def Exec (α : Type) : Type := List Event → Res α × List Event

/-- Return without doing anything. -/
def Exec.pure {α : Type} (a : α) : Exec α := fun h => (Res.val a, h)

/-- Sequencing; a panic ends the computation. -/
def Exec.bind {α β : Type} (m : Exec α) (f : α → Exec β) : Exec β := fun h =>
  match m h with
  | (Res.val a, h1) => f a h1
  | (Res.panic why, h1) => (Res.panic why, h1)

instance : Monad Exec where
  pure := Exec.pure
  bind := Exec.bind

/-- The deferred call of a Go function: `fin` runs after `m`, also when `m`
panics, and the result of `m` is kept. -/
def Exec.deferring {α : Type} (m : Exec α) (fin : Event) : Exec α := fun h =>
  match m h with
  | (r, h1) => (r, h1 ++ [fin])

/-- `log.Print`, `log.Printf`, `log.Println`. -/
def logPrint (msg : String) : Exec Unit := fun h => (Res.val (), h ++ [Event.log msg])

/-- Indexing a Go slice: out of range panics. -/
def goIndex (xs : List String) (i : Nat) : Exec String := fun h =>
  match xs.get? i with
  | some x => (Res.val x, h)
  | none => (Res.panic "index out of range", h)

/-- Modelled from the spec: the one place where a command is executed; every
way of running a command of section 6 goes through it once. -/
def Command.output (w : World) (c : Command) : Exec (String × Option GoError) := fun h =>
  (Res.val (w.exec h c), h ++ [Event.exec c])

/-- Modelled from the spec: `run(...) -> (fullOutput, error)`, keeping the error. -/
def Command.Run (w : World) (c : Command) : Exec (Option GoError) := do
  let r ← c.output w
  pure r.2

/-- Modelled from the spec: `run(...) -> (fullOutput, error)`. -/
def Command.Output (w : World) (c : Command) : Exec (String × Option GoError) :=
  c.output w

/-- The non-empty lines of a text. -/
def nonEmptyLines (out : String) : List String :=
  (strSplit out '\n').filter (fun l => l ≠ "")

/-- Modelled from the spec: `outputLines(...) -> (list of non-empty lines, error)`.
The spec does not say which list comes with an error; it is taken empty, and
every caller returns the error without reading the list. -/
def Command.OutputList (w : World) (c : Command) : Exec (List String × Option GoError) := do
  let r ← c.output w
  match r.2 with
  | some e => pure ([], some e)
  | none => pure (nonEmptyLines r.1, none)

/-- Modelled from the spec: `outputContainsAny(..., substrings...) -> (bool, error)`:
whether the output contains one of the substrings, next to the command's own error. -/
def Command.OutputContainsAny (w : World) (c : Command) (tokens : List String) :
    Exec (Bool × Option GoError) := do
  let r ← c.output w
  pure (tokens.any (fun t => strContains r.1 t), r.2)

/-- Modelled from the spec: `NewClient(info)` of the secret resolver. -/
def NewClient (w : World) (info : VaultInfo) : Exec (VaultClient × Option GoError) := fun h =>
  (Res.val ({ info := info }, w.newClient h info), h ++ [Event.newClient info])

/-- Modelled from the spec: `getMany(path, fields...) -> (values in field order, error)`. -/
def VaultClient.GetMany (w : World) (c : VaultClient) (path : String) (fields : List String) :
    Exec (List String × Option GoError) := fun h =>
  (Res.val (w.getMany h c path fields), h ++ [Event.vaultGetMany c path fields])

/-- Modelled from the spec: `get(path, field) -> (value, error)`. -/
def VaultClient.Get (w : World) (c : VaultClient) (path field : String) :
    Exec (String × Option GoError) := fun h =>
  (Res.val (w.get h c path field), h ++ [Event.vaultGet c path field])

/-- Modelled from the spec: `readIntoFile(localPath, path, field) -> error`. -/
def VaultClient.ReadIntoFile (w : World) (c : VaultClient) (file path field : String) :
    Exec (Option GoError) := fun h =>
  (Res.val (w.readIntoFile h c file path field), h ++ [Event.vaultReadIntoFile c file path field])

/-! ## aks.go -/

def AksVaultPath : String := "secret/devops-ci/cloud-on-k8s/ci-azr-k8s-operator"

structure AksDriver where
  plan : Plan
  ctx : Ctx
  vaultClient : VaultClient
deriving DecidableEq, Repr

/-- The login command of `AksDriver.auth` in service-account mode. -/
def AksDriver.loginCmd (appID tenantSecret tenantID : String) : Command :=
  ((NewCommand "az login --service-principal -u {{.AppId}} -p {{.TenantSecret}} --tenant {{.TenantId}}").AsTemplate
    [("AppId", Value.str appID), ("TenantSecret", Value.str tenantSecret),
     ("TenantId", Value.str tenantID)]).WithoutStreaming

def AksDriver.auth (w : World) (d : AksDriver) : Exec (Option GoError) := do
  if d.plan.ServiceAccount then
    logPrint "Authenticating as service account..."
    let r ← d.vaultClient.GetMany w AksVaultPath ["appId", "password", "tenant"]
    match r.2 with
    | some err => pure (some err)
    | none =>
      let appID ← goIndex r.1 0
      let tenantSecret ← goIndex r.1 1
      let tenantID ← goIndex r.1 2
      (AksDriver.loginCmd appID tenantSecret tenantID).Run w
  else
    logPrint "Authenticating as user..."
    (NewCommand "az login").Run w

/-- The show command of `AksDriver.clusterExists`. -/
def AksDriver.clusterExistsCmd (d : AksDriver) : Command :=
  ((NewCommand "az aks show --name {{.ClusterName}} --resource-group {{.ResourceGroup}}").AsTemplate
    d.ctx).WithoutStreaming

def AksDriver.clusterExists (w : World) (d : AksDriver) : Exec (Bool × Option GoError) := do
  logPrint "Checking if cluster exists..."
  let r ← d.clusterExistsCmd.OutputContainsAny w ["not be found", "was not found"]
  if r.1 then
    pure (false, none)
  else
    pure (r.2.isNone, r.2)

/-- The create command of `AksDriver.create`, with the service principal flags appended. -/
def AksDriver.createCmd (d : AksDriver) (servicePrincipal : String) : Command :=
  (NewCommand ("az aks create --resource-group {{.ResourceGroup}} --name {{.ClusterName}} " ++
    "--node-count {{.NodeCount}} --node-vm-size {{.MachineType}} --kubernetes-version {{.KubernetesVersion}} " ++
    "--node-osdisk-size 30 --enable-addons http_application_routing,monitoring --generate-ssh-keys" ++
    servicePrincipal)).AsTemplate d.ctx

def AksDriver.create (w : World) (d : AksDriver) : Exec (Option GoError) := do
  logPrint "Creating cluster..."
  if d.plan.ServiceAccount then
    let r ← d.vaultClient.GetMany w AksVaultPath ["appId", "password"]
    match r.2 with
    | some err => pure (some err)
    | none =>
      let s0 ← goIndex r.1 0
      let s1 ← goIndex r.1 1
      (d.createCmd (" --service-principal " ++ s0 ++ " --client-secret " ++ s1)).Run w
  else
    (d.createCmd "").Run w

/-- The registry login command of `AksDriver.configureDocker`. -/
def AksDriver.acrLoginCmd (d : AksDriver) : Command :=
  (NewCommand "az acr login --name {{.AcrName}}").AsTemplate d.ctx

/-- The client id query of `AksDriver.configureDocker`. -/
def AksDriver.clientIdCmd (d : AksDriver) : Command :=
  ((NewCommand "az aks show --resource-group {{.ResourceGroup}} --name {{.ClusterName}} --query \"servicePrincipalProfile.clientId\" --output tsv").AsTemplate
    d.ctx).StdoutOnly

/-- The registry id query of `AksDriver.configureDocker`. -/
def AksDriver.acrIdCmd (d : AksDriver) : Command :=
  ((NewCommand "az acr show --resource-group {{.ResourceGroup}} --name {{.AcrName}} --query \"id\" --output tsv").AsTemplate
    d.ctx).StdoutOnly

/-- The role grant command of `AksDriver.configureDocker`. -/
def AksDriver.roleAssignmentCmd (clientId acrId : String) : Command :=
  (NewCommand "az role assignment create --assignee {{.ClientId}} --role acrpull --scope {{.AcrId}}").AsTemplate
    [("ClientId", Value.str clientId), ("AcrId", Value.str acrId)]

def AksDriver.configureDocker (w : World) (d : AksDriver) : Exec (Option GoError) := do
  logPrint "Configuring Docker..."
  let err ← d.acrLoginCmd.Run w
  match err with
  | some e => pure (some e)
  | none =>
    if d.plan.ServiceAccount then
      pure none
    else
      let clientIds ← d.clientIdCmd.OutputList w
      match clientIds.2 with
      | some e => pure (some e)
      | none =>
        let acrIds ← d.acrIdCmd.OutputList w
        match acrIds.2 with
        | some e => pure (some e)
        | none =>
          let clientId ← goIndex clientIds.1 0
          let acrId ← goIndex acrIds.1 0
          (AksDriver.roleAssignmentCmd clientId acrId).Run w

/-- The command of `AksDriver.GetCredentials`. -/
def AksDriver.getCredentialsCmd (d : AksDriver) : Command :=
  (NewCommand "az aks get-credentials --resource-group {{.ResourceGroup}} --name {{.ClusterName}}").AsTemplate
    d.ctx

def AksDriver.GetCredentials (w : World) (d : AksDriver) : Exec (Option GoError) := do
  logPrint "Getting credentials..."
  d.getCredentialsCmd.Run w

/-- The command of `AksDriver.delete`. -/
def AksDriver.deleteCmd (d : AksDriver) : Command :=
  (NewCommand "az aks delete --yes --name {{.ClusterName}} --resource-group {{.ResourceGroup}}").AsTemplate
    d.ctx

def AksDriver.delete (w : World) (d : AksDriver) : Exec (Option GoError) := do
  logPrint "Deleting cluster..."
  d.deleteCmd.Run w

def AksDriver.Execute (w : World) (d : AksDriver) : Exec (Option GoError) := do
  let err ← d.auth w
  match err with
  | some e => pure (some e)
  | none =>
    let r ← d.clusterExists w
    match r.2 with
    | some e => pure (some e)
    | none =>
      if d.plan.Operation = "delete" then
        if r.1 then
          let err ← d.delete w
          match err with
          | some e => pure (some e)
          | none => pure none
        else
          logPrint "not deleting as cluster doesn't exist"
          pure none
      else if d.plan.Operation = "create" then
        if r.1 then
          logPrint "not creating as cluster exists"
          let err ← d.GetCredentials w
          match err with
          | some e => pure (some e)
          | none => pure none
        else
          let err ← d.create w
          match err with
          | some e => pure (some e)
          | none =>
            let err ← d.configureDocker w
            match err with
            | some e => pure (some e)
            | none =>
              let err ← d.GetCredentials w
              match err with
              | some e => pure (some e)
              | none => pure none
      else
        pure (some { msg := "unknown operation " ++ d.plan.Operation })

/-! ## gke.go -/

def GkeVaultPath : String := "secret/devops-ci/cloud-on-k8s/ci-gcp-k8s-operator"

def GkeServiceAccountVaultFieldName : String := "service-account"

structure GkeDriver where
  plan : Plan
  ctx : Ctx
deriving DecidableEq, Repr

/-- The key file of `GkeDriver.auth`. -/
def GkeDriver.keyFileName : String := "gke_service_account_key.json"

/-- The login command of `GkeDriver.auth` in service-account mode. -/
def GkeDriver.activateCmd : Command :=
  NewCommand ("gcloud auth activate-service-account --key-file=" ++ GkeDriver.keyFileName)

/-- The account listing of `GkeDriver.auth` in interactive mode. -/
def GkeDriver.authListCmd : Command :=
  ((NewCommand "gcloud auth list \"--format=value(account)\"").StdoutOnly).WithoutStreaming

def GkeDriver.auth (w : World) (d : GkeDriver) : Exec (Option GoError) := do
  if d.plan.ServiceAccount then
    logPrint "Authenticating as service account..."
    match d.plan.VaultInfo with
    | none => fun h => (Res.panic "nil pointer dereference", h)
    | some info =>
      let c ← NewClient w info
      match c.2 with
      | some err => pure (some err)
      | none =>
        Exec.deferring (do
          let err ← c.1.ReadIntoFile w GkeDriver.keyFileName GkeVaultPath GkeServiceAccountVaultFieldName
          match err with
          | some e => pure (some e)
          | none => GkeDriver.activateCmd.Run w)
          (Event.removeFile GkeDriver.keyFileName)
  else
    logPrint "Authenticating as user..."
    let r ← GkeDriver.authListCmd.Output w
    match r.2 with
    | some err => pure (some err)
    | none =>
      if r.1.length > 0 then
        pure none
      else
        (NewCommand "gcloud auth login").Run w

/-- The describe command of `GkeDriver.clusterExists`. -/
def GkeDriver.clusterExistsCmd (d : GkeDriver) : Command :=
  ((NewCommand "gcloud beta container clusters --project {{.GCloudProject}} describe {{.ClusterName}} --region {{.Region}}").AsTemplate
    d.ctx).WithoutStreaming

def GkeDriver.clusterExists (w : World) (d : GkeDriver) : Exec (Bool × Option GoError) := do
  logPrint "Checking if cluster exists..."
  let r ← d.clusterExistsCmd.OutputContainsAny w ["Not found"]
  if r.1 then
    pure (false, none)
  else
    pure (r.2.isNone, r.2)

/-- The command of `GkeDriver.configSSH`. -/
def GkeDriver.configSSHCmd (d : GkeDriver) : Command :=
  (NewCommand "gcloud --quiet --project {{.GCloudProject}} compute config-ssh").AsTemplate d.ctx

def GkeDriver.configSSH (w : World) (d : GkeDriver) : Exec (Option GoError) := do
  logPrint "Configuring ssh..."
  d.configSSHCmd.Run w

/-- The create command of `GkeDriver.create`, with the pod security policy flag appended. -/
def GkeDriver.createCmd (d : GkeDriver) (pspOption : String) : Command :=
  (NewCommand ("gcloud beta container --project {{.GCloudProject}} clusters create {{.ClusterName}} " ++
    "--region {{.Region}} --username {{.AdminUsername}} --cluster-version {{.KubernetesVersion}} " ++
    "--machine-type {{.MachineType}} --image-type COS --disk-type pd-ssd --disk-size 30 " ++
    "--local-ssd-count {{.LocalSsdCount}} --scopes {{.GcpScopes}} --num-nodes {{.NodeCountPerZone}} " ++
    "--enable-cloud-logging --enable-cloud-monitoring --addons HorizontalPodAutoscaling,HttpLoadBalancing " ++
    "--no-enable-autoupgrade --no-enable-autorepair --network projects/{{.GCloudProject}}/global/networks/default " ++
    "--subnetwork projects/{{.GCloudProject}}/regions/{{.Region}}/subnetworks/default" ++
    pspOption)).AsTemplate d.ctx

def GkeDriver.create (w : World) (d : GkeDriver) : Exec (Option GoError) := do
  logPrint "Creating cluster..."
  (d.createCmd (if d.plan.Psp then " --enable-pod-security-policy" else "")).Run w

/-- The active account query of `GkeDriver.bindRoles`. -/
def GkeDriver.activeAccountCmd : Command :=
  NewCommand "gcloud auth list --filter=status:ACTIVE --format=\"value(account)\""

/-- The role binding command of `GkeDriver.bindRoles`. -/
def GkeDriver.bindCmd (user : String) : Command :=
  NewCommand ("kubectl create clusterrolebinding cluster-admin-binding --clusterrole=cluster-admin --user=" ++ user)

def GkeDriver.bindRoles (w : World) (_d : GkeDriver) : Exec (Option GoError) := do
  logPrint "Binding roles..."
  let r ← GkeDriver.activeAccountCmd.Output w
  match r.2 with
  | some err => pure (some err)
  | none => (GkeDriver.bindCmd r.1).Run w

/-- The instance listing of `GkeDriver.setMaxMapCount`. -/
def GkeDriver.instancesListCmd (d : GkeDriver) : Command :=
  ((NewCommand ("gcloud compute instances list --project={{.GCloudProject}} " ++
    "--filter=\"metadata.items.key['cluster-name']['value']='{{.ClusterName}}' AND metadata.items.key['cluster-name']['value']!='' \" " ++
    "--format=\"value[separator=','](name,zone)\"")).AsTemplate d.ctx).StdoutOnly

/-- The remote session of `GkeDriver.setMaxMapCount` for one instance. -/
def GkeDriver.sshCmd (d : GkeDriver) (name zone : String) : Command :=
  (NewCommand "gcloud -q compute ssh jenkins@{{.Name}} --project={{.GCloudProject}} --zone={{.Zone}} --command=\"sudo sysctl -w vm.max_map_count=262144\"").AsTemplate
    [("GCloudProject", Value.str d.plan.Gke.GCloudProject), ("Name", Value.str name),
     ("Zone", Value.str zone)]

/-- The loop of `GkeDriver.setMaxMapCount` over the listed instances. -/
def GkeDriver.setMaxMapCountLoop (w : World) (d : GkeDriver) : List String → Exec (Option GoError)
  | [] => pure none
  | instance_ :: rest => do
    match strSplit instance_ ',' with
    | [name, zone] =>
      let err ← (d.sshCmd name zone).Run w
      match err with
      | some e => pure (some e)
      | none => GkeDriver.setMaxMapCountLoop w d rest
    | _ => pure (some { msg := "instance " ++ instance_ ++ " could not be parsed" })

def GkeDriver.setMaxMapCount (w : World) (d : GkeDriver) : Exec (Option GoError) := do
  logPrint "Setting max map count..."
  let instances ← d.instancesListCmd.OutputList w
  match instances.2 with
  | some err => pure (some err)
  | none => d.setMaxMapCountLoop w instances.1

/-- The command of `GkeDriver.configureDocker`. -/
def GkeDriver.configureDockerCmd : Command :=
  NewCommand "gcloud auth configure-docker --quiet"

def GkeDriver.configureDocker (w : World) (_d : GkeDriver) : Exec (Option GoError) := do
  logPrint "Configuring Docker..."
  GkeDriver.configureDockerCmd.Run w

/-- The command of `GkeDriver.GetCredentials`. -/
def GkeDriver.getCredentialsCmd (d : GkeDriver) : Command :=
  (NewCommand "gcloud container clusters --project {{.GCloudProject}} get-credentials {{.ClusterName}} --region {{.Region}}").AsTemplate
    d.ctx

def GkeDriver.GetCredentials (w : World) (d : GkeDriver) : Exec (Option GoError) := do
  logPrint "Getting credentials..."
  d.getCredentialsCmd.Run w

/-- Go `strings.Replace(s, old, new, -1)` on character lists; `skip` counts the
characters of a match that are still to be dropped. -/
def replaceChars (old new : List Char) : Nat → List Char → List Char
  | _, [] => if old = [] then new else []
  | skip + 1, _ :: cs => replaceChars old new skip cs
  | 0, c :: cs =>
    if old = [] then new ++ c :: replaceChars old new 0 cs
    else if old.isPrefixOf (c :: cs) then new ++ replaceChars old new (old.length - 1) cs
    else c :: replaceChars old new 0 cs

/-- Go `strings.Replace(s, old, new, -1)`: every non-overlapping occurrence. -/
def strReplaceAll (s old new : String) : String :=
  String.mk (replaceChars old.data new.data 0 s.data)

/-- The two annotation keys `GkeDriver.patchStorageClass` looks under, in order. -/
def GkeDriver.defaultClassAnnotations : List String :=
  ["storageclass\\.kubernetes\\.io/is-default-class",
   "storageclass\\.beta\\.kubernetes\\.io/is-default-class"]

/-- The listing of the storage classes in `GkeDriver.patchStorageClass`. -/
def GkeDriver.getScCmd : Command := NewCommand "kubectl get sc"

/-- The query of `GkeDriver.patchStorageClass` for the classes marked default
under one annotation key. -/
def GkeDriver.defaultScCmd (annot : String) : Command :=
  NewCommand ("kubectl get sc -o=jsonpath=\"\x7b$.items[?(@.metadata.annotations." ++ annot ++
    "=='true')].metadata.name\x7d\"")

/-- The loop of `GkeDriver.patchStorageClass` over the annotation keys: the
first name found (the empty string when there is none), or the error of a query. -/
def GkeDriver.defaultScLoop (w : World) : List String → Exec (String × Option GoError)
  | [] => pure ("", none)
  | annot :: rest => do
    let baseScs ← (GkeDriver.defaultScCmd annot).OutputList w
    match baseScs.2 with
    | some err => pure ("", some err)
    | none =>
      match baseScs.1 with
      | name :: _ => pure (name, none)
      | [] => GkeDriver.defaultScLoop w rest

/-- The manifest query of `GkeDriver.patchStorageClass`. -/
def GkeDriver.getScYamlCmd (defaultName : String) : Command :=
  NewCommand ("kubectl get sc " ++ defaultName ++ " -o yaml")

/-- The manifest that `GkeDriver.patchStorageClass` applies. -/
def GkeDriver.customizedManifest (sc defaultName : String) : String :=
  strReplaceAll (strReplaceAll sc ("name: " ++ defaultName) "name: standard-customized")
    "volumeBindingMode: Immediate" "volumeBindingMode: WaitForFirstConsumer"

/-- The apply command of `GkeDriver.patchStorageClass`. -/
def GkeDriver.applyCmd (manifest : String) : Command :=
  NewCommand ("cat <<EOF | kubectl apply -f -\n" ++ manifest ++ "\nEOF")

/-- The final patch command of `GkeDriver.patchStorageClass`. -/
def GkeDriver.patchCmd (defaultName : String) : Command :=
  NewCommand ("kubectl patch storageclass " ++ defaultName ++
    " -p '\x7b \"metadata\": \x7b \"annotations\": \x7b \"storageclass.beta.kubernetes.io/is-default-class\":\"false\"\x7d \x7d \x7d'")

def GkeDriver.patchStorageClass (w : World) (_d : GkeDriver) : Exec (Option GoError) := do
  logPrint "Patching storage class..."
  let r ← GkeDriver.getScCmd.OutputContainsAny w ["standard-customized"]
  match r.2 with
  | some err => pure (some err)
  | none =>
    if r.1 then
      pure none
    else
      let found ← GkeDriver.defaultScLoop w GkeDriver.defaultClassAnnotations
      match found.2 with
      | some err => pure (some err)
      | none =>
        if found.1 = "" then
          pure (some { msg := "default storageclass not found" })
        else
          let sc ← (GkeDriver.getScYamlCmd found.1).Output w
          match sc.2 with
          | some err => pure (some err)
          | none =>
            let err ← (GkeDriver.applyCmd (GkeDriver.customizedManifest sc.1 found.1)).Run w
            match err with
            | some e => pure (some e)
            | none => (GkeDriver.patchCmd found.1).Run w

/-- The cluster delete command of `GkeDriver.delete`. -/
def GkeDriver.deleteCmd (d : GkeDriver) : Command :=
  (NewCommand "gcloud beta --quiet --project {{.GCloudProject}} container clusters delete {{.ClusterName}} --region {{.Region}}").AsTemplate
    d.ctx

/-- The listing of the unattached disks in `GkeDriver.delete`. -/
def GkeDriver.disksListCmd (d : GkeDriver) : Command :=
  ((NewCommand "gcloud compute disks list --filter=\"-users:*\" --format=\"value[separator=','](name,zone)\" --project {{.GCloudProject}}").AsTemplate
    d.ctx).StdoutOnly

/-- The delete command of `GkeDriver.delete` for one disk. -/
def GkeDriver.diskDeleteCmd (d : GkeDriver) (name zone : String) : Command :=
  (NewCommand "gcloud compute disks delete {{.Name}} --project {{.GCloudProject}} --zone {{.Zone}} --quiet").AsTemplate
    [("GCloudProject", Value.str d.plan.Gke.GCloudProject), ("Name", Value.str name),
     ("Zone", Value.str zone)]

/-- The loop of `GkeDriver.delete` over the listed disks. -/
def GkeDriver.deleteLoop (w : World) (d : GkeDriver) : List String → Exec (Option GoError)
  | [] => pure none
  | disk :: rest => do
    match strSplit disk ',' with
    | [name, zone] =>
      let err ← (d.diskDeleteCmd name zone).Run w
      match err with
      | some e => pure (some e)
      | none => GkeDriver.deleteLoop w d rest
    | _ => pure (some { msg := "disk name and zone contained unexpected number of fields" })

def GkeDriver.delete (w : World) (d : GkeDriver) : Exec (Option GoError) := do
  logPrint "Deleting cluster..."
  let err ← d.deleteCmd.Run w
  match err with
  | some e => pure (some e)
  | none =>
    let disks ← d.disksListCmd.OutputList w
    match disks.2 with
    | some e => pure (some e)
    | none => d.deleteLoop w disks.1

/-- The steps of the create case of `GkeDriver.Execute` that run only when the
cluster does not exist yet. -/
def GkeDriver.createSteps (w : World) (d : GkeDriver) : Exec (Option GoError) := do
  let err ← d.configSSH w
  match err with
  | some e => pure (some e)
  | none =>
    let err ← d.create w
    match err with
    | some e => pure (some e)
    | none =>
      let err ← d.bindRoles w
      match err with
      | some e => pure (some e)
      | none => pure none

/-- The steps of the create case of `GkeDriver.Execute` that follow the
`if exists` statement and so run whether or not the cluster existed. -/
def GkeDriver.commonSteps (w : World) (d : GkeDriver) : Exec (Option GoError) := do
  let err ← d.GetCredentials w
  match err with
  | some e => pure (some e)
  | none =>
    let err ← (if d.plan.VmMapMax then d.setMaxMapCount w else pure none)
    match err with
    | some e => pure (some e)
    | none =>
      let err ← d.configureDocker w
      match err with
      | some e => pure (some e)
      | none =>
        let err ← d.patchStorageClass w
        match err with
        | some e => pure (some e)
        | none => pure none

def GkeDriver.Execute (w : World) (d : GkeDriver) : Exec (Option GoError) := do
  let err ← d.auth w
  match err with
  | some e => pure (some e)
  | none =>
    let r ← d.clusterExists w
    match r.2 with
    | some e => pure (some e)
    | none =>
      if d.plan.Operation = "delete" then
        if r.1 then
          d.delete w
        else
          logPrint "not deleting as cluster doesn't exist"
          pure none
      else if d.plan.Operation = "create" then
        if r.1 then
          logPrint "not creating as cluster exists"
          d.commonSteps w
        else
          let err ← d.createSteps w
          match err with
          | some e => pure (some e)
          | none => d.commonSteps w
      else
        pure (some { msg := "unknown operation " ++ d.plan.Operation })

/-! ## Worlds and plans used as concrete inputs -/

/-- A world without memory: every command answers by `run`, the secret
resolver is always available and resolves every lookup to `secrets`. -/
def World.scripted (run : Command → String × Option GoError) (secrets : List String) : World where
  exec := fun _ c => run c
  newClient := fun _ _ => none
  get := fun _ _ _ _ => (secrets.headD "", none)
  getMany := fun _ _ _ _ => (secrets, none)
  readIntoFile := fun _ _ _ _ _ => none

/-- A world in which every command succeeds and prints `out`. -/
def World.quiet (out : String) : World := World.scripted (fun _ => (out, none)) ["id", "pw", "tenant"]

/-- A world in which the cluster is absent: the show and describe commands of
the existence checks fail with a not-found message, every other command
succeeds and prints nothing. -/
def World.absent : World :=
  World.scripted (fun c =>
    if strContains c.command " show --name " || strContains c.command " describe " then
      ("ERROR: Not found: the resource could not be found", some { msg := "exit status 1" })
    else ("", none)) ["id", "pw", "tenant"]

/-- A plan for cluster `t1` with the given operation, interactive login. -/
def samplePlan (operation : String) : Plan :=
  { Provider := "gke", Operation := operation, ClusterName := "t1", MachineType := "n1-standard-8",
    KubernetesVersion := "1.12", ServiceAccount := false, VaultInfo := some { handle := "vault" },
    Aks := { ResourceGroup := "rg", AcrName := "acr", NodeCount := 3 },
    Gke := { GCloudProject := "proj", Region := "europe-west1", AdminUsername := "admin",
             LocalSsdCount := 1, GcpScopes := "compute-rw", NodeCountPerZone := 1 },
    Psp := false, VmMapMax := false }

/-- The context `AksDriverFactory.Create` builds from a plan. -/
def AksDriver.ctxOf (plan : Plan) : Ctx :=
  [("ResourceGroup", Value.str plan.Aks.ResourceGroup), ("ClusterName", Value.str plan.ClusterName),
   ("NodeCount", Value.int plan.Aks.NodeCount), ("MachineType", Value.str plan.MachineType),
   ("KubernetesVersion", Value.str plan.KubernetesVersion), ("AcrName", Value.str plan.Aks.AcrName)]

/-- The context `GkeDriverFactory.Create` builds from a plan. -/
def GkeDriver.ctxOf (plan : Plan) : Ctx :=
  [("GCloudProject", Value.str plan.Gke.GCloudProject), ("ClusterName", Value.str plan.ClusterName),
   ("Region", Value.str plan.Gke.Region), ("AdminUsername", Value.str plan.Gke.AdminUsername),
   ("KubernetesVersion", Value.str plan.KubernetesVersion), ("MachineType", Value.str plan.MachineType),
   ("LocalSsdCount", Value.int plan.Gke.LocalSsdCount), ("GcpScopes", Value.str plan.Gke.GcpScopes),
   ("NodeCountPerZone", Value.int plan.Gke.NodeCountPerZone)]

/-- An AKS driver for `samplePlan`. -/
def sampleAks (operation : String) : AksDriver :=
  { plan := samplePlan operation, ctx := AksDriver.ctxOf (samplePlan operation),
    vaultClient := { info := { handle := "vault" } } }

/-- A GKE driver for `samplePlan`. -/
def sampleGke (operation : String) : GkeDriver :=
  { plan := samplePlan operation, ctx := GkeDriver.ctxOf (samplePlan operation) }

/-- A GKE driver for `samplePlan` with `VmMapMax` set. -/
def sampleGkeVmMapMax (operation : String) : GkeDriver :=
  { plan := { samplePlan operation with VmMapMax := true },
    ctx := GkeDriver.ctxOf { samplePlan operation with VmMapMax := true } }

/-- A world with one instance: the instance listing prints one line with a
name and a zone, every other command succeeds and prints `out`. -/
def World.oneInstance (out : String) : World :=
  World.scripted (fun c =>
    if "gcloud compute instances list".data.isPrefixOf c.command.data then
      ("node-1,europe-west1-b", none)
    else (out, none)) ["id", "pw", "tenant"]

/-- A world in which every command prints `out` and fails with `err`. -/
def World.failing (out : String) (err : GoError) : World :=
  World.scripted (fun _ => (out, some err)) ["id", "pw", "tenant"]

/-- A world in which the disk listing prints `listing`, every disk delete ends
with `deleteErr`, and every other command succeeds and prints nothing. -/
def World.disks (listing : String) (deleteErr : Option GoError) : World :=
  World.scripted (fun c =>
    if "gcloud compute disks list".data.isPrefixOf c.command.data then (listing, none)
    else if "gcloud compute disks delete".data.isPrefixOf c.command.data then ("", deleteErr)
    else ("", none)) ["id", "pw", "tenant"]

/-- `samplePlan` with service-account login. -/
def samplePlanSA (operation : String) : Plan :=
  { samplePlan operation with ServiceAccount := true }

/-- An AKS driver for `samplePlanSA`. -/
def sampleAksSA (operation : String) : AksDriver :=
  { plan := samplePlanSA operation, ctx := AksDriver.ctxOf (samplePlanSA operation),
    vaultClient := { info := { handle := "vault" } } }

/-- A GKE driver for `samplePlanSA`. -/
def sampleGkeSA (operation : String) : GkeDriver :=
  { plan := samplePlanSA operation, ctx := GkeDriver.ctxOf (samplePlanSA operation) }

/-- A command whose text begins with `p`. -/
def Command.startsWith (c : Command) (p : String) : Bool :=
  p.data.isPrefixOf c.command.data

/-- The role grant of AKS post-configuration: an `az role assignment create` command. -/
def AksDriver.isRoleAssignmentCmd (c : Command) : Bool :=
  c.startsWith "az role assignment create"

/-- A listed line splits on "," into exactly two fields. -/
def twoFields (line : String) : Bool :=
  (strSplit line ',').length == 2

/-- The disk delete command for a listed line: its first field is the name,
its second the zone. -/
def GkeDriver.diskDeleteCmdOf (d : GkeDriver) (line : String) : Command :=
  d.diskDeleteCmd ((strSplit line ',').getD 0 "") ((strSplit line ',').getD 1 "")

/-- A world in which the cluster is absent for the existence check `probe`:
that command fails with a not-found message, every other command succeeds
and prints `out`. -/
def World.absentFor (probe : Command) (out : String) : World :=
  World.scripted (fun c =>
    if c = probe then
      ("ERROR: Not found: the resource could not be found", some { msg := "exit status 1" })
    else (out, none)) ["id", "pw", "tenant"]

/-- The pre-create step of GKE: the `compute config-ssh` command. -/
def GkeDriver.isConfigSSHCmd (c : Command) : Bool :=
  c.startsWith "gcloud --quiet --project {{.GCloudProject}} compute config-ssh"

/-- The create step of GKE: the `clusters create` command. -/
def GkeDriver.isClusterCreateCmd (c : Command) : Bool :=
  c.startsWith "gcloud beta container --project {{.GCloudProject}} clusters create"

/-- The role binding step of GKE: the `kubectl create clusterrolebinding` command. -/
def GkeDriver.isRoleBindingCmd (c : Command) : Bool :=
  c.startsWith "kubectl create clusterrolebinding"

/-- The max-map-count step of GKE: the instance listing and the remote sessions. -/
def GkeDriver.isMaxMapCountCmd (c : Command) : Bool :=
  c.startsWith "gcloud compute instances list" || c.startsWith "gcloud -q compute ssh"

/-- The registry helper step of GKE: the `auth configure-docker` command. -/
def GkeDriver.isConfigureDockerCmd (c : Command) : Bool :=
  c.startsWith "gcloud auth configure-docker"

/-- The storage class step of GKE: the `kubectl get sc` queries, the apply of
the cloned manifest and the `kubectl patch storageclass` command. -/
def GkeDriver.isStorageClassCmd (c : Command) : Bool :=
  c.startsWith "kubectl get sc" || c.startsWith "cat <<EOF | kubectl apply" ||
    c.startsWith "kubectl patch storageclass"

/-- Every command that `m` issues, from any history, satisfies `P`; the
history is only ever extended. -/
def Emits {α : Type} (m : Exec α) (P : Command → Prop) : Prop :=
  ∀ h : List Event, ∃ new : List Event, (m h).2 = h ++ new ∧ ∀ c, Event.exec c ∈ new → P c

/-- A request to one of the collaborators: a command or a secret lookup. -/
def Event.isRequest : Event → Bool
  | Event.log _ => false
  | Event.removeFile _ => false
  | _ => true

/-- The error with which the world answers the request `ev` made at history `H`. -/
def World.failure (w : World) (H : List Event) : Event → Option GoError
  | Event.exec c => (w.exec H c).2
  | Event.newClient info => w.newClient H info
  | Event.vaultGet c path field => (w.get H c path field).2
  | Event.vaultGetMany c path fields => (w.getMany H c path fields).2
  | Event.vaultReadIntoFile c file path field => w.readIntoFile H c file path field
  | Event.log _ => none
  | Event.removeFile _ => none

/-- The event `ev` at history `H` is the existence check `probe` with an output
that contains one of the not-found substrings `tokens`. -/
def reclassified (w : World) (probe : Command) (tokens : List String) (H : List Event)
    (ev : Event) : Prop :=
  ev = Event.exec probe ∧ tokens.any (fun t => strContains (w.exec H probe).1 t) = true

/-- The result of a call, seen through a function on its value. -/
def Res.map {α β : Type} (f : α → β) : Res α → Res β
  | Res.val a => Res.val (f a)
  | Res.panic why => Res.panic why

/-- The events `new`, that follow the history `h` and end with the result `r`,
abort on failure: a request in `new` that fails with `e`, and is not exempted by
`X`, is followed by no further request and `r` is the error `e`. -/
def Obeys (w : World) (X : List Event → Event → Prop) (h new : List Event)
    (r : Res (Option GoError)) : Prop :=
  ∀ (pre : List Event) (ev : Event) (post : List Event) (e : GoError),
    new = pre ++ ev :: post → w.failure (h ++ pre) ev = some e → ¬ X (h ++ pre) ev →
      (∀ x ∈ post, x.isRequest = false) ∧ r = Res.val (some e)

/-- The computation `m`, whose value carries the error `errOf`, aborts on
failure from every history. -/
def FailFast (w : World) (X : List Event → Event → Prop) {α : Type}
    (errOf : α → Option GoError) (m : Exec α) : Prop :=
  ∀ h : List Event, ∃ new : List Event, (m h).2 = h ++ new ∧ Obeys w X h new ((m h).1.map errOf)

/-! ## The driver factories -/

def AksResourceGroupVaultFieldName : String := "resource-group"

def AksAcrNameVaultFieldName : String := "acr-name"

/-- The value of a plan field after the statement
`if field == "" { v, err := vaultClient.Get(AksVaultPath, name); ...; field = v }`
of `AksDriverFactory.Create`, next to the error of the lookup. -/
def AksDriverFactory.resolve (w : World) (client : VaultClient) (field name : String) :
    Exec (String × Option GoError) :=
  if field = "" then client.Get w AksVaultPath name else pure (field, none)

def AksDriverFactory.Create (w : World) (plan : Plan) : Exec (Option AksDriver × Option GoError) := do
  match plan.VaultInfo with
  | none => fun h => (Res.panic "nil pointer dereference", h)
  | some info =>
    let c ← NewClient w info
    match c.2 with
    | some err => pure (none, some err)
    | none =>
      let resourceGroup ← AksDriverFactory.resolve w c.1 plan.Aks.ResourceGroup
        AksResourceGroupVaultFieldName
      match resourceGroup.2 with
      | some err => pure (none, some err)
      | none =>
        let acrName ← AksDriverFactory.resolve w c.1 plan.Aks.AcrName AksAcrNameVaultFieldName
        match acrName.2 with
        | some err => pure (none, some err)
        | none =>
          pure (some
            { plan := { plan with Aks := { plan.Aks with ResourceGroup := resourceGroup.1,
                                                         AcrName := acrName.1 } },
              ctx := AksDriver.ctxOf { plan with Aks := { plan.Aks with
                ResourceGroup := resourceGroup.1, AcrName := acrName.1 } },
              vaultClient := c.1 }, none)

def GkeDriverFactory.Create (_w : World) (plan : Plan) : Exec (Option GkeDriver × Option GoError) :=
  pure (some { plan := plan, ctx := GkeDriver.ctxOf plan }, none)

/-- The value a context holds for a key. -/
def ctxGet (ctx : Ctx) (key : String) : Option Value :=
  (ctx.find? (fun kv => kv.1 == key)).map Prod.snd

/-- `samplePlan` with the provider-specific fields of both providers left empty. -/
def samplePlanEmpty (operation : String) : Plan :=
  { samplePlan operation with
    Aks := { ResourceGroup := "", AcrName := "", NodeCount := 3 },
    Gke := { GCloudProject := "", Region := "", AdminUsername := "admin",
             LocalSsdCount := 1, GcpScopes := "compute-rw", NodeCountPerZone := 1 } }

/-- A world in which the instance listing prints `listing` and every other
command succeeds and prints nothing. -/
def World.instances (listing : String) : World :=
  World.scripted (fun c =>
    if "gcloud compute instances list".data.isPrefixOf c.command.data then (listing, none)
    else ("", none)) ["id", "pw", "tenant"]

/-- The manifest of a default storage class named "standard". -/
def standardManifest : String :=
  "kind: StorageClass\nmetadata:\n  annotations:\n    storageclass.kubernetes.io/is-default-class: \"true\"\n  name: standard\nvolumeBindingMode: Immediate\n"

/-- A world in which the class "standard" is the default under the primary
annotation key: the query under that key prints its name, the manifest query
prints `standardManifest`, every other command succeeds and prints nothing. -/
def World.defaultUnderPrimaryKey : World :=
  World.scripted (fun c =>
    if c = GkeDriver.defaultScCmd "storageclass\\.kubernetes\\.io/is-default-class" then
      ("standard", none)
    else if c = GkeDriver.getScYamlCmd "standard" then (standardManifest, none)
    else ("", none)) ["id", "pw", "tenant"]

/-! ## Template variables -/

/-- A character of the name of a template variable. -/
def isNameChar (c : Char) : Bool := c.isAlphanum || c == '_'

/-- The longest name a text begins with, and the rest of the text. -/
def takeName : List Char → List Char × List Char
  | [] => ([], [])
  | c :: cs => if isNameChar c then (c :: (takeName cs).1, (takeName cs).2) else ([], c :: cs)

/-- The opening of a template action that reads a variable: two braces and a dot. -/
def actionOpen : List Char := ['\x7b', '\x7b', '.']

/-- The closing of a template action: two braces. -/
def actionClose : List Char := ['\x7d', '\x7d']

/-- The variable `X` when the text begins with the action that reads `X`
(opening, name, closing), the only form of action in the command templates. -/
def actionAt (cs : List Char) : Option String :=
  if actionOpen.isPrefixOf cs then
    if (takeName (cs.drop 3)).1 ≠ [] ∧ actionClose.isPrefixOf (takeName (cs.drop 3)).2 then
      some (String.mk (takeName (cs.drop 3)).1)
    else none
  else none

/-- The variables that the actions of a template text read, in order. -/
def templateVars : List Char → List String
  | [] => []
  | c :: cs => (actionAt (c :: cs)).toList ++ templateVars cs

/-- Every variable that the text of the command reads is a key of the context
the command is rendered with; a command that is not a template reads none. -/
def Command.wellKeyed (c : Command) : Bool :=
  match c.params with
  | none => true
  | some ps => (templateVars c.command.data).all (fun v => ps.any (fun kv => kv.1 == v))

/-- A world in which the secret resolver returns `secrets` and the cluster is
absent for the existence check `probe`; every other command succeeds and
prints nothing. -/
def World.absentWithSecrets (probe : Command) (secrets : List String) : World :=
  World.scripted (fun c =>
    if c = probe then
      ("ERROR: Not found: the resource could not be found", some { msg := "exit status 1" })
    else ("", none)) secrets

/-! ## Rewriting every occurrence -/

/-- The text `r` is the text `s` with every occurrence of `old`, taken from the
left and without overlap, rewritten to `new`, and the rest unchanged: either
`old` does not occur in `s` and `r` is `s`, or `s` is a text `a`, then `old`,
then a text `b`, where no occurrence of `old` begins in `a`, and `r` is `a`,
then `new`, then the rewriting of `b`. -/
inductive Rewrites (old new : List Char) : List Char → List Char → Prop where
  | done (s : List Char) : containsChars old s = false → Rewrites old new s s
  | step (a b r : List Char) : containsChars old (a ++ old.dropLast) = false →
      Rewrites old new b r → Rewrites old new (a ++ old ++ b) (a ++ new ++ r)

end Runner

/-! ## pod.go (package sset) -/

namespace Sset

open Runner

/-- The character of a decimal digit. -/
def digitChar (d : Nat) : Char := Char.ofNat (48 + d)

/-- The decimal digits of `n`, least significant first; `fuel` bounds their number. -/
def decimalRev : Nat → Nat → List Char
  | 0, _ => []
  | fuel + 1, n => digitChar (n % 10) :: (if n < 10 then [] else decimalRev fuel (n / 10))

/-- The decimal digits of a natural number, most significant first. -/
def natDecimal (n : Nat) : List Char := (decimalRev (n + 1) n).reverse

/-- Go `%d` of an integer: a minus sign for a negative number, then the digits. -/
def intDecimal (i : Int) : List Char :=
  if i < 0 then '-' :: natDecimal (-i).toNat else natDecimal i.toNat

/-- The value of a decimal digit character. -/
def digitValue (c : Char) : Option Nat :=
  if 48 ≤ c.toNat ∧ c.toNat ≤ 57 then some (c.toNat - 48) else none

/-- One step of reading decimal digits from the left. -/
def parseStep (acc : Option Nat) (c : Char) : Option Nat :=
  match acc, digitValue c with
  | some a, some d => some (a * 10 + d)
  | _, _ => none

/-- The number written by a list of decimal digits, without a bound; `none`
when a character is not a digit.  It is what `parseUintLoop` computes below its
bound, and is used to state that. -/
def parseDigits (cs : List Char) : Option Nat := cs.foldl parseStep (some 0)

/-- The digits of `lowerhex` in package `strconv`: "0123456789abcdef". -/
def lowerhex (d : Nat) : Char :=
  if d < 10 then Char.ofNat (48 + d) else Char.ofNat (87 + d)

/-- Go `strconv.IsPrint`.  Latin-1 is decided in the code: space to `~` and
U+00A1 to U+00FF without the soft hyphen U+00AD.  Above U+00FF Go consults
tables generated from the Unicode data of its release; they are not part of
the sources and are the parameter `printable`. -/
def IsPrint (printable : Char → Bool) (r : Char) : Bool :=
  if r.toNat ≤ 255 then
    if 32 ≤ r.toNat ∧ r.toNat ≤ 126 then true
    else if 161 ≤ r.toNat then r.toNat != 173
    else false
  else printable r

/-- What `strconv.Quote` writes for one rune: the double quote and the
backslash behind a backslash, a printable rune as it is, the control
characters with a short name by that name, the other ones below the space and
U+007F as `\x` and two hexadecimal digits (older Go releases wrote U+007F as
`\u007f`), every other rune as `\u` and four or `\U` and eight hexadecimal
digits. -/
def quoteRune (printable : Char → Bool) (r : Char) : List Char :=
  if r = Char.ofNat 34 ∨ r = Char.ofNat 92 then [Char.ofNat 92, r]
  else if IsPrint printable r then [r]
  else if r.toNat = 7 then [Char.ofNat 92, 'a']
  else if r.toNat = 8 then [Char.ofNat 92, 'b']
  else if r.toNat = 12 then [Char.ofNat 92, 'f']
  else if r.toNat = 10 then [Char.ofNat 92, 'n']
  else if r.toNat = 13 then [Char.ofNat 92, 'r']
  else if r.toNat = 9 then [Char.ofNat 92, 't']
  else if r.toNat = 11 then [Char.ofNat 92, 'v']
  else if r.toNat < 32 ∨ r.toNat = 127 then
    [Char.ofNat 92, 'x', lowerhex (r.toNat / 16 % 16), lowerhex (r.toNat % 16)]
  else if r.toNat < 65536 then
    [Char.ofNat 92, 'u', lowerhex (r.toNat / 4096 % 16), lowerhex (r.toNat / 256 % 16),
      lowerhex (r.toNat / 16 % 16), lowerhex (r.toNat % 16)]
  else
    [Char.ofNat 92, 'U', lowerhex (r.toNat / 268435456 % 16), lowerhex (r.toNat / 16777216 % 16),
      lowerhex (r.toNat / 1048576 % 16), lowerhex (r.toNat / 65536 % 16),
      lowerhex (r.toNat / 4096 % 16), lowerhex (r.toNat / 256 % 16),
      lowerhex (r.toNat / 16 % 16), lowerhex (r.toNat % 16)]

/-- Go `strconv.Quote`: the text between double quotes, rune by rune.  A Lean
string is a sequence of Unicode scalar values, so the text is valid UTF-8. -/
def Quote (printable : Char → Bool) (s : String) : String :=
  String.mk (Char.ofNat 34 :: (s.data.flatMap (quoteRune printable) ++ [Char.ofNat 34]))

/-- The two errors of package `strconv`. -/
inductive NumErr where
  | ErrSyntax
  | ErrRange
deriving DecidableEq, Repr

/-- The message of a `*strconv.NumError`:
`"strconv." + Func + ": parsing " + Quote(Num) + ": " + Err.Error()`. -/
def numError (printable : Char → Bool) (fn num : String) (err : NumErr) : GoError :=
  { msg := "strconv." ++ fn ++ ": parsing " ++ Quote printable num ++ ": " ++
      (match err with
       | NumErr.ErrSyntax => "invalid syntax"
       | NumErr.ErrRange => "value out of range") }

/-- The loop of `strconv.ParseUint` for base 10 and 64 bits, from the left: a
character that is not a digit is a syntax error; a digit that takes the number
read so far beyond 2^64 - 1 is a range error with the value 2^64 - 1.  The
first of the two ends the loop. -/
def parseUintLoop : Nat → List Char → Nat × Option NumErr
  | n, [] => (n, none)
  | n, c :: cs =>
    match digitValue c with
    | none => (0, some NumErr.ErrSyntax)
    | some d =>
      if n ≥ 1844674407370955162 then (18446744073709551615, some NumErr.ErrRange)
      else if n * 10 + d > 18446744073709551615 then
        (18446744073709551615, some NumErr.ErrRange)
      else parseUintLoop (n * 10 + d) cs

/-- Go `strconv.ParseUint(s, 10, 64)`. -/
def ParseUint (cs : List Char) : Nat × Option NumErr :=
  if cs = [] then (0, some NumErr.ErrSyntax) else parseUintLoop 0 cs

/-- Go `strconv.ParseInt(s, 10, 0)` on a 64-bit platform: an optional sign,
then `ParseUint`; a syntax error gives 0, a range error of `ParseUint` or a
value beyond the bounds of `int64` gives the nearest bound. -/
def ParseInt (cs : List Char) : Int × Option NumErr :=
  match cs with
  | [] => (0, some NumErr.ErrSyntax)
  | c :: r =>
    match ParseUint (if c = '+' ∨ c = '-' then r else c :: r) with
    | (_, some NumErr.ErrSyntax) => (0, some NumErr.ErrSyntax)
    | (un, _) =>
      if c ≠ '-' ∧ un ≥ 9223372036854775808 then
        (9223372036854775807, some NumErr.ErrRange)
      else if c = '-' ∧ un > 9223372036854775808 then
        (-9223372036854775808, some NumErr.ErrRange)
      else (if c = '-' then -(un : Int) else (un : Int), none)

/-- Go `strconv.Atoi` on a 64-bit platform: `ParseInt(s, 10, 0)` with the
function name of the error set to "Atoi".  The short cut of `Atoi` for texts of
fewer than 19 bytes returns the same value and the same error as `ParseInt`
on every such text and is not written out. -/
def Atoi (printable : Char → Bool) (s : String) : Int × Option GoError :=
  match ParseInt s.data with
  | (i, some err) => (i, some (numError printable "Atoi" s err))
  | (i, none) => (i, none)

/-- The Go conversion `int32(x)`: wrapping to 32 bits. -/
def toInt32 (x : Int) : Int := (x + 2147483648) % 4294967296 - 2147483648

/-- Go `strings.LastIndex` for a one-character separator, on character lists:
the position of its last occurrence, -1 when there is none. -/
def lastIndexChars (sep : Char) : List Char → Int
  | [] => -1
  | c :: cs =>
    if lastIndexChars sep cs ≥ 0 then lastIndexChars sep cs + 1
    else if c = sep then 0
    else -1

/-- Go `strings.LastIndex(s, sep)` for a one-character separator that is ASCII.
Positions count characters; the drivers use them only to slice the same string. -/
def LastIndex (s : String) (sep : Char) : Int := lastIndexChars sep s.data

/-- The Go slice expression `s[i:]`: it panics when `i` is out of range. -/
def sliceFrom (s : String) (i : Int) : Res String :=
  if 0 ≤ i ∧ i ≤ s.data.length then Res.val (String.mk (s.data.drop i.toNat))
  else Res.panic "slice bounds out of range"

/-- The Go slice expression `s[:j]`: it panics when `j` is out of range. -/
def sliceTo (s : String) (j : Int) : Res String :=
  if 0 ≤ j ∧ j ≤ s.data.length then Res.val (String.mk (s.data.take j.toNat))
  else Res.panic "slice bounds out of range"

/-- PodName returns the name of the pod with the given ordinal for this StatefulSet. -/
def PodName (ssetName : String) (ordinal : Int) : String :=
  ssetName ++ "-" ++ String.mk (intDecimal ordinal)

/-- The part of `appsv1.StatefulSet` that pod.go reads.  `Replicas` stands for
the value of `GetReplicas(sset)`, a helper that is not part of the sources; it
is an `int32`, so it can be negative. -/
structure StatefulSet where
  Name : String
  Namespace : String
  Replicas : Int
deriving DecidableEq, Repr

/-- The part of `corev1.Pod` that pod.go reads. -/
structure Pod where
  Name : String
deriving DecidableEq, Repr

/-- PodNames returns the names of the pods for this StatefulSet, according to
the number of replicas.  `make([]string, 0, GetReplicas(sset))` panics for a
negative capacity; then the loop `for i := int32(0); i < GetReplicas(sset); i++`
appends one name for each ordinal. -/
def PodNames (sset : StatefulSet) : Res (List String) :=
  if sset.Replicas < 0 then Res.panic "makeslice: cap out of range"
  else Res.val ((List.range sset.Replicas.toNat).map (fun (i : Nat) => PodName sset.Name (i : Int)))

/-- The options of a listing: a namespace and a label selector. -/
structure ListOptions where
  Namespace : String
  LabelSelector : List (String × String)
deriving DecidableEq, Repr

/-- The Kubernetes client, as far as pod.go uses it: the answer of `c.List`. -/
abbrev Client := ListOptions → List Pod × Option GoError

/-- GetActualPodsForStatefulSet returns the existing pods associated to this
StatefulSet.  The name of the label, `label.StatefulSetNameLabelName`, is a
constant that is not part of the sources and is taken as a parameter. -/
def GetActualPodsForStatefulSet (labelName : String) (c : Client) (sset : StatefulSet) :
    List Pod × Option GoError :=
  match c { Namespace := sset.Namespace, LabelSelector := [(labelName, sset.Name)] } with
  | (_, some err) => ([], some err)
  | (items, none) => (items, none)

/-- Modelled from the spec: `k8s.PodNames` is not part of the sources; it is
taken to return the names of the pods, in order. -/
def k8sPodNames (pods : List Pod) : List String := pods.map (fun p => p.Name)

/-- Modelled from the spec: `stringsutil.StringsInSlice(a, b)` is not part of the
sources; it is taken to mean that every string of `a` occurs in `b`. -/
def StringsInSlice (a b : List String) : Bool := a.all (fun s => b.contains s)

/-- PodReconciliationDoneForSset: all expected pods are there, no more, no
less.  The pods are listed first; `PodNames` is called only after a successful
listing.  The log line of the negative case is not modelled. -/
def PodReconciliationDoneForSset (labelName : String) (c : Client) (statefulSet : StatefulSet) :
    Res (Bool × Option GoError) :=
  match GetActualPodsForStatefulSet labelName c statefulSet with
  | (_, some err) => Res.val (false, some err)
  | (actualPods, none) =>
    match PodNames statefulSet with
    | Res.panic why => Res.panic why
    | Res.val expectedPodNames =>
      if !(decide ((k8sPodNames actualPods).length = expectedPodNames.length) &&
           StringsInSlice expectedPodNames (k8sPodNames actualPods)) then
        Res.val (false, none)
      else
        Res.val (true, none)

/-- StatefulSetName returns the name of the statefulset a Pod belongs to.
`printable` is the table of `strconv.IsPrint`, which the message of the error
of `strconv.Atoi` depends on. -/
def StatefulSetName (printable : Char → Bool) (podName : String) :
    Res (String × Int × Option GoError) :=
  match sliceFrom podName (LastIndex podName '-' + 1) with
  | Res.panic why => Res.panic why
  | Res.val ordinalAsString =>
    match sliceTo podName (LastIndex podName '-') with
    | Res.panic why => Res.panic why
    | Res.val ssetName =>
      Res.val (ssetName, toInt32 (Atoi printable ordinalAsString).1,
        (Atoi printable ordinalAsString).2)

end Sset

/-! # Theorems -/

namespace Runner


/-! ## Running a computation -/

@[simp] theorem exec_pure_apply {α : Type} (a : α) (h : List Event) :
    (pure a : Exec α) h = (Res.val a, h) := rfl

@[simp] theorem exec_bind_apply {α β : Type} (m : Exec α) (f : α → Exec β) (h : List Event) :
    (m >>= f) h = (match m h with
      | (Res.val a, h1) => f a h1
      | (Res.panic why, h1) => (Res.panic why, h1)) := rfl

@[simp] theorem logPrint_apply (msg : String) (h : List Event) :
    logPrint msg h = (Res.val (), h ++ [Event.log msg]) := rfl

@[simp] theorem Command.output_apply (w : World) (c : Command) (h : List Event) :
    c.output w h = (Res.val (w.exec h c), h ++ [Event.exec c]) := rfl

@[simp] theorem Command.Run_apply (w : World) (c : Command) (h : List Event) :
    c.Run w h = (Res.val (w.exec h c).2, h ++ [Event.exec c]) := rfl

@[simp] theorem Command.Output_apply (w : World) (c : Command) (h : List Event) :
    c.Output w h = (Res.val (w.exec h c), h ++ [Event.exec c]) := rfl

@[simp] theorem Command.OutputContainsAny_apply (w : World) (c : Command) (tokens : List String)
    (h : List Event) :
    c.OutputContainsAny w tokens h =
      (Res.val (tokens.any (fun t => strContains (w.exec h c).1 t), (w.exec h c).2),
        h ++ [Event.exec c]) := rfl

theorem Command.OutputList_apply (w : World) (c : Command) (h : List Event) :
    c.OutputList w h =
      (Res.val (match (w.exec h c).2 with
        | some e => ([], some e)
        | none => (nonEmptyLines (w.exec h c).1, none)), h ++ [Event.exec c]) := by
  simp only [Command.OutputList, exec_bind_apply, Command.output_apply]
  cases (w.exec h c).2 <;> rfl

/-! ## The existence check -/

/-- C3: for both drivers, `clusterExists` logs, runs the show/describe command
once and returns `(false, nil)` when the output contains one of the provider's
not-found substrings, whatever the command's own error; otherwise it returns
`(true, nil)` when the command succeeded and `(false, e)` with the command's
own error `e` when it failed. -/
theorem clusterExists_reclassifies_not_found (w : World) (h : List Event) :
    (∀ d : AksDriver,
      d.clusterExists w h =
        (Res.val
          (if strContains (w.exec (h ++ [Event.log "Checking if cluster exists..."]) d.clusterExistsCmd).1
                "not be found" = true ∨
              strContains (w.exec (h ++ [Event.log "Checking if cluster exists..."]) d.clusterExistsCmd).1
                "was not found" = true then (false, none)
           else
             match (w.exec (h ++ [Event.log "Checking if cluster exists..."]) d.clusterExistsCmd).2 with
             | none => (true, none)
             | some e => (false, some e)),
         h ++ [Event.log "Checking if cluster exists...", Event.exec d.clusterExistsCmd])) ∧
    (∀ d : GkeDriver,
      d.clusterExists w h =
        (Res.val
          (if strContains (w.exec (h ++ [Event.log "Checking if cluster exists..."]) d.clusterExistsCmd).1
                "Not found" = true then (false, none)
           else
             match (w.exec (h ++ [Event.log "Checking if cluster exists..."]) d.clusterExistsCmd).2 with
             | none => (true, none)
             | some e => (false, some e)),
         h ++ [Event.log "Checking if cluster exists...", Event.exec d.clusterExistsCmd])) := by
  constructor
  · intro d
    simp only [AksDriver.clusterExists, exec_bind_apply, logPrint_apply,
      Command.OutputContainsAny_apply, List.any_cons, List.any_nil, Bool.or_false,
      Bool.or_eq_true, List.append_assoc, List.singleton_append]
    split
    · rfl
    · show (Res.val _, _) = _
      cases (w.exec (h ++ [Event.log "Checking if cluster exists..."]) d.clusterExistsCmd).2 <;> rfl
  · intro d
    simp only [GkeDriver.clusterExists, exec_bind_apply, logPrint_apply,
      Command.OutputContainsAny_apply, List.any_cons, List.any_nil, Bool.or_false,
      List.append_assoc, List.singleton_append]
    split
    · rfl
    · show (Res.val _, _) = _
      cases (w.exec (h ++ [Event.log "Checking if cluster exists..."]) d.clusterExistsCmd).2 <;> rfl

/-- The trace of the AKS existence check: one log line and the show command. -/
theorem clusterExists_trace_aks (w : World) (d : AksDriver) (h : List Event) :
    (d.clusterExists w h).2 =
      h ++ [Event.log "Checking if cluster exists...", Event.exec d.clusterExistsCmd] := by
  simp only [AksDriver.clusterExists, exec_bind_apply, logPrint_apply,
    Command.OutputContainsAny_apply, List.append_assoc, List.singleton_append]
  split <;> rfl

/-- The trace of the GKE existence check: one log line and the describe command. -/
theorem clusterExists_trace_gke (w : World) (d : GkeDriver) (h : List Event) :
    (d.clusterExists w h).2 =
      h ++ [Event.log "Checking if cluster exists...", Event.exec d.clusterExistsCmd] := by
  simp only [GkeDriver.clusterExists, exec_bind_apply, logPrint_apply,
    Command.OutputContainsAny_apply, List.append_assoc, List.singleton_append]
  split <;> rfl

/-! ## The no-op branches and the unknown operation -/

/-- C6: for both drivers and every plan with operation "delete", when the
existence check reports (after a successful login) that the cluster does not
exist, `Execute` returns success, and everything it did after the login is the
existence check (one log line and the show/describe command) and the log line
of the no-op: no delete command, no disk listing, no disk delete. -/
theorem execute_delete_absent_is_noop (w : World) :
    (∀ (d : AksDriver) (h0 h1 h2 : List Event),
      d.plan.Operation = "delete" →
      d.auth w h0 = (Res.val none, h1) →
      d.clusterExists w h1 = (Res.val (false, none), h2) →
      d.Execute w h0 = (Res.val none, h2 ++ [Event.log "not deleting as cluster doesn't exist"]) ∧
      h2 = h1 ++ [Event.log "Checking if cluster exists...", Event.exec d.clusterExistsCmd]) ∧
    (∀ (d : GkeDriver) (h0 h1 h2 : List Event),
      d.plan.Operation = "delete" →
      d.auth w h0 = (Res.val none, h1) →
      d.clusterExists w h1 = (Res.val (false, none), h2) →
      d.Execute w h0 = (Res.val none, h2 ++ [Event.log "not deleting as cluster doesn't exist"]) ∧
      h2 = h1 ++ [Event.log "Checking if cluster exists...", Event.exec d.clusterExistsCmd]) := by
  constructor
  · intro d h0 h1 h2 hop hauth hex
    constructor
    · simp [AksDriver.Execute, hauth, hex, hop]
    · have := (clusterExists_trace_aks w d h1)
      rw [hex] at this
      exact this
  · intro d h0 h1 h2 hop hauth hex
    constructor
    · simp [GkeDriver.Execute, hauth, hex, hop]
    · have := (clusterExists_trace_gke w d h1)
      rw [hex] at this
      exact this

/-- C6, at a concrete input: both drivers, operation "delete", in a world where
the cluster is absent. -/
theorem execute_delete_absent_is_noop_witness :
    ((sampleAks "delete").plan.Operation = "delete" ∧
      (sampleAks "delete").auth World.absent [] =
        (Res.val none, [Event.log "Authenticating as user...", Event.exec (NewCommand "az login")]) ∧
      (sampleAks "delete").clusterExists World.absent
          [Event.log "Authenticating as user...", Event.exec (NewCommand "az login")] =
        (Res.val (false, none),
          [Event.log "Authenticating as user...", Event.exec (NewCommand "az login"),
           Event.log "Checking if cluster exists...", Event.exec (sampleAks "delete").clusterExistsCmd]) ∧
      (sampleAks "delete").Execute World.absent [] =
        (Res.val none,
          [Event.log "Authenticating as user...", Event.exec (NewCommand "az login"),
           Event.log "Checking if cluster exists...", Event.exec (sampleAks "delete").clusterExistsCmd] ++
          [Event.log "not deleting as cluster doesn't exist"])) ∧
    ((sampleGke "delete").plan.Operation = "delete" ∧
      (sampleGke "delete").auth World.absent [] =
        (Res.val none,
          [Event.log "Authenticating as user...", Event.exec GkeDriver.authListCmd,
           Event.exec (NewCommand "gcloud auth login")]) ∧
      (sampleGke "delete").clusterExists World.absent
          [Event.log "Authenticating as user...", Event.exec GkeDriver.authListCmd,
           Event.exec (NewCommand "gcloud auth login")] =
        (Res.val (false, none),
          [Event.log "Authenticating as user...", Event.exec GkeDriver.authListCmd,
           Event.exec (NewCommand "gcloud auth login"),
           Event.log "Checking if cluster exists...", Event.exec (sampleGke "delete").clusterExistsCmd]) ∧
      (sampleGke "delete").Execute World.absent [] =
        (Res.val none,
          [Event.log "Authenticating as user...", Event.exec GkeDriver.authListCmd,
           Event.exec (NewCommand "gcloud auth login"),
           Event.log "Checking if cluster exists...", Event.exec (sampleGke "delete").clusterExistsCmd] ++
          [Event.log "not deleting as cluster doesn't exist"])) :=
  ⟨⟨rfl, rfl, rfl,
    ((execute_delete_absent_is_noop World.absent).1 (sampleAks "delete") [] _ _ rfl rfl rfl).1⟩,
   ⟨rfl, rfl, rfl,
    ((execute_delete_absent_is_noop World.absent).2 (sampleGke "delete") [] _ _ rfl rfl rfl).1⟩⟩

/-- C5 as stated fails: with an operation that is neither "create" nor
"delete", both drivers have already run the login and the existence check
when `Execute` fails. -/
theorem execute_unknown_operation_has_acted :
    (sampleAks "upgrade").plan.Operation ≠ "create" ∧
    (sampleAks "upgrade").plan.Operation ≠ "delete" ∧
    (sampleAks "upgrade").Execute (World.quiet "") [] =
      (Res.val (some { msg := "unknown operation upgrade" }),
        [Event.log "Authenticating as user...", Event.exec (NewCommand "az login"),
         Event.log "Checking if cluster exists...", Event.exec (sampleAks "upgrade").clusterExistsCmd]) ∧
    (sampleGke "upgrade").Execute (World.quiet "") [] =
      (Res.val (some { msg := "unknown operation upgrade" }),
        [Event.log "Authenticating as user...", Event.exec GkeDriver.authListCmd,
         Event.exec (NewCommand "gcloud auth login"),
         Event.log "Checking if cluster exists...", Event.exec (sampleGke "upgrade").clusterExistsCmd]) :=
  ⟨by decide, by decide, rfl, rfl⟩

/-- C5, amended: for both drivers and every plan whose operation is neither
"create" nor "delete", `Execute` first logs in and checks existence; when both
succeed it returns the error "unknown operation <operation>" and has done
nothing after the existence check: no create, delete, post-configuration or
credential command. -/
theorem execute_unknown_operation (w : World) :
    (∀ (d : AksDriver) (h0 h1 h2 : List Event) (found : Bool),
      d.plan.Operation ≠ "create" → d.plan.Operation ≠ "delete" →
      d.auth w h0 = (Res.val none, h1) →
      d.clusterExists w h1 = (Res.val (found, none), h2) →
      d.Execute w h0 = (Res.val (some { msg := "unknown operation " ++ d.plan.Operation }), h2) ∧
      h2 = h1 ++ [Event.log "Checking if cluster exists...", Event.exec d.clusterExistsCmd]) ∧
    (∀ (d : GkeDriver) (h0 h1 h2 : List Event) (found : Bool),
      d.plan.Operation ≠ "create" → d.plan.Operation ≠ "delete" →
      d.auth w h0 = (Res.val none, h1) →
      d.clusterExists w h1 = (Res.val (found, none), h2) →
      d.Execute w h0 = (Res.val (some { msg := "unknown operation " ++ d.plan.Operation }), h2) ∧
      h2 = h1 ++ [Event.log "Checking if cluster exists...", Event.exec d.clusterExistsCmd]) := by
  constructor
  · intro d h0 h1 h2 found hc hd hauth hex
    constructor
    · simp [AksDriver.Execute, hauth, hex, hc, hd]
    · have := (clusterExists_trace_aks w d h1)
      rw [hex] at this
      exact this
  · intro d h0 h1 h2 found hc hd hauth hex
    constructor
    · simp [GkeDriver.Execute, hauth, hex, hc, hd]
    · have := (clusterExists_trace_gke w d h1)
      rw [hex] at this
      exact this

/-- C5 amended, at a concrete input: both drivers with operation "upgrade" in a
world where every command succeeds. -/
theorem execute_unknown_operation_witness :
    ((sampleAks "upgrade").plan.Operation ≠ "create" ∧
      (sampleAks "upgrade").plan.Operation ≠ "delete" ∧
      (sampleAks "upgrade").auth (World.quiet "") [] =
        (Res.val none, [Event.log "Authenticating as user...", Event.exec (NewCommand "az login")]) ∧
      (sampleAks "upgrade").clusterExists (World.quiet "")
          [Event.log "Authenticating as user...", Event.exec (NewCommand "az login")] =
        (Res.val (true, none),
          [Event.log "Authenticating as user...", Event.exec (NewCommand "az login"),
           Event.log "Checking if cluster exists...", Event.exec (sampleAks "upgrade").clusterExistsCmd]) ∧
      (sampleAks "upgrade").Execute (World.quiet "") [] =
        (Res.val (some { msg := "unknown operation " ++ (sampleAks "upgrade").plan.Operation }),
          [Event.log "Authenticating as user...", Event.exec (NewCommand "az login"),
           Event.log "Checking if cluster exists...", Event.exec (sampleAks "upgrade").clusterExistsCmd])) ∧
    ((sampleGke "upgrade").plan.Operation ≠ "create" ∧
      (sampleGke "upgrade").plan.Operation ≠ "delete" ∧
      (sampleGke "upgrade").auth (World.quiet "account") [] =
        (Res.val none, [Event.log "Authenticating as user...", Event.exec GkeDriver.authListCmd]) ∧
      (sampleGke "upgrade").clusterExists (World.quiet "account")
          [Event.log "Authenticating as user...", Event.exec GkeDriver.authListCmd] =
        (Res.val (true, none),
          [Event.log "Authenticating as user...", Event.exec GkeDriver.authListCmd,
           Event.log "Checking if cluster exists...", Event.exec (sampleGke "upgrade").clusterExistsCmd]) ∧
      (sampleGke "upgrade").Execute (World.quiet "account") [] =
        (Res.val (some { msg := "unknown operation " ++ (sampleGke "upgrade").plan.Operation }),
          [Event.log "Authenticating as user...", Event.exec GkeDriver.authListCmd,
           Event.log "Checking if cluster exists...", Event.exec (sampleGke "upgrade").clusterExistsCmd])) :=
  ⟨⟨by decide, by decide, rfl, rfl,
    ((execute_unknown_operation (World.quiet "")).1 (sampleAks "upgrade") [] _ _ true
      (by decide) (by decide) rfl rfl).1⟩,
   ⟨by decide, by decide, rfl, rfl,
    ((execute_unknown_operation (World.quiet "account")).2 (sampleGke "upgrade") [] _ _ true
      (by decide) (by decide) rfl rfl).1⟩⟩

/-! ## The storage class patch is skipped when already done -/

/-- C8 as stated fails: when `kubectl get sc` prints "standard-customized" and
ends with an error, `patchStorageClass` does not return success but that error. -/
theorem patchStorageClass_listing_error_is_returned :
    strContains
        ((World.failing "standard-customized" { msg := "exit status 1" }).exec
          [Event.log "Patching storage class..."] GkeDriver.getScCmd).1
        "standard-customized" = true ∧
    (sampleGke "create").patchStorageClass
        (World.failing "standard-customized" { msg := "exit status 1" }) [] =
      (Res.val (some { msg := "exit status 1" }),
        [Event.log "Patching storage class...", Event.exec GkeDriver.getScCmd]) :=
  ⟨by decide, rfl⟩

/-- C8, amended: whenever `kubectl get sc` succeeds and its output contains
"standard-customized", `patchStorageClass` returns success and has issued no
further command: its whole trace is one log line and that listing. -/
theorem patchStorageClass_idempotent (w : World) (d : GkeDriver) (h : List Event)
    (hok : (w.exec (h ++ [Event.log "Patching storage class..."]) GkeDriver.getScCmd).2 = none)
    (hfound : strContains
      (w.exec (h ++ [Event.log "Patching storage class..."]) GkeDriver.getScCmd).1
      "standard-customized" = true) :
    d.patchStorageClass w h =
      (Res.val none, h ++ [Event.log "Patching storage class...", Event.exec GkeDriver.getScCmd]) := by
  simp [GkeDriver.patchStorageClass, hok, hfound]

/-- C8 amended, at a concrete input: a world in which every command succeeds
and prints "standard-customized". -/
theorem patchStorageClass_idempotent_witness :
    ((World.quiet "standard-customized").exec ([] ++ [Event.log "Patching storage class..."])
        GkeDriver.getScCmd).2 = none ∧
    strContains
      ((World.quiet "standard-customized").exec ([] ++ [Event.log "Patching storage class..."])
        GkeDriver.getScCmd).1 "standard-customized" = true ∧
    (sampleGke "create").patchStorageClass (World.quiet "standard-customized") [] =
      (Res.val none,
        [] ++ [Event.log "Patching storage class...", Event.exec GkeDriver.getScCmd]) :=
  ⟨rfl, by decide,
   patchStorageClass_idempotent (World.quiet "standard-customized") (sampleGke "create") [] rfl
     (by decide)⟩

/-! ## The non-interactive login -/

/-- C10 as stated fails for GKE: in service-account mode the login command is a
plain string, not a template, and it is run with output streaming left on. -/
theorem gke_service_account_login_is_streamed :
    (sampleGkeSA "create").plan.ServiceAccount = true ∧
    (sampleGkeSA "create").auth (World.quiet "") [] =
      (Res.val none,
        [Event.log "Authenticating as service account...",
         Event.newClient { handle := "vault" },
         Event.vaultReadIntoFile { info := { handle := "vault" } } "gke_service_account_key.json"
           "secret/devops-ci/cloud-on-k8s/ci-gcp-k8s-operator" "service-account",
         Event.exec
           { command := "gcloud auth activate-service-account --key-file=gke_service_account_key.json",
             params := none, stream := true, stderr := true },
         Event.removeFile "gke_service_account_key.json"]) :=
  ⟨rfl, by decide⟩

/-- C10, amended: in service-account mode, the AKS login command is the
template "az login --service-principal ..." rendered with the three resolved
secret values (the first as AppId, the second as TenantSecret, the third as
TenantId) and run with output streaming disabled.  The GKE login passes no
secret on the command line: the secret resolver writes the key into a local
file, the login command is the fixed text naming that file, run as a plain
command with streaming left on, and the file is removed afterwards. -/
theorem service_account_login (w : World) (h : List Event) :
    (∀ (d : AksDriver) (s0 s1 s2 : String) (more : List String),
      d.plan.ServiceAccount = true →
      w.getMany (h ++ [Event.log "Authenticating as service account..."]) d.vaultClient
        AksVaultPath ["appId", "password", "tenant"] = (s0 :: s1 :: s2 :: more, none) →
      (d.auth w h).2 =
        h ++ [Event.log "Authenticating as service account...",
              Event.vaultGetMany d.vaultClient AksVaultPath ["appId", "password", "tenant"],
              Event.exec
                { command := "az login --service-principal -u {{.AppId}} -p {{.TenantSecret}} --tenant {{.TenantId}}",
                  params := some [("AppId", Value.str s0), ("TenantSecret", Value.str s1),
                                  ("TenantId", Value.str s2)],
                  stream := false, stderr := true }]) ∧
    (∀ (d : GkeDriver) (info : VaultInfo),
      d.plan.ServiceAccount = true →
      d.plan.VaultInfo = some info →
      w.newClient (h ++ [Event.log "Authenticating as service account..."]) info = none →
      w.readIntoFile (h ++ [Event.log "Authenticating as service account...", Event.newClient info])
        { info := info } "gke_service_account_key.json" GkeVaultPath "service-account" = none →
      (d.auth w h).2 =
        h ++ [Event.log "Authenticating as service account...",
              Event.newClient info,
              Event.vaultReadIntoFile { info := info } "gke_service_account_key.json" GkeVaultPath
                "service-account",
              Event.exec
                { command := "gcloud auth activate-service-account --key-file=gke_service_account_key.json",
                  params := none, stream := true, stderr := true },
              Event.removeFile "gke_service_account_key.json"]) := by
  constructor
  · intro d s0 s1 s2 more hsa hsec
    simp [AksDriver.auth, hsa, VaultClient.GetMany, hsec, goIndex, AksDriver.loginCmd, NewCommand,
      Command.AsTemplate, Command.WithoutStreaming]
  · intro d info hsa hinfo hnew hread
    simp [GkeDriver.auth, hsa, hinfo, NewClient, hnew, Exec.deferring, VaultClient.ReadIntoFile,
      GkeDriver.keyFileName, GkeServiceAccountVaultFieldName, hread, GkeDriver.activateCmd,
      NewCommand, Exec.bind]

/-- C10 amended, at a concrete input: both drivers in service-account mode in a
world where every lookup and command succeeds. -/
theorem service_account_login_witness :
    ((sampleAksSA "create").plan.ServiceAccount = true ∧
      ((sampleAksSA "create").auth (World.quiet "") []).2 =
        [] ++ [Event.log "Authenticating as service account...",
              Event.vaultGetMany (sampleAksSA "create").vaultClient AksVaultPath
                ["appId", "password", "tenant"],
              Event.exec
                { command := "az login --service-principal -u {{.AppId}} -p {{.TenantSecret}} --tenant {{.TenantId}}",
                  params := some [("AppId", Value.str "id"), ("TenantSecret", Value.str "pw"),
                                  ("TenantId", Value.str "tenant")],
                  stream := false, stderr := true }]) ∧
    ((sampleGkeSA "create").plan.ServiceAccount = true ∧
      ((sampleGkeSA "create").auth (World.quiet "") []).2 =
        [] ++ [Event.log "Authenticating as service account...",
              Event.newClient { handle := "vault" },
              Event.vaultReadIntoFile { info := { handle := "vault" } } "gke_service_account_key.json"
                GkeVaultPath "service-account",
              Event.exec
                { command := "gcloud auth activate-service-account --key-file=gke_service_account_key.json",
                  params := none, stream := true, stderr := true },
              Event.removeFile "gke_service_account_key.json"]) :=
  ⟨⟨rfl, (service_account_login (World.quiet "") []).1 (sampleAksSA "create") "id" "pw" "tenant" []
      rfl rfl⟩,
   ⟨rfl, (service_account_login (World.quiet "") []).2 (sampleGkeSA "create") { handle := "vault" }
      rfl rfl rfl rfl⟩⟩

/-! ## The role grant of AKS post-configuration -/

/-- C4 as stated fails: with `ServiceAccount = false`, when the registry login
fails, `configureDocker` stops there and issues no role assignment either. -/
theorem configureDocker_no_grant_after_failed_login :
    (sampleAks "create").plan.ServiceAccount = false ∧
    (sampleAks "create").configureDocker (World.failing "" { msg := "exit status 1" }) [] =
      (Res.val (some { msg := "exit status 1" }),
        [Event.log "Configuring Docker...", Event.exec (sampleAks "create").acrLoginCmd]) ∧
    AksDriver.isRoleAssignmentCmd (sampleAks "create").acrLoginCmd = false :=
  ⟨rfl, rfl, by decide⟩

/-- C4, amended: when `plan.ServiceAccount` is true, `configureDocker` issues
no "az role assignment create" command, whatever the outcome of the commands:
its whole trace is one log line and the registry login.  When
`plan.ServiceAccount` is false and the registry login and the two queries
succeed with at least one line each, it issues the role assignment as its
last command. -/
theorem configureDocker_role_grant (w : World) (d : AksDriver) (h : List Event) :
    (d.plan.ServiceAccount = true →
      (d.configureDocker w h).2 = h ++ [Event.log "Configuring Docker...", Event.exec d.acrLoginCmd] ∧
      AksDriver.isRoleAssignmentCmd d.acrLoginCmd = false) ∧
    (∀ (clientId acrId : String) (clientIds acrIds : List String),
      d.plan.ServiceAccount = false →
      (w.exec (h ++ [Event.log "Configuring Docker..."]) d.acrLoginCmd).2 = none →
      (d.clientIdCmd.OutputList w
        (h ++ [Event.log "Configuring Docker...", Event.exec d.acrLoginCmd])).1 =
          Res.val (clientId :: clientIds, none) →
      (d.acrIdCmd.OutputList w
        (h ++ [Event.log "Configuring Docker...", Event.exec d.acrLoginCmd,
               Event.exec d.clientIdCmd])).1 = Res.val (acrId :: acrIds, none) →
      (d.configureDocker w h).2 =
        h ++ [Event.log "Configuring Docker...", Event.exec d.acrLoginCmd, Event.exec d.clientIdCmd,
              Event.exec d.acrIdCmd, Event.exec (AksDriver.roleAssignmentCmd clientId acrId)] ∧
      AksDriver.isRoleAssignmentCmd (AksDriver.roleAssignmentCmd clientId acrId) = true) := by
  constructor
  · intro hsa
    refine ⟨?_, rfl⟩
    simp only [AksDriver.configureDocker, exec_bind_apply, logPrint_apply, Command.Run_apply, hsa,
      if_true, List.append_assoc, List.singleton_append]
    cases (w.exec (h ++ [Event.log "Configuring Docker..."]) d.acrLoginCmd).2 <;> rfl
  · intro clientId acrId clientIds acrIds hsa hlogin hc ha
    refine ⟨?_, rfl⟩
    have hc2 := congrArg Prod.snd (Command.OutputList_apply w d.clientIdCmd
      (h ++ [Event.log "Configuring Docker...", Event.exec d.acrLoginCmd]))
    have ha2 := congrArg Prod.snd (Command.OutputList_apply w d.acrIdCmd
      (h ++ [Event.log "Configuring Docker...", Event.exec d.acrLoginCmd, Event.exec d.clientIdCmd]))
    simp only at hc2 ha2
    have hc3 : d.clientIdCmd.OutputList w
        (h ++ [Event.log "Configuring Docker...", Event.exec d.acrLoginCmd]) =
        (Res.val (clientId :: clientIds, none),
          h ++ [Event.log "Configuring Docker...", Event.exec d.acrLoginCmd] ++
            [Event.exec d.clientIdCmd]) := Prod.ext hc hc2
    have ha3 : d.acrIdCmd.OutputList w
        (h ++ [Event.log "Configuring Docker...", Event.exec d.acrLoginCmd,
               Event.exec d.clientIdCmd]) =
        (Res.val (acrId :: acrIds, none),
          h ++ [Event.log "Configuring Docker...", Event.exec d.acrLoginCmd,
               Event.exec d.clientIdCmd] ++ [Event.exec d.acrIdCmd]) := Prod.ext ha ha2
    simp only [List.append_assoc, List.cons_append, List.nil_append] at hc3 ha3
    simp [AksDriver.configureDocker, hsa, hlogin, hc3, ha3, goIndex]

/-- C4 amended, at a concrete input: service-account mode in a failing world,
and interactive mode in a world where every command succeeds and prints one
line. -/
theorem configureDocker_role_grant_witness :
    ((sampleAksSA "create").plan.ServiceAccount = true ∧
      ((sampleAksSA "create").configureDocker (World.failing "" { msg := "exit status 1" }) []).2 =
        [] ++ [Event.log "Configuring Docker...", Event.exec (sampleAksSA "create").acrLoginCmd]) ∧
    ((sampleAks "create").plan.ServiceAccount = false ∧
      ((sampleAks "create").configureDocker (World.quiet "id-1") []).2 =
        [] ++ [Event.log "Configuring Docker...", Event.exec (sampleAks "create").acrLoginCmd,
              Event.exec (sampleAks "create").clientIdCmd, Event.exec (sampleAks "create").acrIdCmd,
              Event.exec (AksDriver.roleAssignmentCmd "id-1" "id-1")]) :=
  ⟨⟨rfl, ((configureDocker_role_grant (World.failing "" { msg := "exit status 1" })
      (sampleAksSA "create") []).1 rfl).1⟩,
   ⟨rfl, ((configureDocker_role_grant (World.quiet "id-1") (sampleAks "create") []).2
      "id-1" "id-1" [] [] rfl rfl (by decide) (by decide)).1⟩⟩

/-! ## The disk sweep of the GKE delete -/

/-- The loop of `GkeDriver.delete` when every disk delete succeeds: it deletes
the lines before the first one that does not have two fields, in order, and
fails at that line when there is one. -/
theorem deleteLoop_spec (w : World) (d : GkeDriver)
    (hok : ∀ (H : List Event) (name zone : String), (w.exec H (d.diskDeleteCmd name zone)).2 = none)
    (lines : List String) :
    ∀ h : List Event,
      d.deleteLoop w lines h =
        (Res.val (if lines.all twoFields = true then none
            else some { msg := "disk name and zone contained unexpected number of fields" }),
          h ++ (lines.takeWhile twoFields).map (fun l => Event.exec (d.diskDeleteCmdOf l))) := by
  induction lines with
  | nil => intro h; simp [GkeDriver.deleteLoop]
  | cons disk rest ih =>
    intro h
    rcases hs : strSplit disk ',' with _ | ⟨a, _ | ⟨b, _ | ⟨c, l⟩⟩⟩
    · simp [GkeDriver.deleteLoop, hs, twoFields]
    · simp [GkeDriver.deleteLoop, hs, twoFields]
    · simp [GkeDriver.deleteLoop, hs, twoFields, hok, ih, GkeDriver.diskDeleteCmdOf]
    · simp [GkeDriver.deleteLoop, hs, twoFields]

/-- C2 as stated fails in both halves.  With the listing "d1,z1" then "bad",
the second line does not have two fields, yet the disk of the first line has
been deleted when `delete` fails.  With the listing "d1,z1" then "d2,z2" and
a failing disk delete, both lines have two fields, yet only the first disk
delete is issued. -/
theorem delete_sweep_is_line_by_line :
    nonEmptyLines "d1,z1\nbad\n" = ["d1,z1", "bad"] ∧
    twoFields "bad" = false ∧
    (sampleGke "delete").delete (World.disks "d1,z1\nbad\n" none) [] =
      (Res.val (some { msg := "disk name and zone contained unexpected number of fields" }),
        [Event.log "Deleting cluster...", Event.exec (sampleGke "delete").deleteCmd,
         Event.exec (sampleGke "delete").disksListCmd,
         Event.exec ((sampleGke "delete").diskDeleteCmd "d1" "z1")]) ∧
    nonEmptyLines "d1,z1\nd2,z2\n" = ["d1,z1", "d2,z2"] ∧
    twoFields "d1,z1" = true ∧ twoFields "d2,z2" = true ∧
    (sampleGke "delete").delete (World.disks "d1,z1\nd2,z2\n" (some { msg := "exit status 1" })) [] =
      (Res.val (some { msg := "exit status 1" }),
        [Event.log "Deleting cluster...", Event.exec (sampleGke "delete").deleteCmd,
         Event.exec (sampleGke "delete").disksListCmd,
         Event.exec ((sampleGke "delete").diskDeleteCmd "d1" "z1")]) :=
  ⟨by decide, by decide, by decide, by decide, by decide, by decide, by decide⟩

/-- C2, amended: after a successful cluster delete and a successful listing,
when every disk delete that is issued succeeds, `GkeDriver.delete` handles the
listed lines one by one, in list order: it issues one disk delete (with that
line's name and zone) for each line up to the first line that does not split
on "," into exactly two fields, and nothing else.  When every line has two
fields this is one disk delete per line and `delete` returns success;
otherwise `delete` returns the parsing error, having deleted the disks of the
lines before the offending one and none from it on. -/
theorem delete_sweep (w : World) (d : GkeDriver) (h : List Event) (out : String)
    (hdelete : (w.exec (h ++ [Event.log "Deleting cluster..."]) d.deleteCmd).2 = none)
    (hlist : w.exec (h ++ [Event.log "Deleting cluster...", Event.exec d.deleteCmd])
      d.disksListCmd = (out, none))
    (hok : ∀ (H : List Event) (name zone : String), (w.exec H (d.diskDeleteCmd name zone)).2 = none) :
    d.delete w h =
      (Res.val (if (nonEmptyLines out).all twoFields = true then none
          else some { msg := "disk name and zone contained unexpected number of fields" }),
        h ++ [Event.log "Deleting cluster...", Event.exec d.deleteCmd, Event.exec d.disksListCmd] ++
          ((nonEmptyLines out).takeWhile twoFields).map (fun l => Event.exec (d.diskDeleteCmdOf l))) ∧
    ((nonEmptyLines out).all twoFields = true →
      (nonEmptyLines out).takeWhile twoFields = nonEmptyLines out) := by
  constructor
  · simp only [GkeDriver.delete, exec_bind_apply, logPrint_apply, Command.Run_apply, hdelete,
      Command.OutputList_apply, List.append_assoc, List.singleton_append, hlist,
      deleteLoop_spec w d hok, List.cons_append, List.nil_append]
  · intro hall
    rw [List.takeWhile_eq_self_iff]
    intro x hx
    exact (List.all_eq_true.mp hall) x hx

/-- C2 amended, at a concrete input: the listing "d1,z1", "bad", "d3,z3" in a
world where every command succeeds. -/
theorem delete_sweep_witness :
    ((World.disks "d1,z1\nbad\nd3,z3\n" none).exec ([] ++ [Event.log "Deleting cluster..."])
        (sampleGke "delete").deleteCmd).2 = none ∧
    (World.disks "d1,z1\nbad\nd3,z3\n" none).exec
        ([] ++ [Event.log "Deleting cluster...", Event.exec (sampleGke "delete").deleteCmd])
        (sampleGke "delete").disksListCmd = ("d1,z1\nbad\nd3,z3\n", none) ∧
    (sampleGke "delete").delete (World.disks "d1,z1\nbad\nd3,z3\n" none) [] =
      (Res.val (if (nonEmptyLines "d1,z1\nbad\nd3,z3\n").all twoFields = true then none
          else some { msg := "disk name and zone contained unexpected number of fields" }),
        [] ++ [Event.log "Deleting cluster...", Event.exec (sampleGke "delete").deleteCmd,
               Event.exec (sampleGke "delete").disksListCmd] ++
          ((nonEmptyLines "d1,z1\nbad\nd3,z3\n").takeWhile twoFields).map
            (fun l => Event.exec ((sampleGke "delete").diskDeleteCmdOf l))) :=
  ⟨rfl, rfl,
   (delete_sweep (World.disks "d1,z1\nbad\nd3,z3\n" none) (sampleGke "delete") []
      "d1,z1\nbad\nd3,z3\n" rfl rfl (fun _ _ _ => rfl)).1⟩

/-! ## Which commands a step can issue -/

theorem emits_pure {α : Type} (a : α) (P : Command → Prop) : Emits (Pure.pure a : Exec α) P := by
  intro h
  exact ⟨[], by simp, by simp⟩

theorem emits_bind {α β : Type} {m : Exec α} {f : α → Exec β} {P : Command → Prop}
    (hm : Emits m P) (hf : ∀ a, Emits (f a) P) : Emits (m >>= f) P := by
  intro h
  obtain ⟨n1, e1, p1⟩ := hm h
  rcases hmh : m h with ⟨r, h1⟩
  rw [hmh] at e1
  simp only at e1
  subst e1
  cases r with
  | val a =>
    obtain ⟨n2, e2, p2⟩ := hf a (h ++ n1)
    refine ⟨n1 ++ n2, ?_, ?_⟩
    · simp only [exec_bind_apply, hmh, e2, List.append_assoc]
    · intro c hc
      rcases List.mem_append.mp hc with hc | hc
      · exact p1 c hc
      · exact p2 c hc
  | panic why =>
    exact ⟨n1, by simp only [exec_bind_apply, hmh], p1⟩

theorem emits_mono {α : Type} {m : Exec α} {P Q : Command → Prop} (hm : Emits m P)
    (hPQ : ∀ c, P c → Q c) : Emits m Q := by
  intro h
  obtain ⟨n, e, p⟩ := hm h
  exact ⟨n, e, fun c hc => hPQ c (p c hc)⟩

theorem emits_log (msg : String) (P : Command → Prop) : Emits (logPrint msg) P := by
  intro h
  exact ⟨[Event.log msg], rfl, by simp⟩

theorem emits_output (w : World) (c : Command) {P : Command → Prop} (hc : P c) :
    Emits (c.output w) P := by
  intro h
  refine ⟨[Event.exec c], rfl, ?_⟩
  intro c1 h1
  simp only [List.mem_singleton, Event.exec.injEq] at h1
  exact h1 ▸ hc

theorem emits_run (w : World) (c : Command) {P : Command → Prop} (hc : P c) :
    Emits (c.Run w) P :=
  emits_bind (emits_output w c hc) (fun _ => emits_pure _ _)

theorem emits_outputContainsAny (w : World) (c : Command) (tokens : List String)
    {P : Command → Prop} (hc : P c) : Emits (c.OutputContainsAny w tokens) P :=
  emits_bind (emits_output w c hc) (fun _ => emits_pure _ _)

theorem emits_outputList (w : World) (c : Command) {P : Command → Prop} (hc : P c) :
    Emits (c.OutputList w) P := by
  refine emits_bind (emits_output w c hc) (fun r => ?_)
  rcases r with ⟨out, _ | e⟩
  · exact emits_pure _ _
  · exact emits_pure _ _

/-- A command built from a text that begins with `p` begins with `p`. -/
theorem startsWith_append (p a b : String) (q : Option Ctx) (s e : Bool)
    (hp : p.data.isPrefixOf a.data = true) :
    Command.startsWith { command := a ++ b, params := q, stream := s, stderr := e } p = true := by
  simp only [Command.startsWith, String.data_append, List.isPrefixOf_iff_prefix] at hp ⊢
  exact hp.trans (List.prefix_append _ _)

/-- A command cannot begin with two texts of which neither begins with the other. -/
theorem startsWith_exclusive (c : Command) (p q : String)
    (hpq : p.data.isPrefixOf q.data = false) (hqp : q.data.isPrefixOf p.data = false)
    (hp : c.startsWith p = true) : c.startsWith q = false := by
  cases hq : c.startsWith q with
  | false => rfl
  | true =>
    simp only [Command.startsWith, List.isPrefixOf_iff_prefix] at hp hq
    rcases List.prefix_or_prefix_of_prefix hp hq with h1 | h1
    · rw [← List.isPrefixOf_iff_prefix] at h1
      rw [h1] at hpq
      exact absurd hpq (by decide)
    · rw [← List.isPrefixOf_iff_prefix] at h1
      rw [h1] at hqp
      exact absurd hqp (by decide)

/-- The loop over the annotation keys issues `kubectl get sc` queries only. -/
theorem defaultScLoop_emits (w : World) (keys : List String) :
    Emits (GkeDriver.defaultScLoop w keys) (fun c => GkeDriver.isStorageClassCmd c = true) := by
  induction keys with
  | nil => exact emits_pure _ _
  | cons key rest ih =>
    have hq : GkeDriver.isStorageClassCmd (GkeDriver.defaultScCmd key) = true := by
      have := startsWith_append "kubectl get sc"
        ("kubectl get sc -o=jsonpath=\"\x7b$.items[?(@.metadata.annotations." ++ key)
        "=='true')].metadata.name\x7d\"" none true true
        (by simp only [String.data_append, List.isPrefixOf_iff_prefix]
            exact (List.isPrefixOf_iff_prefix.mp (by decide)).trans (List.prefix_append _ _))
      simp only [GkeDriver.isStorageClassCmd, GkeDriver.defaultScCmd, NewCommand, this,
        Bool.true_or]
    refine emits_bind (emits_outputList w _ hq) (fun r => ?_)
    rcases r with ⟨names, _ | e⟩
    · cases names with
      | nil => exact ih
      | cons name more => exact emits_pure _ _
    · exact emits_pure _ _

/-- The storage class step issues storage class commands only. -/
theorem patchStorageClass_emits (w : World) (d : GkeDriver) :
    Emits (d.patchStorageClass w) (fun c => GkeDriver.isStorageClassCmd c = true) := by
  refine emits_bind (emits_log _ _) (fun _ => ?_)
  refine emits_bind (emits_outputContainsAny w _ _ (by decide)) (fun r => ?_)
  rcases r with ⟨found, _ | e⟩
  swap
  · exact emits_pure _ _
  cases found with
  | true => exact emits_pure _ _
  | false =>
    refine emits_bind (defaultScLoop_emits w _) (fun r => ?_)
    rcases r with ⟨name, _ | e⟩
    swap
    · exact emits_pure _ _
    by_cases hname : name = ""
    · simp only [hname, if_true, Bool.false_eq_true, if_false]
      exact emits_pure _ _
    · simp only [hname, if_false, Bool.false_eq_true]
      have hget : GkeDriver.isStorageClassCmd (GkeDriver.getScYamlCmd name) = true := by
        have := startsWith_append "kubectl get sc" ("kubectl get sc " ++ name) " -o yaml"
          none true true
          (by simp only [String.data_append, List.isPrefixOf_iff_prefix]
              exact (List.isPrefixOf_iff_prefix.mp (by decide)).trans (List.prefix_append _ _))
        simp only [GkeDriver.isStorageClassCmd, GkeDriver.getScYamlCmd, NewCommand, this,
          Bool.true_or]
      refine emits_bind (emits_output w _ hget) (fun sc => ?_)
      rcases sc with ⟨text, _ | e⟩
      swap
      · exact emits_pure _ _
      have happly : GkeDriver.isStorageClassCmd
          (GkeDriver.applyCmd (GkeDriver.customizedManifest text name)) = true := by
        have := startsWith_append "cat <<EOF | kubectl apply"
          ("cat <<EOF | kubectl apply -f -\n" ++ GkeDriver.customizedManifest text name) "\nEOF"
          none true true
          (by simp only [String.data_append, List.isPrefixOf_iff_prefix]
              exact (List.isPrefixOf_iff_prefix.mp (by decide)).trans (List.prefix_append _ _))
        simp only [GkeDriver.isStorageClassCmd, GkeDriver.applyCmd, NewCommand, this,
          Bool.true_or, Bool.or_true]
      have hpatch : GkeDriver.isStorageClassCmd (GkeDriver.patchCmd name) = true := by
        have := startsWith_append "kubectl patch storageclass"
          ("kubectl patch storageclass " ++ name)
          " -p '\x7b \"metadata\": \x7b \"annotations\": \x7b \"storageclass.beta.kubernetes.io/is-default-class\":\"false\"\x7d \x7d \x7d'"
          none true true
          (by simp only [String.data_append, List.isPrefixOf_iff_prefix]
              exact (List.isPrefixOf_iff_prefix.mp (by decide)).trans (List.prefix_append _ _))
        simp only [GkeDriver.isStorageClassCmd, GkeDriver.patchCmd, NewCommand, this,
          Bool.or_true]
      refine emits_bind (emits_run w _ happly) (fun err => ?_)
      cases err with
      | some e => exact emits_pure _ _
      | none => exact emits_run w _ hpatch

/-- The loop over the instances issues remote sessions only. -/
theorem setMaxMapCountLoop_emits (w : World) (d : GkeDriver) (instances : List String) :
    Emits (d.setMaxMapCountLoop w instances) (fun c => GkeDriver.isMaxMapCountCmd c = true) := by
  induction instances with
  | nil => exact emits_pure _ _
  | cons inst rest ih =>
    rcases hs : strSplit inst ',' with _ | ⟨a, _ | ⟨b, _ | ⟨c, l⟩⟩⟩
    · simp only [GkeDriver.setMaxMapCountLoop, hs]
      exact emits_pure _ _
    · simp only [GkeDriver.setMaxMapCountLoop, hs]
      exact emits_pure _ _
    · simp only [GkeDriver.setMaxMapCountLoop, hs]
      refine emits_bind (emits_run w _ rfl) (fun err => ?_)
      cases err with
      | some e => exact emits_pure _ _
      | none => exact ih
    · simp only [GkeDriver.setMaxMapCountLoop, hs]
      exact emits_pure _ _

/-- The max-map-count step issues the instance listing and remote sessions only. -/
theorem setMaxMapCount_emits (w : World) (d : GkeDriver) :
    Emits (d.setMaxMapCount w) (fun c => GkeDriver.isMaxMapCountCmd c = true) := by
  refine emits_bind (emits_log _ _) (fun _ => ?_)
  refine emits_bind (emits_outputList w _ rfl) (fun r => ?_)
  rcases r with ⟨instances, _ | e⟩
  · exact setMaxMapCountLoop_emits w d instances
  · exact emits_pure _ _

/-- The loop over the instances returns, and only extends the history. -/
theorem setMaxMapCountLoop_returns (w : World) (d : GkeDriver) (instances : List String) :
    ∀ h : List Event, ∃ (o : Option GoError) (tail : List Event),
      d.setMaxMapCountLoop w instances h = (Res.val o, h ++ tail) := by
  induction instances with
  | nil => exact fun h => ⟨none, [], by simp [GkeDriver.setMaxMapCountLoop]⟩
  | cons inst rest ih =>
    intro h
    rcases hs : strSplit inst ',' with _ | ⟨a, _ | ⟨b, _ | ⟨c, l⟩⟩⟩
    · exact ⟨some { msg := "instance " ++ inst ++ " could not be parsed" }, [], by
        simp [GkeDriver.setMaxMapCountLoop, hs]⟩
    · exact ⟨some { msg := "instance " ++ inst ++ " could not be parsed" }, [], by
        simp [GkeDriver.setMaxMapCountLoop, hs]⟩
    · cases herr : (w.exec h (d.sshCmd a b)).2 with
      | some e =>
        exact ⟨some e, [Event.exec (d.sshCmd a b)], by
          simp [GkeDriver.setMaxMapCountLoop, hs, herr]⟩
      | none =>
        obtain ⟨o, tail, ht⟩ := ih (h ++ [Event.exec (d.sshCmd a b)])
        exact ⟨o, Event.exec (d.sshCmd a b) :: tail, by
          simp [GkeDriver.setMaxMapCountLoop, hs, herr, ht]⟩
    · exact ⟨some { msg := "instance " ++ inst ++ " could not be parsed" }, [], by
        simp [GkeDriver.setMaxMapCountLoop, hs]⟩

/-- The max-map-count step returns; it begins with its log line and the
instance listing. -/
theorem setMaxMapCount_returns (w : World) (d : GkeDriver) (h : List Event) :
    ∃ (o : Option GoError) (tail : List Event),
      d.setMaxMapCount w h =
        (Res.val o,
          h ++ [Event.log "Setting max map count...", Event.exec d.instancesListCmd] ++ tail) := by
  cases herr : (w.exec (h ++ [Event.log "Setting max map count..."]) d.instancesListCmd).2 with
  | some e =>
    exact ⟨some e, [], by
      simp [GkeDriver.setMaxMapCount, Command.OutputList_apply, herr]⟩
  | none =>
    obtain ⟨o, tail, ht⟩ := setMaxMapCountLoop_returns w d
      (nonEmptyLines (w.exec (h ++ [Event.log "Setting max map count..."]) d.instancesListCmd).1)
      (h ++ [Event.log "Setting max map count...", Event.exec d.instancesListCmd])
    exact ⟨o, tail, by
      simp [GkeDriver.setMaxMapCount, Command.OutputList_apply, herr, ht]⟩

/-- A configure-docker or storage class command is no max-map-count command. -/
theorem docker_or_storage_is_not_maxMapCount (c : Command)
    (hc : GkeDriver.isConfigureDockerCmd c = true ∨ GkeDriver.isStorageClassCmd c = true) :
    GkeDriver.isMaxMapCountCmd c = false := by
  simp only [GkeDriver.isConfigureDockerCmd, GkeDriver.isStorageClassCmd, Bool.or_eq_true] at hc
  simp only [GkeDriver.isMaxMapCountCmd, Bool.or_eq_false_iff]
  rcases hc with h | (h | h) | h <;>
    exact ⟨startsWith_exclusive c _ _ (by decide) (by decide) h,
      startsWith_exclusive c _ _ (by decide) (by decide) h⟩

/-- What follows the credential fetch in the create case of the GKE `Execute`
issues max-map-count commands only when `VmMapMax` is set, and beside them
configure-docker and storage class commands only. -/
theorem afterCredentials_emits (w : World) (d : GkeDriver) :
    Emits (do
        let err ← (if d.plan.VmMapMax then d.setMaxMapCount w else pure none)
        match err with
        | some e => pure (some e)
        | none =>
          let err ← d.configureDocker w
          match err with
          | some e => pure (some e)
          | none =>
            let err ← d.patchStorageClass w
            match err with
            | some e => pure (some e)
            | none => pure none)
      (fun c => (GkeDriver.isMaxMapCountCmd c = true ∧ d.plan.VmMapMax = true) ∨
        GkeDriver.isConfigureDockerCmd c = true ∨ GkeDriver.isStorageClassCmd c = true) := by
  refine emits_bind ?_ (fun err => ?_)
  · cases hvm : d.plan.VmMapMax with
    | true => exact emits_mono (setMaxMapCount_emits w d) (fun c hc => Or.inl ⟨hc, rfl⟩)
    | false => exact emits_pure _ _
  cases err with
  | some e => exact emits_pure _ _
  | none =>
    refine emits_bind ?_ (fun err => ?_)
    · refine emits_bind (emits_log _ _) (fun _ => ?_)
      exact emits_run w _ (Or.inr (Or.inl rfl))
    cases err with
    | some e => exact emits_pure _ _
    | none =>
      refine emits_bind (emits_mono (patchStorageClass_emits w d) (fun c hc => Or.inr (Or.inr hc)))
        (fun err => ?_)
      cases err <;> exact emits_pure _ _

/-- A max-map-count, configure-docker or storage class command is none of the
commands of the pre-create, create and role binding steps. -/
theorem post_step_is_not_create_step (c : Command)
    (hc : GkeDriver.isMaxMapCountCmd c = true ∨ GkeDriver.isConfigureDockerCmd c = true ∨
      GkeDriver.isStorageClassCmd c = true) :
    GkeDriver.isConfigSSHCmd c = false ∧ GkeDriver.isClusterCreateCmd c = false ∧
      GkeDriver.isRoleBindingCmd c = false := by
  simp only [GkeDriver.isMaxMapCountCmd, GkeDriver.isConfigureDockerCmd,
    GkeDriver.isStorageClassCmd, Bool.or_eq_true] at hc
  simp only [GkeDriver.isConfigSSHCmd, GkeDriver.isClusterCreateCmd, GkeDriver.isRoleBindingCmd]
  rcases hc with (h | h) | h | (h | h) | h <;>
    exact ⟨startsWith_exclusive c _ _ (by decide) (by decide) h,
      startsWith_exclusive c _ _ (by decide) (by decide) h,
      startsWith_exclusive c _ _ (by decide) (by decide) h⟩

/-! ## Create when the cluster already exists -/

/-- C1 as stated fails for GKE: with operation "create" and an existing
cluster, `Execute` still runs post-configuration after the credential fetch,
here the configure-docker command and the first query of the storage class
patch. -/
theorem gke_create_existing_still_configures :
    (sampleGke "create").plan.Operation = "create" ∧
    (sampleGke "create").clusterExists (World.quiet "standard-customized")
        [Event.log "Authenticating as user...", Event.exec GkeDriver.authListCmd] =
      (Res.val (true, none),
        [Event.log "Authenticating as user...", Event.exec GkeDriver.authListCmd,
         Event.log "Checking if cluster exists...", Event.exec (sampleGke "create").clusterExistsCmd]) ∧
    (sampleGke "create").Execute (World.quiet "standard-customized") [] =
      (Res.val none,
        [Event.log "Authenticating as user...", Event.exec GkeDriver.authListCmd,
         Event.log "Checking if cluster exists...", Event.exec (sampleGke "create").clusterExistsCmd,
         Event.log "not creating as cluster exists",
         Event.log "Getting credentials...", Event.exec (sampleGke "create").getCredentialsCmd,
         Event.log "Configuring Docker...", Event.exec GkeDriver.configureDockerCmd,
         Event.log "Patching storage class...", Event.exec GkeDriver.getScCmd]) ∧
    GkeDriver.isConfigureDockerCmd GkeDriver.configureDockerCmd = true ∧
    GkeDriver.isStorageClassCmd GkeDriver.getScCmd = true :=
  ⟨rfl, by decide, by decide, by decide, by decide⟩

/-- C1, amended: for every plan with operation "create", when the login
succeeds and the existence check reports that the cluster exists, both drivers
issue no create command and still issue the get-credentials command.  The AKS
driver does nothing else: after the existence check its trace is two log lines
and get-credentials, whose error it returns.  The GKE driver issues no
config-ssh, clusters create or role binding command; after get-credentials it
goes on with the steps that follow the `if exists` statement.  When
get-credentials fails it returns that error.  Otherwise it runs
`setMaxMapCount` exactly when `VmMapMax` is set: with `VmMapMax` false no
instance listing and no remote session is issued, with `VmMapMax` true the
instance listing comes next and an error of the step is returned.  Then it
runs `configureDocker`, returning its error, and last `patchStorageClass`,
whose result it returns.  So every command after get-credentials is a
max-map-count, configure-docker or storage class command. -/
theorem execute_create_existing (w : World) :
    (∀ (d : AksDriver) (h0 h1 h2 : List Event),
      d.plan.Operation = "create" →
      d.auth w h0 = (Res.val none, h1) →
      d.clusterExists w h1 = (Res.val (true, none), h2) →
      d.Execute w h0 =
        (Res.val (w.exec (h2 ++ [Event.log "not creating as cluster exists",
            Event.log "Getting credentials..."]) d.getCredentialsCmd).2,
          h2 ++ [Event.log "not creating as cluster exists", Event.log "Getting credentials...",
            Event.exec d.getCredentialsCmd])) ∧
    (∀ (d : GkeDriver) (h0 h1 h2 h3 : List Event),
      d.plan.Operation = "create" →
      d.auth w h0 = (Res.val none, h1) →
      d.clusterExists w h1 = (Res.val (true, none), h2) →
      h3 = h2 ++ [Event.log "not creating as cluster exists", Event.log "Getting credentials...",
        Event.exec d.getCredentialsCmd] →
      (∃ rest : List Event,
        (d.Execute w h0).2 = h3 ++ rest ∧
        ∀ c, Event.exec c ∈ rest →
          (GkeDriver.isMaxMapCountCmd c = true ∨ GkeDriver.isConfigureDockerCmd c = true ∨
            GkeDriver.isStorageClassCmd c = true) ∧
          (d.plan.VmMapMax = false → GkeDriver.isMaxMapCountCmd c = false) ∧
          GkeDriver.isConfigSSHCmd c = false ∧ GkeDriver.isClusterCreateCmd c = false ∧
          GkeDriver.isRoleBindingCmd c = false) ∧
      (∀ e, (w.exec (h2 ++ [Event.log "not creating as cluster exists",
            Event.log "Getting credentials..."]) d.getCredentialsCmd).2 = some e →
        d.Execute w h0 = (Res.val (some e), h3)) ∧
      ((w.exec (h2 ++ [Event.log "not creating as cluster exists",
            Event.log "Getting credentials..."]) d.getCredentialsCmd).2 = none →
        d.plan.VmMapMax = false →
        (∀ e, (w.exec (h3 ++ [Event.log "Configuring Docker..."])
              GkeDriver.configureDockerCmd).2 = some e →
          d.Execute w h0 =
            (Res.val (some e),
              h3 ++ [Event.log "Configuring Docker...",
                Event.exec GkeDriver.configureDockerCmd])) ∧
        ((w.exec (h3 ++ [Event.log "Configuring Docker..."])
              GkeDriver.configureDockerCmd).2 = none →
          d.Execute w h0 =
            d.patchStorageClass w
              (h3 ++ [Event.log "Configuring Docker...",
                Event.exec GkeDriver.configureDockerCmd]))) ∧
      ((w.exec (h2 ++ [Event.log "not creating as cluster exists",
            Event.log "Getting credentials..."]) d.getCredentialsCmd).2 = none →
        d.plan.VmMapMax = true →
        ∀ (r : Res (Option GoError)) (h4 : List Event),
          d.setMaxMapCount w h3 = (r, h4) →
          (∃ (o : Option GoError) (tail : List Event),
            r = Res.val o ∧
            h4 = h3 ++ [Event.log "Setting max map count...", Event.exec d.instancesListCmd] ++
              tail) ∧
          (∀ e, r = Res.val (some e) → d.Execute w h0 = (Res.val (some e), h4)) ∧
          (r = Res.val none →
            (∀ e, (w.exec (h4 ++ [Event.log "Configuring Docker..."])
                  GkeDriver.configureDockerCmd).2 = some e →
              d.Execute w h0 =
                (Res.val (some e),
                  h4 ++ [Event.log "Configuring Docker...",
                    Event.exec GkeDriver.configureDockerCmd])) ∧
            ((w.exec (h4 ++ [Event.log "Configuring Docker..."])
                  GkeDriver.configureDockerCmd).2 = none →
              d.Execute w h0 =
                d.patchStorageClass w
                  (h4 ++ [Event.log "Configuring Docker...",
                    Event.exec GkeDriver.configureDockerCmd]))))) := by
  constructor
  · intro d h0 h1 h2 hop hauth hex
    simp only [AksDriver.Execute, exec_bind_apply, hauth, hex, hop, if_true,
      AksDriver.GetCredentials, logPrint_apply, Command.Run_apply, List.append_assoc,
      List.singleton_append, String.reduceEq, if_false]
    cases (w.exec (h2 ++ [Event.log "not creating as cluster exists",
        Event.log "Getting credentials..."]) d.getCredentialsCmd).2 <;> rfl
  · intro d h0 h1 h2 h3 hop hauth hex hh3
    subst hh3
    have hE : d.Execute w h0 =
        d.commonSteps w (h2 ++ [Event.log "not creating as cluster exists"]) := by
      simp only [GkeDriver.Execute, exec_bind_apply, hauth, hex, hop, if_true, logPrint_apply,
        String.reduceEq, if_false]
    have hret : ∀ (m : Exec (Option GoError)) (H : List Event),
        (m >>= fun err => match err with
          | some e => (pure (some e) : Exec (Option GoError))
          | none => pure none) H = m H := by
      intro m H
      simp only [exec_bind_apply]
      rcases m H with ⟨r, t⟩
      cases r with
      | val a => cases a <;> rfl
      | panic why => rfl
    refine ⟨?_, ?_, ?_, ?_⟩
    · rw [hE]
      cases hcred : (w.exec (h2 ++ [Event.log "not creating as cluster exists",
          Event.log "Getting credentials..."]) d.getCredentialsCmd).2 with
      | some e =>
        refine ⟨[], ?_, by simp⟩
        simp only [GkeDriver.commonSteps, GkeDriver.GetCredentials, exec_bind_apply,
          logPrint_apply, Command.Run_apply, List.append_assoc, List.singleton_append,
          List.cons_append, List.nil_append, hcred, exec_pure_apply, List.append_nil]
      | none =>
        obtain ⟨rest, hrest, hP⟩ := afterCredentials_emits w d
          (h2 ++ [Event.log "not creating as cluster exists", Event.log "Getting credentials...",
            Event.exec d.getCredentialsCmd])
        refine ⟨rest, ?_, fun c hc => ?_⟩
        · rw [← hrest]
          simp only [GkeDriver.commonSteps, GkeDriver.GetCredentials, exec_bind_apply,
            logPrint_apply, Command.Run_apply, List.append_assoc, List.singleton_append,
            List.cons_append, List.nil_append, hcred]
        · have hc1 : GkeDriver.isMaxMapCountCmd c = true ∨
              GkeDriver.isConfigureDockerCmd c = true ∨ GkeDriver.isStorageClassCmd c = true := by
            rcases hP c hc with h | h | h
            · exact Or.inl h.1
            · exact Or.inr (Or.inl h)
            · exact Or.inr (Or.inr h)
          refine ⟨hc1, fun hvm => ?_, post_step_is_not_create_step c hc1⟩
          rcases hP c hc with h | h | h
          · rw [hvm] at h
            exact absurd h.2 (by decide)
          · exact docker_or_storage_is_not_maxMapCount c (Or.inl h)
          · exact docker_or_storage_is_not_maxMapCount c (Or.inr h)
    · intro e hcred
      rw [hE]
      simp only [GkeDriver.commonSteps, GkeDriver.GetCredentials, exec_bind_apply,
        logPrint_apply, Command.Run_apply, List.append_assoc, List.singleton_append,
        List.cons_append, List.nil_append, hcred, exec_pure_apply]
    · intro hcred hvm
      constructor
      · intro e hd
        simp only [List.append_assoc, List.singleton_append, List.cons_append,
          List.nil_append] at hd
        rw [hE]
        simp only [GkeDriver.commonSteps, GkeDriver.GetCredentials, GkeDriver.configureDocker,
          exec_bind_apply, logPrint_apply, Command.Run_apply, List.append_assoc,
          List.singleton_append, List.cons_append, List.nil_append, hcred, hvm, hd,
          exec_pure_apply, Bool.false_eq_true, if_false]
      · intro hd
        simp only [List.append_assoc, List.singleton_append, List.cons_append,
          List.nil_append] at hd
        rw [hE, ← hret (d.patchStorageClass w)]
        simp only [GkeDriver.commonSteps, GkeDriver.GetCredentials, GkeDriver.configureDocker,
          exec_bind_apply, logPrint_apply, Command.Run_apply, List.append_assoc,
          List.singleton_append, List.cons_append, List.nil_append, hcred, hvm, hd,
          exec_pure_apply, Bool.false_eq_true, if_false]
    · intro hcred hvm r h4 hset
      obtain ⟨o, tail, hs⟩ := setMaxMapCount_returns w d
        (h2 ++ [Event.log "not creating as cluster exists", Event.log "Getting credentials...",
          Event.exec d.getCredentialsCmd])
      have hr : r = Res.val o := by
        rw [hs] at hset
        exact (Prod.mk.inj hset).1.symm
      have hset2 := hset
      simp only [List.append_assoc, List.singleton_append, List.cons_append,
        List.nil_append] at hset2
      refine ⟨⟨o, tail, hr, ?_⟩, ?_, ?_⟩
      · rw [hs] at hset
        exact (Prod.mk.inj hset).2.symm
      · intro e he
        subst he
        rw [hE]
        simp only [GkeDriver.commonSteps, GkeDriver.GetCredentials, exec_bind_apply,
          logPrint_apply, Command.Run_apply, List.append_assoc, List.singleton_append,
          List.cons_append, List.nil_append, hcred, hvm, hset2, exec_pure_apply, if_true]
      · intro he
        subst he
        constructor
        · intro e hd
          rw [hE]
          simp only [GkeDriver.commonSteps, GkeDriver.GetCredentials, GkeDriver.configureDocker,
            exec_bind_apply, logPrint_apply, Command.Run_apply, List.append_assoc,
            List.singleton_append, List.cons_append, List.nil_append, hcred, hvm, hset2, hd,
            exec_pure_apply, if_true]
        · intro hd
          rw [hE, ← hret (d.patchStorageClass w)]
          simp only [GkeDriver.commonSteps, GkeDriver.GetCredentials, GkeDriver.configureDocker,
            exec_bind_apply, logPrint_apply, Command.Run_apply, List.append_assoc,
            List.singleton_append, List.cons_append, List.nil_append, hcred, hvm, hset2, hd,
            exec_pure_apply, if_true]

/-- C1 amended, at concrete inputs: both drivers, operation "create", in worlds
where every command succeeds, so that the cluster exists; the GKE driver once
with `VmMapMax` false and once with `VmMapMax` true and one instance. -/
theorem execute_create_existing_witness :
    ((sampleAks "create").plan.Operation = "create" ∧
      (sampleAks "create").auth (World.quiet "") [] =
        (Res.val none, [Event.log "Authenticating as user...", Event.exec (NewCommand "az login")]) ∧
      (sampleAks "create").clusterExists (World.quiet "")
          [Event.log "Authenticating as user...", Event.exec (NewCommand "az login")] =
        (Res.val (true, none),
          [Event.log "Authenticating as user...", Event.exec (NewCommand "az login"),
           Event.log "Checking if cluster exists...", Event.exec (sampleAks "create").clusterExistsCmd]) ∧
      (sampleAks "create").Execute (World.quiet "") [] =
        (Res.val none,
          [Event.log "Authenticating as user...", Event.exec (NewCommand "az login"),
           Event.log "Checking if cluster exists...", Event.exec (sampleAks "create").clusterExistsCmd] ++
          [Event.log "not creating as cluster exists", Event.log "Getting credentials...",
           Event.exec (sampleAks "create").getCredentialsCmd])) ∧
    ((sampleGke "create").plan.Operation = "create" ∧
      (sampleGke "create").plan.VmMapMax = false ∧
      (sampleGke "create").auth (World.quiet "standard-customized") [] =
        (Res.val none, [Event.log "Authenticating as user...", Event.exec GkeDriver.authListCmd]) ∧
      (sampleGke "create").clusterExists (World.quiet "standard-customized")
          [Event.log "Authenticating as user...", Event.exec GkeDriver.authListCmd] =
        (Res.val (true, none),
          [Event.log "Authenticating as user...", Event.exec GkeDriver.authListCmd,
           Event.log "Checking if cluster exists...", Event.exec (sampleGke "create").clusterExistsCmd]) ∧
      (sampleGke "create").Execute (World.quiet "standard-customized") [] =
        (sampleGke "create").patchStorageClass (World.quiet "standard-customized")
          ([Event.log "Authenticating as user...", Event.exec GkeDriver.authListCmd,
            Event.log "Checking if cluster exists...", Event.exec (sampleGke "create").clusterExistsCmd] ++
           [Event.log "not creating as cluster exists", Event.log "Getting credentials...",
            Event.exec (sampleGke "create").getCredentialsCmd] ++
           [Event.log "Configuring Docker...", Event.exec GkeDriver.configureDockerCmd])) ∧
    ((sampleGkeVmMapMax "create").plan.Operation = "create" ∧
      (sampleGkeVmMapMax "create").plan.VmMapMax = true ∧
      (sampleGkeVmMapMax "create").auth (World.oneInstance "standard-customized") [] =
        (Res.val none, [Event.log "Authenticating as user...", Event.exec GkeDriver.authListCmd]) ∧
      (sampleGkeVmMapMax "create").clusterExists (World.oneInstance "standard-customized")
          [Event.log "Authenticating as user...", Event.exec GkeDriver.authListCmd] =
        (Res.val (true, none),
          [Event.log "Authenticating as user...", Event.exec GkeDriver.authListCmd,
           Event.log "Checking if cluster exists...",
           Event.exec (sampleGkeVmMapMax "create").clusterExistsCmd]) ∧
      (sampleGkeVmMapMax "create").Execute (World.oneInstance "standard-customized") [] =
        (sampleGkeVmMapMax "create").patchStorageClass (World.oneInstance "standard-customized")
          ([Event.log "Authenticating as user...", Event.exec GkeDriver.authListCmd,
            Event.log "Checking if cluster exists...",
            Event.exec (sampleGkeVmMapMax "create").clusterExistsCmd] ++
           [Event.log "not creating as cluster exists", Event.log "Getting credentials...",
            Event.exec (sampleGkeVmMapMax "create").getCredentialsCmd] ++
           [Event.log "Setting max map count...",
            Event.exec (sampleGkeVmMapMax "create").instancesListCmd,
            Event.exec ((sampleGkeVmMapMax "create").sshCmd "node-1" "europe-west1-b")] ++
           [Event.log "Configuring Docker...", Event.exec GkeDriver.configureDockerCmd])) :=
  ⟨⟨rfl, rfl, rfl,
    (execute_create_existing (World.quiet "")).1 (sampleAks "create") [] _ _ rfl rfl rfl⟩,
   ⟨rfl, rfl, by decide, by decide,
    (((execute_create_existing (World.quiet "standard-customized")).2 (sampleGke "create") [] _ _ _
      rfl rfl rfl rfl).2.2.1 rfl rfl).2 rfl⟩,
   ⟨rfl, rfl, by decide, by decide,
    ((((execute_create_existing (World.oneInstance "standard-customized")).2
      (sampleGkeVmMapMax "create") [] _ _ _ rfl rfl rfl rfl).2.2.2 rfl rfl
        (Res.val none)
        ([Event.log "Authenticating as user...", Event.exec GkeDriver.authListCmd,
          Event.log "Checking if cluster exists...",
          Event.exec (sampleGkeVmMapMax "create").clusterExistsCmd] ++
         [Event.log "not creating as cluster exists", Event.log "Getting credentials...",
          Event.exec (sampleGkeVmMapMax "create").getCredentialsCmd] ++
         [Event.log "Setting max map count...",
          Event.exec (sampleGkeVmMapMax "create").instancesListCmd,
          Event.exec ((sampleGkeVmMapMax "create").sshCmd "node-1" "europe-west1-b")])
        rfl).2.2 rfl).2 rfl⟩⟩

/-! ## The order of the steps of a GKE create -/

/-- C7: for every GKE plan with operation "create" and `VmMapMax = false`, when
the login succeeds, the existence check reports that the cluster does not exist
and every other command succeeds, `Execute` runs after the existence check, in
this order, configSSH, create, bindRoles, GetCredentials, configureDocker and
then patchStorageClass, whose result it returns; no command run after the
existence check is a max-map-count command (instance listing or remote
session). -/
theorem gke_create_step_order (w : World) (d : GkeDriver) (h0 h1 h2 : List Event)
    (hop : d.plan.Operation = "create") (hvm : d.plan.VmMapMax = false)
    (hauth : d.auth w h0 = (Res.val none, h1))
    (hex : d.clusterExists w h1 = (Res.val (false, none), h2))
    (hok : ∀ (H : List Event) (c : Command), c ≠ d.clusterExistsCmd → (w.exec H c).2 = none) :
    ∃ (user : String) (sc : List Event),
      d.Execute w h0 =
        d.patchStorageClass w
          (h2 ++ [Event.log "Configuring ssh...", Event.exec d.configSSHCmd,
            Event.log "Creating cluster...",
            Event.exec (d.createCmd (if d.plan.Psp then " --enable-pod-security-policy" else "")),
            Event.log "Binding roles...", Event.exec GkeDriver.activeAccountCmd,
            Event.exec (GkeDriver.bindCmd user),
            Event.log "Getting credentials...", Event.exec d.getCredentialsCmd,
            Event.log "Configuring Docker...", Event.exec GkeDriver.configureDockerCmd]) ∧
      (d.Execute w h0).2 =
        h2 ++ [Event.log "Configuring ssh...", Event.exec d.configSSHCmd,
            Event.log "Creating cluster...",
            Event.exec (d.createCmd (if d.plan.Psp then " --enable-pod-security-policy" else "")),
            Event.log "Binding roles...", Event.exec GkeDriver.activeAccountCmd,
            Event.exec (GkeDriver.bindCmd user),
            Event.log "Getting credentials...", Event.exec d.getCredentialsCmd,
            Event.log "Configuring Docker...", Event.exec GkeDriver.configureDockerCmd] ++ sc ∧
      (∀ c, Event.exec c ∈ sc → GkeDriver.isStorageClassCmd c = true) ∧
      (∀ c, Event.exec c ∈
          [Event.log "Configuring ssh...", Event.exec d.configSSHCmd,
            Event.log "Creating cluster...",
            Event.exec (d.createCmd (if d.plan.Psp then " --enable-pod-security-policy" else "")),
            Event.log "Binding roles...", Event.exec GkeDriver.activeAccountCmd,
            Event.exec (GkeDriver.bindCmd user),
            Event.log "Getting credentials...", Event.exec d.getCredentialsCmd,
            Event.log "Configuring Docker...", Event.exec GkeDriver.configureDockerCmd] ++ sc →
        GkeDriver.isMaxMapCountCmd c = false) := by
  have hne : ∀ c : Command, c.stream = true → c ≠ d.clusterExistsCmd := by
    intro c hc heq
    rw [heq] at hc
    exact absurd hc (by simp [GkeDriver.clusterExistsCmd, Command.WithoutStreaming])
  have hrun : ∀ (H : List Event) (c : Command), c.stream = true → (w.exec H c).2 = none :=
    fun H c hc => hok H c (hne c hc)
  have h1r := hrun (h2 ++ [Event.log "Configuring ssh..."]) d.configSSHCmd rfl
  have h2r := hrun (h2 ++ [Event.log "Configuring ssh...", Event.exec d.configSSHCmd,
      Event.log "Creating cluster..."])
    (d.createCmd (if d.plan.Psp then " --enable-pod-security-policy" else "")) rfl
  have h3r := hrun (h2 ++ [Event.log "Configuring ssh...", Event.exec d.configSSHCmd,
      Event.log "Creating cluster...",
      Event.exec (d.createCmd (if d.plan.Psp then " --enable-pod-security-policy" else "")),
      Event.log "Binding roles..."]) GkeDriver.activeAccountCmd rfl
  have h4r := hrun (h2 ++ [Event.log "Configuring ssh...", Event.exec d.configSSHCmd,
      Event.log "Creating cluster...",
      Event.exec (d.createCmd (if d.plan.Psp then " --enable-pod-security-policy" else "")),
      Event.log "Binding roles...", Event.exec GkeDriver.activeAccountCmd])
    (GkeDriver.bindCmd (w.exec (h2 ++ [Event.log "Configuring ssh...", Event.exec d.configSSHCmd,
      Event.log "Creating cluster...",
      Event.exec (d.createCmd (if d.plan.Psp then " --enable-pod-security-policy" else "")),
      Event.log "Binding roles..."]) GkeDriver.activeAccountCmd).1) rfl
  have h5r := hrun (h2 ++ [Event.log "Configuring ssh...", Event.exec d.configSSHCmd,
      Event.log "Creating cluster...",
      Event.exec (d.createCmd (if d.plan.Psp then " --enable-pod-security-policy" else "")),
      Event.log "Binding roles...", Event.exec GkeDriver.activeAccountCmd,
      Event.exec (GkeDriver.bindCmd (w.exec (h2 ++ [Event.log "Configuring ssh...",
        Event.exec d.configSSHCmd, Event.log "Creating cluster...",
        Event.exec (d.createCmd (if d.plan.Psp then " --enable-pod-security-policy" else "")),
        Event.log "Binding roles..."]) GkeDriver.activeAccountCmd).1),
      Event.log "Getting credentials..."]) d.getCredentialsCmd rfl
  have h6r := hrun (h2 ++ [Event.log "Configuring ssh...", Event.exec d.configSSHCmd,
      Event.log "Creating cluster...",
      Event.exec (d.createCmd (if d.plan.Psp then " --enable-pod-security-policy" else "")),
      Event.log "Binding roles...", Event.exec GkeDriver.activeAccountCmd,
      Event.exec (GkeDriver.bindCmd (w.exec (h2 ++ [Event.log "Configuring ssh...",
        Event.exec d.configSSHCmd, Event.log "Creating cluster...",
        Event.exec (d.createCmd (if d.plan.Psp then " --enable-pod-security-policy" else "")),
        Event.log "Binding roles..."]) GkeDriver.activeAccountCmd).1),
      Event.log "Getting credentials...", Event.exec d.getCredentialsCmd,
      Event.log "Configuring Docker..."]) GkeDriver.configureDockerCmd rfl
  have hE : d.Execute w h0 =
      d.patchStorageClass w
        (h2 ++ [Event.log "Configuring ssh...", Event.exec d.configSSHCmd,
          Event.log "Creating cluster...",
          Event.exec (d.createCmd (if d.plan.Psp then " --enable-pod-security-policy" else "")),
          Event.log "Binding roles...", Event.exec GkeDriver.activeAccountCmd,
          Event.exec (GkeDriver.bindCmd (w.exec (h2 ++ [Event.log "Configuring ssh...",
            Event.exec d.configSSHCmd, Event.log "Creating cluster...",
            Event.exec (d.createCmd (if d.plan.Psp then " --enable-pod-security-policy" else "")),
            Event.log "Binding roles..."]) GkeDriver.activeAccountCmd).1),
          Event.log "Getting credentials...", Event.exec d.getCredentialsCmd,
          Event.log "Configuring Docker...", Event.exec GkeDriver.configureDockerCmd]) := by
    simp only [GkeDriver.Execute, GkeDriver.createSteps, GkeDriver.commonSteps,
      GkeDriver.configSSH, GkeDriver.create, GkeDriver.bindRoles, GkeDriver.GetCredentials,
      GkeDriver.configureDocker, exec_bind_apply, logPrint_apply, Command.Run_apply,
      Command.Output_apply, exec_pure_apply, hauth, hex, hop, hvm, h1r, h2r, h3r, h4r, h5r, h6r,
      List.append_assoc, List.cons_append, List.nil_append, List.singleton_append, if_true,
      if_false, String.reduceEq, Bool.false_eq_true]
    rcases d.patchStorageClass w _ with ⟨r, t⟩
    cases r with
    | val a => cases a <;> rfl
    | panic why => rfl
  obtain ⟨sc, hsc, hP⟩ := patchStorageClass_emits w d
    (h2 ++ [Event.log "Configuring ssh...", Event.exec d.configSSHCmd,
      Event.log "Creating cluster...",
      Event.exec (d.createCmd (if d.plan.Psp then " --enable-pod-security-policy" else "")),
      Event.log "Binding roles...", Event.exec GkeDriver.activeAccountCmd,
      Event.exec (GkeDriver.bindCmd (w.exec (h2 ++ [Event.log "Configuring ssh...",
        Event.exec d.configSSHCmd, Event.log "Creating cluster...",
        Event.exec (d.createCmd (if d.plan.Psp then " --enable-pod-security-policy" else "")),
        Event.log "Binding roles..."]) GkeDriver.activeAccountCmd).1),
      Event.log "Getting credentials...", Event.exec d.getCredentialsCmd,
      Event.log "Configuring Docker...", Event.exec GkeDriver.configureDockerCmd])
  refine ⟨_, sc, hE, by rw [hE, hsc], hP, ?_⟩
  intro c hc
  rcases List.mem_append.mp hc with hc | hc
  · simp only [List.mem_cons, Event.exec.injEq, List.mem_singleton, false_or, List.not_mem_nil,
      or_false, reduceCtorEq] at hc
    rcases hc with hc | hc | hc | hc | hc | hc
    · subst hc; rfl
    · subst hc
      cases d.plan.Psp <;> rfl
    · subst hc; rfl
    · subst hc
      exact Bool.or_eq_false_iff.mpr
        ⟨startsWith_exclusive _ "kubectl create clusterrolebinding" _ (by decide) (by decide)
          (startsWith_append _ _ _ _ _ _ (by decide)),
         startsWith_exclusive _ "kubectl create clusterrolebinding" _ (by decide) (by decide)
          (startsWith_append _ _ _ _ _ _ (by decide))⟩
    · subst hc; rfl
    · subst hc; rfl
  · have hs := hP c hc
    simp only [GkeDriver.isStorageClassCmd, Bool.or_eq_true] at hs
    simp only [GkeDriver.isMaxMapCountCmd, Bool.or_eq_false_iff]
    rcases hs with (hs | hs) | hs <;>
      exact ⟨startsWith_exclusive c _ _ (by decide) (by decide) hs,
        startsWith_exclusive c _ _ (by decide) (by decide) hs⟩

/-- C7, at a concrete input: the GKE driver with operation "create" and
`VmMapMax = false`, in a world where the cluster is absent and every other
command succeeds. -/
theorem gke_create_step_order_witness :
    (sampleGke "create").plan.Operation = "create" ∧
    (sampleGke "create").plan.VmMapMax = false ∧
    (sampleGke "create").auth (World.absentFor (sampleGke "create").clusterExistsCmd "") [] =
      (Res.val none,
        [Event.log "Authenticating as user...", Event.exec GkeDriver.authListCmd,
         Event.exec (NewCommand "gcloud auth login")]) ∧
    (sampleGke "create").clusterExists (World.absentFor (sampleGke "create").clusterExistsCmd "")
        [Event.log "Authenticating as user...", Event.exec GkeDriver.authListCmd,
         Event.exec (NewCommand "gcloud auth login")] =
      (Res.val (false, none),
        [Event.log "Authenticating as user...", Event.exec GkeDriver.authListCmd,
         Event.exec (NewCommand "gcloud auth login"),
         Event.log "Checking if cluster exists...", Event.exec (sampleGke "create").clusterExistsCmd]) ∧
    ∃ (user : String) (sc : List Event),
      ((sampleGke "create").Execute (World.absentFor (sampleGke "create").clusterExistsCmd "") []).2 =
        [Event.log "Authenticating as user...", Event.exec GkeDriver.authListCmd,
         Event.exec (NewCommand "gcloud auth login"),
         Event.log "Checking if cluster exists...", Event.exec (sampleGke "create").clusterExistsCmd] ++
        [Event.log "Configuring ssh...", Event.exec (sampleGke "create").configSSHCmd,
         Event.log "Creating cluster...",
         Event.exec ((sampleGke "create").createCmd
           (if (sampleGke "create").plan.Psp then " --enable-pod-security-policy" else "")),
         Event.log "Binding roles...", Event.exec GkeDriver.activeAccountCmd,
         Event.exec (GkeDriver.bindCmd user),
         Event.log "Getting credentials...", Event.exec (sampleGke "create").getCredentialsCmd,
         Event.log "Configuring Docker...", Event.exec GkeDriver.configureDockerCmd] ++ sc :=
  ⟨rfl, rfl, rfl, rfl,
   (gke_create_step_order (World.absentFor (sampleGke "create").clusterExistsCmd "")
      (sampleGke "create") [] _ _ rfl rfl rfl rfl
      (fun _ c hc => by simp [World.absentFor, World.scripted, hc])).imp
    (fun _ hu => hu.imp (fun _ hs => hs.2.1))⟩

/-! ## Failure aborts the remaining steps -/

theorem obeys_nil (w : World) (X : List Event → Event → Prop) (h : List Event)
    (r : Res (Option GoError)) : Obeys w X h [] r := by
  intro pre ev post e hsplit
  exact absurd hsplit (by simp)

theorem obeys_cons {w : World} {X : List Event → Event → Prop} {h rest : List Event} {ev : Event}
    {r : Res (Option GoError)}
    (hev : ∀ e, w.failure h ev = some e → ¬ X h ev →
      (∀ x ∈ rest, x.isRequest = false) ∧ r = Res.val (some e))
    (hrest : Obeys w X (h ++ [ev]) rest r) : Obeys w X h (ev :: rest) r := by
  intro pre ev1 post e hsplit hfail hX
  cases pre with
  | nil =>
    simp only [List.nil_append, List.cons.injEq] at hsplit
    obtain ⟨h1, h2⟩ := hsplit
    subst h1 h2
    simp only [List.append_nil] at hfail hX
    exact hev e hfail hX
  | cons p pre1 =>
    simp only [List.cons_append, List.cons.injEq] at hsplit
    obtain ⟨h1, h2⟩ := hsplit
    subst h1
    refine hrest pre1 ev1 post e h2 ?_ ?_
    · simpa only [List.append_assoc, List.singleton_append] using hfail
    · simpa only [List.append_assoc, List.singleton_append] using hX

theorem obeys_append {w : World} {X : List Event → Event → Prop} {h n1 n2 : List Event}
    {r1 r2 : Res (Option GoError)}
    (h1 : Obeys w X h n1 r1) (h2 : Obeys w X (h ++ n1) n2 r2)
    (hcont : ∀ e, r1 = Res.val (some e) → False) : Obeys w X h (n1 ++ n2) r2 := by
  intro pre ev post e hsplit hfail hX
  rcases List.append_eq_append_iff.mp hsplit with ⟨a, ha1, ha2⟩ | ⟨c, hc1, hc2⟩
  · subst ha1
    refine h2 a ev post e ha2 ?_ ?_
    · simpa only [List.append_assoc] using hfail
    · simpa only [List.append_assoc] using hX
  · cases c with
    | nil =>
      simp only [List.append_nil, List.nil_append] at hc1 hc2
      subst hc1
      refine h2 [] ev post e hc2.symm ?_ ?_
      · simpa only [List.append_nil] using hfail
      · simpa only [List.append_nil] using hX
    | cons c0 c1 =>
      simp only [List.cons_append, List.cons.injEq] at hc2
      obtain ⟨hc0, hc3⟩ := hc2
      subst hc0
      exact absurd (h1 pre ev c1 e hc1 hfail hX).2 (fun hr => hcont e hr)

theorem failfast_pure (w : World) (X : List Event → Event → Prop) {α : Type}
    (errOf : α → Option GoError) (a : α) : FailFast w X errOf (Pure.pure a : Exec α) := by
  intro h
  exact ⟨[], by simp, obeys_nil _ _ _ _⟩

theorem failfast_bind {w : World} {X : List Event → Event → Prop} {α β : Type}
    {ea : α → Option GoError} {eb : β → Option GoError} {m : Exec α} {f : α → Exec β}
    (hm : FailFast w X ea m)
    (hf : ∀ a, ea a = none → FailFast w X eb (f a))
    (hp : ∀ a e, ea a = some e → ∃ b, f a = Pure.pure b ∧ eb b = some e) :
    FailFast w X eb (m >>= f) := by
  intro h
  obtain ⟨n1, e1, o1⟩ := hm h
  rcases hmh : m h with ⟨r, h1⟩
  rw [hmh] at e1 o1
  simp only at e1 o1
  subst e1
  cases r with
  | panic why =>
    refine ⟨n1, by simp only [exec_bind_apply, hmh], ?_⟩
    simp only [exec_bind_apply, hmh]
    exact o1
  | val a =>
    cases hea : ea a with
    | none =>
      obtain ⟨n2, e2, o2⟩ := hf a hea (h ++ n1)
      refine ⟨n1 ++ n2, by simp only [exec_bind_apply, hmh, e2, List.append_assoc], ?_⟩
      simp only [exec_bind_apply, hmh]
      refine obeys_append o1 o2 ?_
      intro e he
      simp only [Res.map, hea, Res.val.injEq, reduceCtorEq] at he
    | some e0 =>
      obtain ⟨b, hb, hbe⟩ := hp a e0 hea
      refine ⟨n1, by simp only [exec_bind_apply, hmh, hb, exec_pure_apply], ?_⟩
      simp only [exec_bind_apply, hmh, hb, exec_pure_apply, Res.map, hbe]
      simpa only [Res.map, hea] using o1

theorem failfast_log (w : World) (X : List Event → Event → Prop)
    (errOf : Unit → Option GoError) (msg : String) :
    FailFast w X errOf (logPrint msg) := by
  intro h
  refine ⟨[Event.log msg], rfl, obeys_cons ?_ (obeys_nil _ _ _ _)⟩
  intro e he
  simp [World.failure] at he

theorem failfast_output (w : World) (X : List Event → Event → Prop) (c : Command) :
    FailFast w X Prod.snd (c.output w) := by
  intro h
  refine ⟨[Event.exec c], rfl, obeys_cons ?_ (obeys_nil _ _ _ _)⟩
  intro e he _
  refine ⟨by simp, ?_⟩
  simp only [World.failure] at he
  simp only [Command.output_apply, Res.map, he]

theorem failfast_run (w : World) (X : List Event → Event → Prop) (c : Command) :
    FailFast w X id (c.Run w) := by
  refine failfast_bind (failfast_output w X c) (fun r _ => failfast_pure _ _ _ _) ?_
  intro r e hr
  exact ⟨r.2, rfl, hr⟩

theorem failfast_outputList (w : World) (X : List Event → Event → Prop) (c : Command) :
    FailFast w X Prod.snd (c.OutputList w) := by
  refine failfast_bind (failfast_output w X c) (fun r _ => ?_) ?_
  · rcases r with ⟨out, _ | e⟩ <;> exact failfast_pure _ _ _ _
  · intro r e hr
    rcases r with ⟨out, _ | e1⟩
    · simp at hr
    · simp only [Option.some.injEq] at hr
      subst hr
      exact ⟨([], some e1), rfl, rfl⟩

theorem failfast_outputContainsAny (w : World) (X : List Event → Event → Prop) (c : Command)
    (tokens : List String) : FailFast w X Prod.snd (c.OutputContainsAny w tokens) := by
  refine failfast_bind (failfast_output w X c) (fun r _ => failfast_pure _ _ _ _) ?_
  intro r e hr
  exact ⟨_, rfl, hr⟩

theorem failfast_goIndex (w : World) (X : List Event → Event → Prop)
    (errOf : String → Option GoError) (xs : List String) (i : Nat) :
    FailFast w X errOf (goIndex xs i) := by
  intro h
  refine ⟨[], ?_, obeys_nil _ _ _ _⟩
  simp only [Runner.goIndex, List.get?_eq_getElem?]
  cases xs[i]? <;> simp

theorem failfast_getMany (w : World) (X : List Event → Event → Prop) (c : VaultClient)
    (path : String) (fields : List String) :
    FailFast w X Prod.snd (c.GetMany w path fields) := by
  intro h
  refine ⟨[Event.vaultGetMany c path fields], rfl, obeys_cons ?_ (obeys_nil _ _ _ _)⟩
  intro e he _
  refine ⟨by simp, ?_⟩
  simp only [World.failure] at he
  simp only [VaultClient.GetMany, Res.map, he]

theorem failfast_newClient (w : World) (X : List Event → Event → Prop) (info : VaultInfo) :
    FailFast w X Prod.snd (NewClient w info) := by
  intro h
  refine ⟨[Event.newClient info], rfl, obeys_cons ?_ (obeys_nil _ _ _ _)⟩
  intro e he _
  refine ⟨by simp, ?_⟩
  simp only [World.failure] at he
  simp only [NewClient, Res.map, he]

theorem failfast_readIntoFile (w : World) (X : List Event → Event → Prop) (c : VaultClient)
    (file path field : String) :
    FailFast w X id (c.ReadIntoFile w file path field) := by
  intro h
  refine ⟨[Event.vaultReadIntoFile c file path field], rfl, obeys_cons ?_ (obeys_nil _ _ _ _)⟩
  intro e he _
  refine ⟨by simp, ?_⟩
  simp only [World.failure] at he
  simp only [VaultClient.ReadIntoFile, Res.map, he, id]

theorem failfast_deferring {w : World} {X : List Event → Event → Prop} {α : Type}
    {errOf : α → Option GoError} {m : Exec α} (hm : FailFast w X errOf m) (name : String) :
    FailFast w X errOf (Exec.deferring m (Event.removeFile name)) := by
  intro h
  obtain ⟨n1, e1, o1⟩ := hm h
  refine ⟨n1 ++ [Event.removeFile name], by simp only [Exec.deferring, e1, List.append_assoc], ?_⟩
  simp only [Exec.deferring]
  intro pre ev post e hsplit hfail hX
  rcases List.append_eq_append_iff.mp hsplit with ⟨a, ha1, ha2⟩ | ⟨c, hc1, hc2⟩
  · cases a with
    | nil =>
      simp only [List.nil_append, List.cons.injEq] at ha2
      obtain ⟨ha3, _⟩ := ha2
      subst ha3
      simp [World.failure] at hfail
    | cons a0 a1 =>
      simp only [List.cons_append, List.cons.injEq] at ha2
      exact absurd ha2.2 (by simp)
  · cases c with
    | nil =>
      simp only [List.nil_append, List.cons.injEq] at hc2
      obtain ⟨hc3, _⟩ := hc2
      subst hc3
      simp [World.failure] at hfail
    | cons c0 c1 =>
      simp only [List.cons_append, List.cons.injEq] at hc2
      obtain ⟨hc0, hc3⟩ := hc2
      subst hc0 hc3
      obtain ⟨hq, hr⟩ := o1 pre ev c1 e hc1 hfail hX
      refine ⟨?_, hr⟩
      intro x hx
      rcases List.mem_append.mp hx with hx | hx
      · exact hq x hx
      · simp only [List.mem_singleton] at hx
        subst hx
        rfl

theorem failfast_bind_quiet {w : World} {X : List Event → Event → Prop} {α β : Type}
    {eb : β → Option GoError} {m : Exec α} {f : α → Exec β}
    (hm : FailFast w X (fun _ => none) m) (hf : ∀ a, FailFast w X eb (f a)) :
    FailFast w X eb (m >>= f) :=
  failfast_bind hm (fun a _ => hf a) (fun _ _ h => absurd h (by simp))

theorem aks_auth_failfast (w : World) (X : List Event → Event → Prop) (d : AksDriver) :
    FailFast w X id (d.auth w) := by
  unfold AksDriver.auth
  cases d.plan.ServiceAccount with
  | true =>
    simp only [if_true]
    refine failfast_bind_quiet (failfast_log w X _ _) (fun _ => ?_)
    refine failfast_bind (failfast_getMany w X _ _ _) (fun r hr => ?_) (fun r e hr => ?_)
    · rcases r with ⟨secrets, _ | e⟩
      · refine failfast_bind_quiet (failfast_goIndex w X _ _ _) (fun _ => ?_)
        refine failfast_bind_quiet (failfast_goIndex w X _ _ _) (fun _ => ?_)
        refine failfast_bind_quiet (failfast_goIndex w X _ _ _) (fun _ => ?_)
        exact failfast_run w X _
      · simp at hr
    · rcases r with ⟨secrets, _ | e1⟩
      · simp at hr
      · simp only [Option.some.injEq] at hr
        subst hr
        exact ⟨_, rfl, rfl⟩
  | false =>
    simp only [Bool.false_eq_true, if_false]
    refine failfast_bind_quiet (failfast_log w X _ _) (fun _ => ?_)
    exact failfast_run w X _

theorem aks_clusterExists_failfast (w : World) (d : AksDriver) :
    FailFast w (reclassified w d.clusterExistsCmd ["not be found", "was not found"]) Prod.snd
      (d.clusterExists w) := by
  intro h
  refine ⟨[Event.log "Checking if cluster exists...", Event.exec d.clusterExistsCmd],
    clusterExists_trace_aks w d h, ?_⟩
  refine obeys_cons (fun e he => by simp [World.failure] at he) (obeys_cons ?_ (obeys_nil _ _ _ _))
  intro e he hX
  refine ⟨by simp, ?_⟩
  simp only [World.failure] at he
  simp only [reclassified, true_and, Bool.not_eq_true] at hX
  simp only [AksDriver.clusterExists, exec_bind_apply, logPrint_apply,
    Command.OutputContainsAny_apply, hX, Bool.false_eq_true, if_false, exec_pure_apply, he,
    Res.map]

theorem aks_create_failfast (w : World) (X : List Event → Event → Prop) (d : AksDriver) :
    FailFast w X id (d.create w) := by
  unfold AksDriver.create
  refine failfast_bind_quiet (failfast_log w X _ _) (fun _ => ?_)
  cases d.plan.ServiceAccount with
  | true =>
    simp only [if_true]
    refine failfast_bind (failfast_getMany w X _ _ _) (fun r hr => ?_) (fun r e hr => ?_)
    · rcases r with ⟨secrets, _ | e⟩
      · refine failfast_bind_quiet (failfast_goIndex w X _ _ _) (fun _ => ?_)
        refine failfast_bind_quiet (failfast_goIndex w X _ _ _) (fun _ => ?_)
        exact failfast_run w X _
      · simp at hr
    · rcases r with ⟨secrets, _ | e1⟩
      · simp at hr
      · simp only [Option.some.injEq] at hr
        subst hr
        exact ⟨_, rfl, rfl⟩
  | false =>
    simp only [Bool.false_eq_true, if_false]
    exact failfast_run w X _

theorem aks_configureDocker_failfast (w : World) (X : List Event → Event → Prop) (d : AksDriver) :
    FailFast w X id (d.configureDocker w) := by
  unfold AksDriver.configureDocker
  refine failfast_bind_quiet (failfast_log w X _ _) (fun _ => ?_)
  refine failfast_bind (failfast_run w X _) (fun err herr => ?_) (fun err e herr => ?_)
  swap
  · simp only [id] at herr
    subst herr
    exact ⟨_, rfl, rfl⟩
  simp only [id] at herr
  subst herr
  cases d.plan.ServiceAccount with
  | true => exact failfast_pure _ _ _ _
  | false =>
    simp only [Bool.false_eq_true, if_false]
    refine failfast_bind (failfast_outputList w X _) (fun r hr => ?_) (fun r e hr => ?_)
    swap
    · rcases r with ⟨ids, _ | e1⟩
      · simp at hr
      · simp only [Option.some.injEq] at hr
        subst hr
        exact ⟨_, rfl, rfl⟩
    rcases r with ⟨clientIds, _ | e1⟩
    swap
    · simp at hr
    refine failfast_bind (failfast_outputList w X _) (fun r hr => ?_) (fun r e hr => ?_)
    swap
    · rcases r with ⟨ids, _ | e1⟩
      · simp at hr
      · simp only [Option.some.injEq] at hr
        subst hr
        exact ⟨_, rfl, rfl⟩
    rcases r with ⟨acrIds, _ | e1⟩
    swap
    · simp at hr
    refine failfast_bind_quiet (failfast_goIndex w X _ _ _) (fun _ => ?_)
    refine failfast_bind_quiet (failfast_goIndex w X _ _ _) (fun _ => ?_)
    exact failfast_run w X _

theorem aks_getCredentials_failfast (w : World) (X : List Event → Event → Prop) (d : AksDriver) :
    FailFast w X id (d.GetCredentials w) :=
  failfast_bind_quiet (failfast_log w X _ _) (fun _ => failfast_run w X _)

theorem aks_delete_failfast (w : World) (X : List Event → Event → Prop) (d : AksDriver) :
    FailFast w X id (d.delete w) :=
  failfast_bind_quiet (failfast_log w X _ _) (fun _ => failfast_run w X _)

/-- A step that returns an error, followed by the Go statement
`if err != nil { return err }` and the rest of the function. -/
theorem failfast_step {w : World} {X : List Event → Event → Prop} {m k : Exec (Option GoError)}
    (hm : FailFast w X id m) (hk : FailFast w X id k) :
    FailFast w X id (m >>= fun err =>
      match err with
      | some e => Pure.pure (some e)
      | none => k) := by
  refine failfast_bind hm (fun err herr => ?_) (fun err e herr => ?_)
  · simp only [id] at herr
    subst herr
    exact hk
  · simp only [id] at herr
    subst herr
    exact ⟨_, rfl, rfl⟩

theorem aks_execute_failfast (w : World) (d : AksDriver) :
    FailFast w (reclassified w d.clusterExistsCmd ["not be found", "was not found"]) id
      (d.Execute w) := by
  unfold AksDriver.Execute
  refine failfast_step (aks_auth_failfast w _ d) ?_
  refine failfast_bind (aks_clusterExists_failfast w d) (fun r hr => ?_) (fun r e hr => ?_)
  swap
  · rcases r with ⟨found, _ | e1⟩
    · simp at hr
    · simp only [Option.some.injEq] at hr
      subst hr
      exact ⟨_, rfl, rfl⟩
  rcases r with ⟨found, _ | e1⟩
  swap
  · simp at hr
  simp only
  by_cases hdel : d.plan.Operation = "delete"
  · simp only [hdel, if_true]
    cases found with
    | true =>
      simp only [if_true]
      exact failfast_step (aks_delete_failfast w _ d) (failfast_pure _ _ _ _)
    | false =>
      simp only [Bool.false_eq_true, if_false]
      exact failfast_bind_quiet (failfast_log w _ _ _) (fun _ => failfast_pure _ _ _ _)
  · simp only [hdel, if_false]
    by_cases hcr : d.plan.Operation = "create"
    · simp only [hcr, if_true]
      cases found with
      | true =>
        simp only [if_true]
        refine failfast_bind_quiet (failfast_log w _ _ _) (fun _ => ?_)
        exact failfast_step (aks_getCredentials_failfast w _ d) (failfast_pure _ _ _ _)
      | false =>
        simp only [Bool.false_eq_true, if_false]
        refine failfast_step (aks_create_failfast w _ d) ?_
        refine failfast_step (aks_configureDocker_failfast w _ d) ?_
        exact failfast_step (aks_getCredentials_failfast w _ d) (failfast_pure _ _ _ _)
    · simp only [hcr, if_false]
      exact failfast_pure _ _ _ _

theorem gke_auth_failfast (w : World) (X : List Event → Event → Prop) (d : GkeDriver) :
    FailFast w X id (d.auth w) := by
  unfold GkeDriver.auth
  cases d.plan.ServiceAccount with
  | true =>
    simp only [if_true]
    refine failfast_bind_quiet (failfast_log w X _ _) (fun _ => ?_)
    cases d.plan.VaultInfo with
    | none =>
      intro h
      exact ⟨[], by simp, obeys_nil _ _ _ _⟩
    | some info =>
      simp only
      refine failfast_bind (failfast_newClient w X info) (fun r hr => ?_) (fun r e hr => ?_)
      · rcases r with ⟨client, _ | e⟩
        · refine failfast_deferring ?_ _
          exact failfast_step (failfast_readIntoFile w X _ _ _ _) (failfast_run w X _)
        · simp at hr
      · rcases r with ⟨client, _ | e1⟩
        · simp at hr
        · simp only [Option.some.injEq] at hr
          subst hr
          exact ⟨_, rfl, rfl⟩
  | false =>
    simp only [Bool.false_eq_true, if_false]
    refine failfast_bind_quiet (failfast_log w X _ _) (fun _ => ?_)
    refine failfast_bind (failfast_output w X _) (fun r hr => ?_) (fun r e hr => ?_)
    · rcases r with ⟨accounts, _ | e⟩
      · simp only
        by_cases hlen : accounts.length > 0
        · simp only [hlen, if_true]
          exact failfast_pure _ _ _ _
        · simp only [hlen, if_false]
          exact failfast_run w X _
      · simp at hr
    · rcases r with ⟨accounts, _ | e1⟩
      · simp at hr
      · simp only [Option.some.injEq] at hr
        subst hr
        exact ⟨_, rfl, rfl⟩

theorem gke_clusterExists_failfast (w : World) (d : GkeDriver) :
    FailFast w (reclassified w d.clusterExistsCmd ["Not found"]) Prod.snd
      (d.clusterExists w) := by
  intro h
  refine ⟨[Event.log "Checking if cluster exists...", Event.exec d.clusterExistsCmd],
    clusterExists_trace_gke w d h, ?_⟩
  refine obeys_cons (fun e he => by simp [World.failure] at he) (obeys_cons ?_ (obeys_nil _ _ _ _))
  intro e he hX
  refine ⟨by simp, ?_⟩
  simp only [World.failure] at he
  simp only [reclassified, true_and, Bool.not_eq_true] at hX
  simp only [GkeDriver.clusterExists, exec_bind_apply, logPrint_apply,
    Command.OutputContainsAny_apply, hX, Bool.false_eq_true, if_false, exec_pure_apply, he,
    Res.map]

theorem gke_configSSH_failfast (w : World) (X : List Event → Event → Prop) (d : GkeDriver) :
    FailFast w X id (d.configSSH w) :=
  failfast_bind_quiet (failfast_log w X _ _) (fun _ => failfast_run w X _)

theorem gke_create_failfast (w : World) (X : List Event → Event → Prop) (d : GkeDriver) :
    FailFast w X id (d.create w) :=
  failfast_bind_quiet (failfast_log w X _ _) (fun _ => failfast_run w X _)

theorem gke_bindRoles_failfast (w : World) (X : List Event → Event → Prop) (d : GkeDriver) :
    FailFast w X id (d.bindRoles w) := by
  unfold GkeDriver.bindRoles
  refine failfast_bind_quiet (failfast_log w X _ _) (fun _ => ?_)
  refine failfast_bind (failfast_output w X _) (fun r hr => ?_) (fun r e hr => ?_)
  · rcases r with ⟨user, _ | e⟩
    · exact failfast_run w X _
    · simp at hr
  · rcases r with ⟨user, _ | e1⟩
    · simp at hr
    · simp only [Option.some.injEq] at hr
      subst hr
      exact ⟨_, rfl, rfl⟩

theorem gke_setMaxMapCountLoop_failfast (w : World) (X : List Event → Event → Prop)
    (d : GkeDriver) (instances : List String) :
    FailFast w X id (d.setMaxMapCountLoop w instances) := by
  induction instances with
  | nil => exact failfast_pure _ _ _ _
  | cons inst rest ih =>
    rcases hs : strSplit inst ',' with _ | ⟨a, _ | ⟨b, _ | ⟨c, l⟩⟩⟩
    · simp only [GkeDriver.setMaxMapCountLoop, hs]
      exact failfast_pure _ _ _ _
    · simp only [GkeDriver.setMaxMapCountLoop, hs]
      exact failfast_pure _ _ _ _
    · simp only [GkeDriver.setMaxMapCountLoop, hs]
      exact failfast_step (failfast_run w X _) ih
    · simp only [GkeDriver.setMaxMapCountLoop, hs]
      exact failfast_pure _ _ _ _

theorem gke_setMaxMapCount_failfast (w : World) (X : List Event → Event → Prop) (d : GkeDriver) :
    FailFast w X id (d.setMaxMapCount w) := by
  unfold GkeDriver.setMaxMapCount
  refine failfast_bind_quiet (failfast_log w X _ _) (fun _ => ?_)
  refine failfast_bind (failfast_outputList w X _) (fun r hr => ?_) (fun r e hr => ?_)
  · rcases r with ⟨instances, _ | e⟩
    · exact gke_setMaxMapCountLoop_failfast w X d instances
    · simp at hr
  · rcases r with ⟨instances, _ | e1⟩
    · simp at hr
    · simp only [Option.some.injEq] at hr
      subst hr
      exact ⟨_, rfl, rfl⟩

theorem gke_configureDocker_failfast (w : World) (X : List Event → Event → Prop) (d : GkeDriver) :
    FailFast w X id (d.configureDocker w) :=
  failfast_bind_quiet (failfast_log w X _ _) (fun _ => failfast_run w X _)

theorem gke_getCredentials_failfast (w : World) (X : List Event → Event → Prop) (d : GkeDriver) :
    FailFast w X id (d.GetCredentials w) :=
  failfast_bind_quiet (failfast_log w X _ _) (fun _ => failfast_run w X _)

theorem gke_defaultScLoop_failfast (w : World) (X : List Event → Event → Prop)
    (keys : List String) :
    FailFast w X Prod.snd (GkeDriver.defaultScLoop w keys) := by
  induction keys with
  | nil => exact failfast_pure _ _ _ _
  | cons key rest ih =>
    unfold GkeDriver.defaultScLoop
    refine failfast_bind (failfast_outputList w X _) (fun r hr => ?_) (fun r e hr => ?_)
    · rcases r with ⟨names, _ | e⟩
      · cases names with
        | nil => exact ih
        | cons name more => exact failfast_pure _ _ _ _
      · simp at hr
    · rcases r with ⟨names, _ | e1⟩
      · simp at hr
      · simp only [Option.some.injEq] at hr
        subst hr
        exact ⟨_, rfl, rfl⟩

theorem gke_patchStorageClass_failfast (w : World) (X : List Event → Event → Prop)
    (d : GkeDriver) : FailFast w X id (d.patchStorageClass w) := by
  unfold GkeDriver.patchStorageClass
  refine failfast_bind_quiet (failfast_log w X _ _) (fun _ => ?_)
  refine failfast_bind (failfast_outputContainsAny w X _ _) (fun r hr => ?_) (fun r e hr => ?_)
  swap
  · rcases r with ⟨found, _ | e1⟩
    · simp at hr
    · simp only [Option.some.injEq] at hr
      subst hr
      exact ⟨_, rfl, rfl⟩
  rcases r with ⟨found, _ | e1⟩
  swap
  · simp at hr
  cases found with
  | true => exact failfast_pure _ _ _ _
  | false =>
    simp only [Bool.false_eq_true, if_false]
    refine failfast_bind (gke_defaultScLoop_failfast w X _) (fun r hr => ?_) (fun r e hr => ?_)
    swap
    · rcases r with ⟨name, _ | e1⟩
      · simp at hr
      · simp only [Option.some.injEq] at hr
        subst hr
        exact ⟨_, rfl, rfl⟩
    rcases r with ⟨name, _ | e1⟩
    swap
    · simp at hr
    simp only
    by_cases hname : name = ""
    · simp only [hname, if_true]
      exact failfast_pure _ _ _ _
    · simp only [hname, if_false]
      refine failfast_bind (failfast_output w X _) (fun r hr => ?_) (fun r e hr => ?_)
      swap
      · rcases r with ⟨sc, _ | e1⟩
        · simp at hr
        · simp only [Option.some.injEq] at hr
          subst hr
          exact ⟨_, rfl, rfl⟩
      rcases r with ⟨sc, _ | e1⟩
      swap
      · simp at hr
      exact failfast_step (failfast_run w X _) (failfast_run w X _)

theorem gke_deleteLoop_failfast (w : World) (X : List Event → Event → Prop)
    (d : GkeDriver) (disks : List String) :
    FailFast w X id (d.deleteLoop w disks) := by
  induction disks with
  | nil => exact failfast_pure _ _ _ _
  | cons disk rest ih =>
    rcases hs : strSplit disk ',' with _ | ⟨a, _ | ⟨b, _ | ⟨c, l⟩⟩⟩
    · simp only [GkeDriver.deleteLoop, hs]
      exact failfast_pure _ _ _ _
    · simp only [GkeDriver.deleteLoop, hs]
      exact failfast_pure _ _ _ _
    · simp only [GkeDriver.deleteLoop, hs]
      exact failfast_step (failfast_run w X _) ih
    · simp only [GkeDriver.deleteLoop, hs]
      exact failfast_pure _ _ _ _

theorem gke_delete_failfast (w : World) (X : List Event → Event → Prop) (d : GkeDriver) :
    FailFast w X id (d.delete w) := by
  unfold GkeDriver.delete
  refine failfast_bind_quiet (failfast_log w X _ _) (fun _ => ?_)
  refine failfast_step (failfast_run w X _) ?_
  refine failfast_bind (failfast_outputList w X _) (fun r hr => ?_) (fun r e hr => ?_)
  · rcases r with ⟨disks, _ | e⟩
    · exact gke_deleteLoop_failfast w X d disks
    · simp at hr
  · rcases r with ⟨disks, _ | e1⟩
    · simp at hr
    · simp only [Option.some.injEq] at hr
      subst hr
      exact ⟨_, rfl, rfl⟩

theorem gke_createSteps_failfast (w : World) (X : List Event → Event → Prop) (d : GkeDriver) :
    FailFast w X id (d.createSteps w) := by
  unfold GkeDriver.createSteps
  refine failfast_step (gke_configSSH_failfast w X d) ?_
  refine failfast_step (gke_create_failfast w X d) ?_
  exact failfast_step (gke_bindRoles_failfast w X d) (failfast_pure _ _ _ _)

theorem gke_commonSteps_failfast (w : World) (X : List Event → Event → Prop) (d : GkeDriver) :
    FailFast w X id (d.commonSteps w) := by
  unfold GkeDriver.commonSteps
  refine failfast_step (gke_getCredentials_failfast w X d) ?_
  refine failfast_step ?_ ?_
  · cases d.plan.VmMapMax with
    | true => exact gke_setMaxMapCount_failfast w X d
    | false => exact failfast_pure _ _ _ _
  refine failfast_step (gke_configureDocker_failfast w X d) ?_
  exact failfast_step (gke_patchStorageClass_failfast w X d) (failfast_pure _ _ _ _)

theorem gke_execute_failfast (w : World) (d : GkeDriver) :
    FailFast w (reclassified w d.clusterExistsCmd ["Not found"]) id (d.Execute w) := by
  unfold GkeDriver.Execute
  refine failfast_step (gke_auth_failfast w _ d) ?_
  refine failfast_bind (gke_clusterExists_failfast w d) (fun r hr => ?_) (fun r e hr => ?_)
  swap
  · rcases r with ⟨found, _ | e1⟩
    · simp at hr
    · simp only [Option.some.injEq] at hr
      subst hr
      exact ⟨_, rfl, rfl⟩
  rcases r with ⟨found, _ | e1⟩
  swap
  · simp at hr
  simp only
  by_cases hdel : d.plan.Operation = "delete"
  · simp only [hdel, if_true]
    cases found with
    | true =>
      simp only [if_true]
      exact gke_delete_failfast w _ d
    | false =>
      simp only [Bool.false_eq_true, if_false]
      exact failfast_bind_quiet (failfast_log w _ _ _) (fun _ => failfast_pure _ _ _ _)
  · simp only [hdel, if_false]
    by_cases hcr : d.plan.Operation = "create"
    · simp only [hcr, if_true]
      cases found with
      | true =>
        simp only [if_true]
        refine failfast_bind_quiet (failfast_log w _ _ _) (fun _ => ?_)
        exact gke_commonSteps_failfast w _ d
      | false =>
        simp only [Bool.false_eq_true, if_false]
        exact failfast_step (gke_createSteps_failfast w _ d) (gke_commonSteps_failfast w _ d)
    · simp only [hcr, if_false]
      exact failfast_pure _ _ _ _

/-- C9: for both drivers and every step of `Execute` (login, existence check,
create, delete, post-configuration, credential fetch): when a command or a
secret lookup of the run fails with error `e`, and it is not the existence
check with an output recognised as not-found, then nothing that follows it in
the trace is a command or a secret lookup, and `Execute` returns exactly `e`. -/
theorem execute_aborts_on_failure (w : World) :
    (∀ (d : AksDriver) (h0 pre post : List Event) (ev : Event) (e : GoError),
      (d.Execute w h0).2 = h0 ++ pre ++ ev :: post →
      w.failure (h0 ++ pre) ev = some e →
      ¬ reclassified w d.clusterExistsCmd ["not be found", "was not found"] (h0 ++ pre) ev →
      (∀ x ∈ post, x.isRequest = false) ∧ (d.Execute w h0).1 = Res.val (some e)) ∧
    (∀ (d : GkeDriver) (h0 pre post : List Event) (ev : Event) (e : GoError),
      (d.Execute w h0).2 = h0 ++ pre ++ ev :: post →
      w.failure (h0 ++ pre) ev = some e →
      ¬ reclassified w d.clusterExistsCmd ["Not found"] (h0 ++ pre) ev →
      (∀ x ∈ post, x.isRequest = false) ∧ (d.Execute w h0).1 = Res.val (some e)) := by
  constructor
  · intro d h0 pre post ev e htrace hfail hX
    obtain ⟨new, hnew, hobeys⟩ := aks_execute_failfast w d h0
    rw [hnew, List.append_assoc] at htrace
    have hsplit := List.append_cancel_left htrace
    obtain ⟨hq, hr⟩ := hobeys pre ev post e hsplit hfail hX
    refine ⟨hq, ?_⟩
    cases hres : (d.Execute w h0).1 with
    | val a =>
      rw [hres] at hr
      simpa [Res.map] using hr
    | panic why =>
      rw [hres] at hr
      simp [Res.map] at hr
  · intro d h0 pre post ev e htrace hfail hX
    obtain ⟨new, hnew, hobeys⟩ := gke_execute_failfast w d h0
    rw [hnew, List.append_assoc] at htrace
    have hsplit := List.append_cancel_left htrace
    obtain ⟨hq, hr⟩ := hobeys pre ev post e hsplit hfail hX
    refine ⟨hq, ?_⟩
    cases hres : (d.Execute w h0).1 with
    | val a =>
      rw [hres] at hr
      simpa [Res.map] using hr
    | panic why =>
      rw [hres] at hr
      simp [Res.map] at hr

/-- C9, at a concrete input: both drivers with operation "create" in a world
where every command fails, so that the login already fails. -/
theorem execute_aborts_on_failure_witness :
    (((sampleAks "create").Execute (World.failing "" { msg := "exit status 1" }) []).2 =
        [] ++ [Event.log "Authenticating as user..."] ++ Event.exec (NewCommand "az login") :: [] ∧
      (World.failing "" { msg := "exit status 1" }).failure
        ([] ++ [Event.log "Authenticating as user..."]) (Event.exec (NewCommand "az login")) =
          some { msg := "exit status 1" } ∧
      ((sampleAks "create").Execute (World.failing "" { msg := "exit status 1" }) []).1 =
        Res.val (some { msg := "exit status 1" })) ∧
    (((sampleGke "create").Execute (World.failing "" { msg := "exit status 1" }) []).2 =
        [] ++ [Event.log "Authenticating as user..."] ++ Event.exec GkeDriver.authListCmd :: [] ∧
      (World.failing "" { msg := "exit status 1" }).failure
        ([] ++ [Event.log "Authenticating as user..."]) (Event.exec GkeDriver.authListCmd) =
          some { msg := "exit status 1" } ∧
      ((sampleGke "create").Execute (World.failing "" { msg := "exit status 1" }) []).1 =
        Res.val (some { msg := "exit status 1" })) :=
  ⟨⟨rfl, rfl,
    ((execute_aborts_on_failure (World.failing "" { msg := "exit status 1" })).1
      (sampleAks "create") [] [Event.log "Authenticating as user..."] []
      (Event.exec (NewCommand "az login")) { msg := "exit status 1" } rfl rfl
      (fun h => absurd h.1 (by decide))).2⟩,
   ⟨rfl, rfl,
    ((execute_aborts_on_failure (World.failing "" { msg := "exit status 1" })).2
      (sampleGke "create") [] [Event.log "Authenticating as user..."] []
      (Event.exec GkeDriver.authListCmd) { msg := "exit status 1" } rfl rfl
      (fun h => absurd h.1 (by decide))).2⟩⟩

/-! ## Indexing the results of the AKS queries -/

/-- C19 fails on the code: with `ServiceAccount = false`, when both queries
succeed and print nothing, their lists of lines are empty and `configureDocker`
indexes the first one out of range: it panics after the second query, with no
error returned and no role assignment issued. -/
theorem configureDocker_panics_on_empty_query :
    (sampleAks "create").plan.ServiceAccount = false ∧
    ((sampleAks "create").clientIdCmd.OutputList (World.quiet "")
      [Event.log "Configuring Docker...", Event.exec (sampleAks "create").acrLoginCmd]).1 =
        Res.val ([], none) ∧
    ((sampleAks "create").acrIdCmd.OutputList (World.quiet "")
      [Event.log "Configuring Docker...", Event.exec (sampleAks "create").acrLoginCmd,
       Event.exec (sampleAks "create").clientIdCmd]).1 = Res.val ([], none) ∧
    (sampleAks "create").configureDocker (World.quiet "") [] =
      (Res.panic "index out of range",
        [Event.log "Configuring Docker...", Event.exec (sampleAks "create").acrLoginCmd,
         Event.exec (sampleAks "create").clientIdCmd, Event.exec (sampleAks "create").acrIdCmd]) :=
  ⟨rfl, by decide, by decide, by decide⟩

/-! ## The message of the parsing errors -/

/-- C12 fails on the code for the disk lines: for the listed line "pd-7", which
does not have two fields, the error of `setMaxMapCount` names the line, but the
error of `delete` is a fixed text that does not. -/
theorem delete_parse_error_omits_line :
    twoFields "pd-7" = false ∧
    ((sampleGke "create").setMaxMapCount (World.instances "pd-7\n") []).1 =
      Res.val (some { msg := "instance pd-7 could not be parsed" }) ∧
    strContains "instance pd-7 could not be parsed" "pd-7" = true ∧
    ((sampleGke "delete").delete (World.disks "pd-7\n" none) []).1 =
      Res.val (some { msg := "disk name and zone contained unexpected number of fields" }) ∧
    strContains "disk name and zone contained unexpected number of fields" "pd-7" = false :=
  ⟨by decide, by decide, by decide, by decide, by decide⟩

/-! ## The annotation key of the final storage class patch -/

/-- C14 fails on the code in its last part: when the default class "standard"
is found under the primary key storageclass.kubernetes.io/is-default-class (the
legacy key is then not queried), the final command patches "standard" but sets
the legacy key storageclass.beta.kubernetes.io/is-default-class to "false"; the
key by which the class was found is not in the patch. -/
theorem patchStorageClass_patches_legacy_key_only :
    (sampleGke "create").patchStorageClass World.defaultUnderPrimaryKey [] =
      (Res.val none,
        [Event.log "Patching storage class...", Event.exec GkeDriver.getScCmd,
         Event.exec (GkeDriver.defaultScCmd "storageclass\\.kubernetes\\.io/is-default-class"),
         Event.exec (GkeDriver.getScYamlCmd "standard"),
         Event.exec (GkeDriver.applyCmd (GkeDriver.customizedManifest standardManifest "standard")),
         Event.exec (GkeDriver.patchCmd "standard")]) ∧
    (GkeDriver.patchCmd "standard").command =
      "kubectl patch storageclass standard -p '\x7b \"metadata\": \x7b \"annotations\": \x7b \"storageclass.beta.kubernetes.io/is-default-class\":\"false\"\x7d \x7d \x7d'" ∧
    strContains (GkeDriver.patchCmd "standard").command
      "\"storageclass.beta.kubernetes.io/is-default-class\":\"false\"" = true ∧
    strContains (GkeDriver.patchCmd "standard").command
      "\"storageclass.kubernetes.io/is-default-class\"" = false :=
  ⟨rfl, rfl, by decide, by decide⟩

/-! ## The driver factories resolve empty fields -/

/-- C11 as stated fails.  The GKE factory resolves nothing: for a plan with an
empty project and region it returns, without a lookup, a driver whose context
holds the empty values.  The AKS factory takes whatever the resolver returns:
when the lookup succeeds with an empty value, the context holds it. -/
theorem gke_create_keeps_empty_fields :
    (samplePlanEmpty "create").Gke.GCloudProject = "" ∧
    (samplePlanEmpty "create").Gke.Region = "" ∧
    GkeDriverFactory.Create (World.quiet "") (samplePlanEmpty "create") [] =
      (Res.val (some { plan := samplePlanEmpty "create",
                       ctx := GkeDriver.ctxOf (samplePlanEmpty "create") }, none), []) ∧
    ctxGet (GkeDriver.ctxOf (samplePlanEmpty "create")) "GCloudProject" = some (Value.str "") ∧
    ctxGet (GkeDriver.ctxOf (samplePlanEmpty "create")) "Region" = some (Value.str "") ∧
    (samplePlanEmpty "create").Aks.ResourceGroup = "" ∧
    (∃ d : AksDriver,
      (AksDriverFactory.Create (World.scripted (fun _ => ("", none)) [""])
        (samplePlanEmpty "create") []).1 = Res.val (some d, none) ∧
      ctxGet d.ctx "ResourceGroup" = some (Value.str "")) :=
  ⟨rfl, rfl, rfl, by decide, by decide, rfl, ⟨_, rfl, by decide⟩⟩

/-- C11, amended.  AKS: `Create` first builds the secret resolver client from
the plan's vault info: without vault info it panics on the nil pointer, and
when building the client fails with `e` it returns no driver and `e` without
any lookup.  Once the client is built, a field (`ResourceGroup`, `AcrName`)
that is non-empty in the plan is kept unchanged and not looked up; a field that
is empty is looked up in the secret resolver, `ResourceGroup` first; when a
lookup fails with `e`, `Create` returns no driver and the error `e` at once;
when every needed lookup succeeds, `Create` returns a driver whose plan and
context hold, for each looked-up field, the value the resolver returned
(whatever it is, it is not checked for emptiness).  GKE: `Create` looks nothing
up and never fails; the context holds the plan's values unchanged, empty or
not. -/
theorem create_resolves_empty_fields (w : World) (plan : Plan) (h : List Event) :
    (plan.VaultInfo = none →
      AksDriverFactory.Create w plan h = (Res.panic "nil pointer dereference", h)) ∧
    (∀ (info : VaultInfo) (e : GoError),
      plan.VaultInfo = some info →
      w.newClient h info = some e →
      AksDriverFactory.Create w plan h = (Res.val (none, some e), h ++ [Event.newClient info])) ∧
    (∀ (info : VaultInfo) (g1 g2 : String × Option GoError),
      plan.VaultInfo = some info →
      w.newClient h info = none →
      w.get (h ++ [Event.newClient info]) { info := info } AksVaultPath "resource-group" = g1 →
      w.get (if plan.Aks.ResourceGroup = "" then
            h ++ [Event.newClient info,
              Event.vaultGet { info := info } AksVaultPath "resource-group"]
          else h ++ [Event.newClient info]) { info := info } AksVaultPath "acr-name" = g2 →
      (∀ e, plan.Aks.ResourceGroup = "" → g1.2 = some e →
        AksDriverFactory.Create w plan h =
          (Res.val (none, some e),
            h ++ [Event.newClient info,
              Event.vaultGet { info := info } AksVaultPath "resource-group"])) ∧
      (∀ e, (plan.Aks.ResourceGroup = "" → g1.2 = none) → plan.Aks.AcrName = "" →
        g2.2 = some e →
        AksDriverFactory.Create w plan h =
          (Res.val (none, some e),
            h ++ [Event.newClient info] ++
              (if plan.Aks.ResourceGroup = "" then
                [Event.vaultGet { info := info } AksVaultPath "resource-group"] else []) ++
              [Event.vaultGet { info := info } AksVaultPath "acr-name"])) ∧
      ((plan.Aks.ResourceGroup = "" → g1.2 = none) → (plan.Aks.AcrName = "" → g2.2 = none) →
        ∃ d : AksDriver,
          AksDriverFactory.Create w plan h =
            (Res.val (some d, none),
              h ++ [Event.newClient info] ++
                (if plan.Aks.ResourceGroup = "" then
                  [Event.vaultGet { info := info } AksVaultPath "resource-group"] else []) ++
                (if plan.Aks.AcrName = "" then
                  [Event.vaultGet { info := info } AksVaultPath "acr-name"] else [])) ∧
          d.ctx = AksDriver.ctxOf d.plan ∧
          ctxGet d.ctx "ResourceGroup" = some (Value.str d.plan.Aks.ResourceGroup) ∧
          ctxGet d.ctx "AcrName" = some (Value.str d.plan.Aks.AcrName) ∧
          d.plan.Aks.ResourceGroup =
            (if plan.Aks.ResourceGroup = "" then g1.1 else plan.Aks.ResourceGroup) ∧
          d.plan.Aks.AcrName = (if plan.Aks.AcrName = "" then g2.1 else plan.Aks.AcrName))) ∧
    GkeDriverFactory.Create w plan h =
      (Res.val (some { plan := plan, ctx := GkeDriver.ctxOf plan }, none), h) := by
  refine ⟨?_, ?_, ?_, rfl⟩
  · intro hinfo
    simp only [AksDriverFactory.Create, hinfo]
  · intro info e hinfo hclient
    simp [AksDriverFactory.Create, hinfo, NewClient, hclient]
  intro info g1 g2 hinfo hclient hg1 hg2
  refine ⟨?_, ?_, ?_⟩
  · intro e hrg hfail
    subst hg1
    simp [AksDriverFactory.Create, hinfo, NewClient, hclient, AksDriverFactory.resolve, hrg,
      VaultClient.Get, AksResourceGroupVaultFieldName, hfail]
  · intro e hrg hacr hfail
    subst hg1 hg2
    by_cases hr : plan.Aks.ResourceGroup = ""
    · have h1 := hrg hr
      simp only [hr, if_true] at hfail
      simp [AksDriverFactory.Create, hinfo, NewClient, hclient, AksDriverFactory.resolve, hr,
        hacr, VaultClient.Get, AksResourceGroupVaultFieldName, AksAcrNameVaultFieldName, h1,
        hfail]
    · simp only [hr, if_false] at hfail
      simp [AksDriverFactory.Create, hinfo, NewClient, hclient, AksDriverFactory.resolve, hr,
        hacr, VaultClient.Get, AksAcrNameVaultFieldName, hfail]
  · intro hrg hacr
    subst hg1 hg2
    by_cases hr : plan.Aks.ResourceGroup = "" <;> by_cases ha : plan.Aks.AcrName = ""
    · have h1 := hrg hr
      have h2 := hacr ha
      simp only [hr, if_true] at h2
      simp [AksDriverFactory.Create, hinfo, NewClient, hclient, AksDriverFactory.resolve, hr,
        ha, VaultClient.Get, AksResourceGroupVaultFieldName, AksAcrNameVaultFieldName, h1, h2,
        AksDriver.ctxOf, ctxGet]
    · have h1 := hrg hr
      simp [AksDriverFactory.Create, hinfo, NewClient, hclient, AksDriverFactory.resolve, hr,
        ha, VaultClient.Get, AksResourceGroupVaultFieldName, h1, AksDriver.ctxOf, ctxGet]
    · have h2 := hacr ha
      simp only [hr, if_false] at h2
      simp [AksDriverFactory.Create, hinfo, NewClient, hclient, AksDriverFactory.resolve, hr,
        ha, VaultClient.Get, AksAcrNameVaultFieldName, h2, AksDriver.ctxOf, ctxGet]
    · simp [AksDriverFactory.Create, hinfo, NewClient, hclient, AksDriverFactory.resolve, hr,
        ha, AksDriver.ctxOf, ctxGet]

/-- C11 amended, at concrete inputs: a plan without vault info; a world in
which the secret resolver client cannot be built; a plan with both AKS fields
empty in a world where every lookup succeeds. -/
theorem create_resolves_empty_fields_witness :
    ({ samplePlanEmpty "create" with VaultInfo := none } : Plan).VaultInfo = none ∧
    AksDriverFactory.Create (World.quiet "")
        { samplePlanEmpty "create" with VaultInfo := none } [] =
      (Res.panic "nil pointer dereference", []) ∧
    (samplePlanEmpty "create").VaultInfo = some { handle := "vault" } ∧
    ({ World.quiet "" with newClient := fun _ _ => some { msg := "vault unreachable" } } :
      World).newClient [] { handle := "vault" } = some { msg := "vault unreachable" } ∧
    AksDriverFactory.Create
        { World.quiet "" with newClient := fun _ _ => some { msg := "vault unreachable" } }
        (samplePlanEmpty "create") [] =
      (Res.val (none, some { msg := "vault unreachable" }),
        [Event.newClient { handle := "vault" }]) ∧
    (World.quiet "").newClient [] { handle := "vault" } = none ∧
    (samplePlanEmpty "create").Aks.ResourceGroup = "" ∧
    (samplePlanEmpty "create").Aks.AcrName = "" ∧
    ∃ d : AksDriver,
      AksDriverFactory.Create (World.quiet "") (samplePlanEmpty "create") [] =
        (Res.val (some d, none),
          [Event.newClient { handle := "vault" },
           Event.vaultGet { info := { handle := "vault" } } AksVaultPath "resource-group",
           Event.vaultGet { info := { handle := "vault" } } AksVaultPath "acr-name"]) ∧
      d.ctx = AksDriver.ctxOf d.plan ∧
      ctxGet d.ctx "ResourceGroup" = some (Value.str "id") ∧
      ctxGet d.ctx "AcrName" = some (Value.str "id") :=
  ⟨rfl,
   (create_resolves_empty_fields (World.quiet "")
      { samplePlanEmpty "create" with VaultInfo := none } []).1 rfl,
   rfl, rfl,
   (create_resolves_empty_fields
      { World.quiet "" with newClient := fun _ _ => some { msg := "vault unreachable" } }
      (samplePlanEmpty "create") []).2.1 { handle := "vault" } _ rfl rfl,
   rfl, rfl, rfl,
   (((create_resolves_empty_fields (World.quiet "") (samplePlanEmpty "create") []).2.2.1
      { handle := "vault" } _ _ rfl rfl rfl rfl).2.2 (fun _ => rfl) (fun _ => rfl)).imp
    (fun _ hd => ⟨hd.1, hd.2.1, hd.2.2.1.trans (by rw [hd.2.2.2.2.1]; rfl),
      hd.2.2.2.1.trans (by rw [hd.2.2.2.2.2]; rfl)⟩)⟩

/-! ## Template variables are keys of the context -/

theorem takeName_append_space (x y : List Char) :
    takeName (x ++ ' ' :: y) = ((takeName (x ++ [' '])).1, (takeName (x ++ [' '])).2 ++ y) := by
  induction x with
  | nil => simp [takeName, isNameChar, Char.isAlphanum, Char.isAlpha, Char.isUpper, Char.isLower,
      Char.isDigit]
  | cons c x ih =>
    simp only [List.cons_append, takeName, List.append_eq, ih]
    split <;> simp

theorem takeName_rest_ends_with_space (x : List Char) :
    ∃ z, (takeName (x ++ [' '])).2 = z ++ [' '] := by
  induction x with
  | nil => exact ⟨[], by simp [takeName, isNameChar, Char.isAlphanum, Char.isAlpha, Char.isUpper,
      Char.isLower, Char.isDigit]⟩
  | cons c x ih =>
    simp only [List.cons_append, takeName]
    split
    · exact ih
    · exact ⟨c :: x, by simp⟩

theorem actionClose_append_space (z y : List Char) :
    actionClose.isPrefixOf ((z ++ [' ']) ++ y) = actionClose.isPrefixOf (z ++ [' ']) := by
  rcases z with _ | ⟨a, _ | ⟨b, z⟩⟩ <;> simp [actionClose, List.isPrefixOf]

theorem actionAt_append_space (x y : List Char) :
    actionAt (x ++ ' ' :: y) = actionAt (x ++ [' ']) := by
  rcases x with _ | ⟨a, _ | ⟨b, _ | ⟨c, x⟩⟩⟩
  · simp [actionAt, actionOpen, List.isPrefixOf]
  · simp [actionAt, actionOpen, List.isPrefixOf]
  · simp [actionAt, actionOpen, List.isPrefixOf]
  · obtain ⟨z, hz⟩ := takeName_rest_ends_with_space x
    have hclose := actionClose_append_space z y
    simp only [actionAt, List.cons_append, List.drop_succ_cons, List.drop_zero,
      takeName_append_space x y, hz, hclose]
    simp [actionOpen, List.isPrefixOf]

/-- A text that ends with a space keeps its template variables, whatever follows. -/
theorem templateVars_append_space (x y : List Char) :
    templateVars (x ++ ' ' :: y) = templateVars (x ++ [' ']) ++ templateVars y := by
  induction x with
  | nil =>
    simp [templateVars, actionAt, actionOpen, List.isPrefixOf]
  | cons c x ih =>
    have h := actionAt_append_space (c :: x) y
    simp only [List.cons_append] at h
    simp only [List.cons_append, templateVars, List.append_eq, h, ih, List.append_assoc]

/-- A text without an opening brace has no template variable. -/
theorem templateVars_no_brace (y : List Char) (h : '\x7b' ∉ y) : templateVars y = [] := by
  induction y with
  | nil => rfl
  | cons c y ih =>
    simp only [List.mem_cons, not_or] at h
    have hc : ('\x7b' == c) = false := by
      simp only [beq_eq_false_iff_ne, ne_eq]
      exact h.1
    simp [templateVars, ih h.2, actionAt, actionOpen, List.isPrefixOf, hc]

/-- Text without an opening brace, spliced after a template that ends with a
space, adds no template variable. -/
theorem wellKeyed_splice (lit tail : String) (ps : Ctx) (s e : Bool)
    (hlit : lit.data.getLast? = some ' ') (htail : '\x7b' ∉ tail.data)
    (hkeys : Command.wellKeyed
      { command := lit, params := some ps, stream := s, stderr := e } = true) :
    Command.wellKeyed
      { command := lit ++ tail, params := some ps, stream := s, stderr := e } = true := by
  obtain ⟨x, hx⟩ := List.getLast?_eq_some_iff.mp hlit
  simp only [Command.wellKeyed, String.data_append, hx] at hkeys ⊢
  rw [List.append_assoc, List.singleton_append, templateVars_append_space,
    templateVars_no_brace _ htail, List.append_nil]
  exact hkeys

theorem emits_goIndex_bind {β : Type} (xs : List String) (i : Nat) {f : String → Exec β}
    {P : Command → Prop} (hf : ∀ a ∈ xs, Emits (f a) P) : Emits (goIndex xs i >>= f) P := by
  intro h
  simp only [exec_bind_apply, goIndex, List.get?_eq_getElem?]
  cases hx : xs[i]? with
  | none => exact ⟨[], by simp, by simp⟩
  | some a => exact hf a (List.getElem?_mem hx) h

theorem emits_getMany_bind {β : Type} (w : World) (c : VaultClient) (path : String)
    (fields : List String) {f : List String × Option GoError → Exec β} {P : Command → Prop}
    (hf : ∀ H, Emits (f (w.getMany H c path fields)) P) :
    Emits (c.GetMany w path fields >>= f) P := by
  intro h
  obtain ⟨new, hnew, hP⟩ := hf h (h ++ [Event.vaultGetMany c path fields])
  refine ⟨Event.vaultGetMany c path fields :: new, ?_, ?_⟩
  · simp only [exec_bind_apply, VaultClient.GetMany, hnew, List.append_assoc,
      List.singleton_append]
  · intro c1 hc1
    simp only [List.mem_cons, reduceCtorEq, false_or] at hc1
    exact hP c1 hc1

theorem emits_newClient (w : World) (info : VaultInfo) (P : Command → Prop) :
    Emits (NewClient w info) P := by
  intro h
  exact ⟨[Event.newClient info], rfl, by simp⟩

theorem emits_readIntoFile (w : World) (c : VaultClient) (file path field : String)
    (P : Command → Prop) : Emits (c.ReadIntoFile w file path field) P := by
  intro h
  exact ⟨[Event.vaultReadIntoFile c file path field], rfl, by simp⟩

theorem emits_deferring {α : Type} {m : Exec α} {P : Command → Prop} (hm : Emits m P)
    (name : String) : Emits (Exec.deferring m (Event.removeFile name)) P := by
  intro h
  obtain ⟨new, hnew, hP⟩ := hm h
  refine ⟨new ++ [Event.removeFile name], by simp only [Exec.deferring, hnew, List.append_assoc],
    ?_⟩
  intro c hc
  simp only [List.mem_append, List.mem_singleton, reduceCtorEq, or_false] at hc
  exact hP c hc

/-- A step that returns an error, followed by `if err != nil { return err }`
and the rest of the function. -/
theorem emits_step {P : Command → Prop} {m k : Exec (Option GoError)}
    (hm : Emits m P) (hk : Emits k P) :
    Emits (m >>= fun err =>
      match err with
      | some e => Pure.pure (some e)
      | none => k) P := by
  refine emits_bind hm (fun err => ?_)
  cases err with
  | some e => exact emits_pure _ _
  | none => exact hk

theorem aks_auth_keyed (w : World) (d : AksDriver) :
    Emits (d.auth w) (fun c => c.wellKeyed = true) := by
  unfold AksDriver.auth
  cases d.plan.ServiceAccount with
  | true =>
    simp only [if_true]
    refine emits_bind (emits_log _ _) (fun _ => ?_)
    refine emits_bind (emits_getMany_bind w _ _ _ (fun H => emits_pure _ _)) (fun r => ?_)
    rcases r with ⟨secrets, _ | e⟩
    · refine emits_goIndex_bind _ _ (fun s0 _ => ?_)
      refine emits_goIndex_bind _ _ (fun s1 _ => ?_)
      refine emits_goIndex_bind _ _ (fun s2 _ => ?_)
      exact emits_run w _ rfl
    · exact emits_pure _ _
  | false =>
    simp only [Bool.false_eq_true, if_false]
    exact emits_bind (emits_log _ _) (fun _ => emits_run w _ rfl)

set_option maxRecDepth 100000 in
/-- The AKS create command with the two secrets spliced into its text. -/
theorem aks_createCmd_keyed (plan p : Plan) (vc : VaultClient) (s0 s1 : String)
    (h0 : '\x7b' ∉ s0.data) (h1 : '\x7b' ∉ s1.data) :
    Command.wellKeyed (AksDriver.createCmd
      { plan := plan, ctx := AksDriver.ctxOf p, vaultClient := vc }
      (" --service-principal " ++ s0 ++ " --client-secret " ++ s1)) = true := by
  have hcmd : AksDriver.createCmd
      { plan := plan, ctx := AksDriver.ctxOf p, vaultClient := vc }
      (" --service-principal " ++ s0 ++ " --client-secret " ++ s1) =
      { command := ("az aks create --resource-group {{.ResourceGroup}} --name {{.ClusterName}} " ++
          "--node-count {{.NodeCount}} --node-vm-size {{.MachineType}} --kubernetes-version {{.KubernetesVersion}} " ++
          "--node-osdisk-size 30 --enable-addons http_application_routing,monitoring --generate-ssh-keys" ++
          " --service-principal ") ++ (s0 ++ " --client-secret " ++ s1),
        params := some (AksDriver.ctxOf p), stream := true, stderr := true } := by
    simp only [AksDriver.createCmd, NewCommand, Command.AsTemplate, String.append_assoc]
  rw [hcmd]
  refine wellKeyed_splice _ _ _ _ _ (by decide) ?_ (by rfl)
  simp only [String.data_append, List.mem_append, not_or]
  exact ⟨⟨h0, by decide⟩, h1⟩

theorem aks_create_keyed (w : World) (d : AksDriver) (p : Plan) (hctx : d.ctx = AksDriver.ctxOf p)
    (hsecrets : ∀ (H : List Event) (s : String),
      s ∈ (w.getMany H d.vaultClient AksVaultPath ["appId", "password"]).1 → '\x7b' ∉ s.data) :
    Emits (d.create w) (fun c => c.wellKeyed = true) := by
  obtain ⟨plan, ctx, vc⟩ := d
  simp only at hctx hsecrets
  subst hctx
  unfold AksDriver.create
  refine emits_bind (emits_log _ _) (fun _ => ?_)
  cases plan.ServiceAccount with
  | true =>
    simp only [if_true]
    refine emits_getMany_bind w _ _ _ (fun H => ?_)
    have hs := hsecrets H
    rcases hgm : w.getMany H vc AksVaultPath ["appId", "password"] with ⟨secrets, _ | e⟩
    all_goals rw [hgm] at hs
    · refine emits_goIndex_bind _ _ (fun s0 hs0 => ?_)
      refine emits_goIndex_bind _ _ (fun s1 hs1 => ?_)
      exact emits_run w _ (aks_createCmd_keyed plan p vc s0 s1 (hs s0 hs0) (hs s1 hs1))
    · exact emits_pure _ _
  | false =>
    simp only [Bool.false_eq_true, if_false]
    exact emits_run w _ (by rfl)

theorem aks_configureDocker_keyed (w : World) (d : AksDriver) (p : Plan)
    (hctx : d.ctx = AksDriver.ctxOf p) :
    Emits (d.configureDocker w) (fun c => c.wellKeyed = true) := by
  obtain ⟨plan, ctx, vc⟩ := d
  simp only at hctx
  subst hctx
  unfold AksDriver.configureDocker
  refine emits_bind (emits_log _ _) (fun _ => ?_)
  refine emits_bind (emits_run w _ (by rfl)) (fun err => ?_)
  cases err with
  | some e => exact emits_pure _ _
  | none =>
    cases plan.ServiceAccount with
    | true => exact emits_pure _ _
    | false =>
      simp only [Bool.false_eq_true, if_false]
      refine emits_bind (emits_outputList w _ (by rfl)) (fun r => ?_)
      rcases r with ⟨clientIds, _ | e⟩
      swap
      · exact emits_pure _ _
      refine emits_bind (emits_outputList w _ (by rfl)) (fun r => ?_)
      rcases r with ⟨acrIds, _ | e⟩
      swap
      · exact emits_pure _ _
      refine emits_goIndex_bind _ _ (fun s0 _ => ?_)
      refine emits_goIndex_bind _ _ (fun s1 _ => ?_)
      exact emits_run w _ rfl

theorem aks_execute_keyed (w : World) (d : AksDriver) (p : Plan)
    (hctx : d.ctx = AksDriver.ctxOf p)
    (hsecrets : ∀ (H : List Event) (s : String),
      s ∈ (w.getMany H d.vaultClient AksVaultPath ["appId", "password"]).1 → '\x7b' ∉ s.data) :
    Emits (d.Execute w) (fun c => c.wellKeyed = true) := by
  have hcreate := aks_create_keyed w d p hctx hsecrets
  have hdocker := aks_configureDocker_keyed w d p hctx
  have hexists : Emits (d.clusterExists w) (fun c => c.wellKeyed = true) := by
    obtain ⟨plan, ctx, vc⟩ := d
    simp only at hctx
    subst hctx
    refine emits_bind (emits_log _ _) (fun _ => ?_)
    refine emits_bind (emits_outputContainsAny w _ _ (by rfl)) (fun r => ?_)
    cases r.1 <;> exact emits_pure _ _
  have hcred : Emits (d.GetCredentials w) (fun c => c.wellKeyed = true) := by
    obtain ⟨plan, ctx, vc⟩ := d
    simp only at hctx
    subst hctx
    exact emits_bind (emits_log _ _) (fun _ => emits_run w _ (by rfl))
  have hdelete : Emits (d.delete w) (fun c => c.wellKeyed = true) := by
    obtain ⟨plan, ctx, vc⟩ := d
    simp only at hctx
    subst hctx
    exact emits_bind (emits_log _ _) (fun _ => emits_run w _ (by rfl))
  unfold AksDriver.Execute
  refine emits_step (aks_auth_keyed w d) ?_
  refine emits_bind hexists (fun r => ?_)
  rcases r with ⟨found, _ | e⟩
  swap
  · exact emits_pure _ _
  simp only
  by_cases hdel : d.plan.Operation = "delete"
  · simp only [hdel, if_true]
    cases found with
    | true =>
      simp only [if_true]
      exact emits_step hdelete (emits_pure _ _)
    | false =>
      simp only [Bool.false_eq_true, if_false]
      exact emits_bind (emits_log _ _) (fun _ => emits_pure _ _)
  · simp only [hdel, if_false]
    by_cases hcr : d.plan.Operation = "create"
    · simp only [hcr, if_true]
      cases found with
      | true =>
        simp only [if_true]
        refine emits_bind (emits_log _ _) (fun _ => ?_)
        exact emits_step hcred (emits_pure _ _)
      | false =>
        simp only [Bool.false_eq_true, if_false]
        refine emits_step hcreate ?_
        refine emits_step hdocker ?_
        exact emits_step hcred (emits_pure _ _)
    · simp only [hcr, if_false]
      exact emits_pure _ _

theorem gke_auth_keyed (w : World) (d : GkeDriver) :
    Emits (d.auth w) (fun c => c.wellKeyed = true) := by
  unfold GkeDriver.auth
  cases d.plan.ServiceAccount with
  | true =>
    simp only [if_true]
    refine emits_bind (emits_log _ _) (fun _ => ?_)
    cases d.plan.VaultInfo with
    | none =>
      intro h
      exact ⟨[], by simp, by simp⟩
    | some info =>
      simp only
      refine emits_bind (emits_newClient w info _) (fun r => ?_)
      rcases r with ⟨client, _ | e⟩
      · refine emits_deferring ?_ _
        exact emits_step (emits_readIntoFile w _ _ _ _ _) (emits_run w _ rfl)
      · exact emits_pure _ _
  | false =>
    simp only [Bool.false_eq_true, if_false]
    refine emits_bind (emits_log _ _) (fun _ => ?_)
    refine emits_bind (emits_output w _ rfl) (fun r => ?_)
    rcases r with ⟨accounts, _ | e⟩
    · simp only
      by_cases hlen : accounts.length > 0
      · simp only [hlen, if_true]
        exact emits_pure _ _
      · simp only [hlen, if_false]
        exact emits_run w _ rfl
    · exact emits_pure _ _

set_option maxRecDepth 100000 in
/-- The GKE create command, with or without the pod security policy flag. -/
theorem gke_createCmd_keyed (plan p : Plan) (psp : Bool) :
    Command.wellKeyed (GkeDriver.createCmd { plan := plan, ctx := GkeDriver.ctxOf p }
      (if psp then " --enable-pod-security-policy" else "")) = true := by
  cases psp <;> rfl

theorem gke_setMaxMapCountLoop_keyed (w : World) (d : GkeDriver) (instances : List String) :
    Emits (d.setMaxMapCountLoop w instances) (fun c => c.wellKeyed = true) := by
  induction instances with
  | nil => exact emits_pure _ _
  | cons inst rest ih =>
    rcases hs : strSplit inst ',' with _ | ⟨a, _ | ⟨b, _ | ⟨c, l⟩⟩⟩
    · simp only [GkeDriver.setMaxMapCountLoop, hs]
      exact emits_pure _ _
    · simp only [GkeDriver.setMaxMapCountLoop, hs]
      exact emits_pure _ _
    · simp only [GkeDriver.setMaxMapCountLoop, hs]
      exact emits_step (emits_run w _ (by rfl)) ih
    · simp only [GkeDriver.setMaxMapCountLoop, hs]
      exact emits_pure _ _

theorem gke_deleteLoop_keyed (w : World) (d : GkeDriver) (disks : List String) :
    Emits (d.deleteLoop w disks) (fun c => c.wellKeyed = true) := by
  induction disks with
  | nil => exact emits_pure _ _
  | cons disk rest ih =>
    rcases hs : strSplit disk ',' with _ | ⟨a, _ | ⟨b, _ | ⟨c, l⟩⟩⟩
    · simp only [GkeDriver.deleteLoop, hs]
      exact emits_pure _ _
    · simp only [GkeDriver.deleteLoop, hs]
      exact emits_pure _ _
    · simp only [GkeDriver.deleteLoop, hs]
      exact emits_step (emits_run w _ (by rfl)) ih
    · simp only [GkeDriver.deleteLoop, hs]
      exact emits_pure _ _

theorem gke_defaultScLoop_keyed (w : World) (keys : List String) :
    Emits (GkeDriver.defaultScLoop w keys) (fun c => c.wellKeyed = true) := by
  induction keys with
  | nil => exact emits_pure _ _
  | cons key rest ih =>
    refine emits_bind (emits_outputList w _ rfl) (fun r => ?_)
    rcases r with ⟨names, _ | e⟩
    · cases names with
      | nil => exact ih
      | cons name more => exact emits_pure _ _
    · exact emits_pure _ _

theorem gke_patchStorageClass_keyed (w : World) (d : GkeDriver) :
    Emits (d.patchStorageClass w) (fun c => c.wellKeyed = true) := by
  refine emits_bind (emits_log _ _) (fun _ => ?_)
  refine emits_bind (emits_outputContainsAny w _ _ rfl) (fun r => ?_)
  rcases r with ⟨found, _ | e⟩
  swap
  · exact emits_pure _ _
  cases found with
  | true => exact emits_pure _ _
  | false =>
    refine emits_bind (gke_defaultScLoop_keyed w _) (fun r => ?_)
    rcases r with ⟨name, _ | e⟩
    swap
    · exact emits_pure _ _
    by_cases hname : name = ""
    · simp only [hname, if_true, Bool.false_eq_true, if_false]
      exact emits_pure _ _
    · simp only [hname, if_false, Bool.false_eq_true]
      refine emits_bind (emits_output w _ rfl) (fun sc => ?_)
      rcases sc with ⟨text, _ | e⟩
      swap
      · exact emits_pure _ _
      exact emits_step (emits_run w _ rfl) (emits_run w _ rfl)

set_option maxRecDepth 100000 in
theorem gke_execute_keyed (w : World) (d : GkeDriver) (p : Plan)
    (hctx : d.ctx = GkeDriver.ctxOf p) :
    Emits (d.Execute w) (fun c => c.wellKeyed = true) := by
  obtain ⟨plan, ctx⟩ := d
  simp only at hctx
  subst hctx
  have hexists : Emits (GkeDriver.clusterExists w { plan := plan, ctx := GkeDriver.ctxOf p })
      (fun c => c.wellKeyed = true) := by
    refine emits_bind (emits_log _ _) (fun _ => ?_)
    refine emits_bind (emits_outputContainsAny w _ _ (by rfl)) (fun r => ?_)
    cases r.1 <;> exact emits_pure _ _
  have hcred : Emits (GkeDriver.GetCredentials w { plan := plan, ctx := GkeDriver.ctxOf p })
      (fun c => c.wellKeyed = true) :=
    emits_bind (emits_log _ _) (fun _ => emits_run w _ (by rfl))
  have hssh : Emits (GkeDriver.configSSH w { plan := plan, ctx := GkeDriver.ctxOf p })
      (fun c => c.wellKeyed = true) :=
    emits_bind (emits_log _ _) (fun _ => emits_run w _ (by rfl))
  have hcreate : Emits (GkeDriver.create w { plan := plan, ctx := GkeDriver.ctxOf p })
      (fun c => c.wellKeyed = true) :=
    emits_bind (emits_log _ _) (fun _ => emits_run w _ (gke_createCmd_keyed plan p plan.Psp))
  have hbind : Emits (GkeDriver.bindRoles w { plan := plan, ctx := GkeDriver.ctxOf p })
      (fun c => c.wellKeyed = true) := by
    refine emits_bind (emits_log _ _) (fun _ => ?_)
    refine emits_bind (emits_output w _ rfl) (fun r => ?_)
    rcases r with ⟨user, _ | e⟩
    · exact emits_run w _ rfl
    · exact emits_pure _ _
  have hmax : Emits (GkeDriver.setMaxMapCount w { plan := plan, ctx := GkeDriver.ctxOf p })
      (fun c => c.wellKeyed = true) := by
    refine emits_bind (emits_log _ _) (fun _ => ?_)
    refine emits_bind (emits_outputList w _ (by rfl)) (fun r => ?_)
    rcases r with ⟨instances, _ | e⟩
    · exact gke_setMaxMapCountLoop_keyed w _ instances
    · exact emits_pure _ _
  have hdocker : Emits (GkeDriver.configureDocker w { plan := plan, ctx := GkeDriver.ctxOf p })
      (fun c => c.wellKeyed = true) :=
    emits_bind (emits_log _ _) (fun _ => emits_run w _ rfl)
  have hdelete : Emits (GkeDriver.delete w { plan := plan, ctx := GkeDriver.ctxOf p })
      (fun c => c.wellKeyed = true) := by
    refine emits_bind (emits_log _ _) (fun _ => ?_)
    refine emits_step (emits_run w _ (by rfl)) ?_
    refine emits_bind (emits_outputList w _ (by rfl)) (fun r => ?_)
    rcases r with ⟨disks, _ | e⟩
    · exact gke_deleteLoop_keyed w _ disks
    · exact emits_pure _ _
  have hsteps : Emits (GkeDriver.createSteps w { plan := plan, ctx := GkeDriver.ctxOf p })
      (fun c => c.wellKeyed = true) :=
    emits_step hssh (emits_step hcreate (emits_step hbind (emits_pure _ _)))
  have hcommon : Emits (GkeDriver.commonSteps w { plan := plan, ctx := GkeDriver.ctxOf p })
      (fun c => c.wellKeyed = true) := by
    unfold GkeDriver.commonSteps
    refine emits_step hcred ?_
    refine emits_step ?_ ?_
    · simp only
      cases plan.VmMapMax with
      | true => exact hmax
      | false => exact emits_pure _ _
    refine emits_step hdocker ?_
    exact emits_step (gke_patchStorageClass_keyed w _) (emits_pure _ _)
  unfold GkeDriver.Execute
  refine emits_step (gke_auth_keyed w _) ?_
  refine emits_bind hexists (fun r => ?_)
  rcases r with ⟨found, _ | e⟩
  swap
  · exact emits_pure _ _
  simp only
  by_cases hdel : plan.Operation = "delete"
  · simp only [hdel, if_true]
    cases found with
    | true =>
      simp only [if_true]
      exact hdelete
    | false =>
      simp only [Bool.false_eq_true, if_false]
      exact emits_bind (emits_log _ _) (fun _ => emits_pure _ _)
  · simp only [hdel, if_false]
    by_cases hcr : plan.Operation = "create"
    · simp only [hcr, if_true]
      cases found with
      | true =>
        simp only [if_true]
        exact emits_bind (emits_log _ _) (fun _ => hcommon)
      | false =>
        simp only [Bool.false_eq_true, if_false]
        exact emits_step hsteps hcommon
    · simp only [hcr, if_false]
      exact emits_pure _ _

/-- The context of a driver that `AksDriverFactory.Create` returns is the map
built from its plan. -/
theorem aks_create_ctx (w : World) (plan : Plan) (h : List Event) (d : AksDriver)
    (hd : (AksDriverFactory.Create w plan h).1 = Res.val (some d, none)) :
    d.ctx = AksDriver.ctxOf d.plan := by
  unfold AksDriverFactory.Create at hd
  cases hinfo : plan.VaultInfo with
  | none => simp [hinfo] at hd
  | some info =>
    simp only [hinfo, exec_bind_apply, NewClient] at hd
    cases hc : w.newClient h info with
    | some e => simp [hc] at hd
    | none =>
      simp only [hc, exec_bind_apply] at hd
      rcases hr : AksDriverFactory.resolve w { info := info } plan.Aks.ResourceGroup
        AksResourceGroupVaultFieldName (h ++ [Event.newClient info]) with ⟨r1, t1⟩
      rw [hr] at hd
      cases r1 with
      | panic why => simp at hd
      | val g1 =>
        rcases g1 with ⟨v1, _ | e1⟩
        swap
        · simp at hd
        simp only [exec_bind_apply] at hd
        rcases ha : AksDriverFactory.resolve w { info := info } plan.Aks.AcrName
          AksAcrNameVaultFieldName t1 with ⟨r2, t2⟩
        rw [ha] at hd
        cases r2 with
        | panic why => simp at hd
        | val g2 =>
          rcases g2 with ⟨v2, _ | e2⟩
          swap
          · simp at hd
          simp only [exec_pure_apply, Res.val.injEq, Prod.mk.injEq, Option.some.injEq,
            and_true] at hd
          subst hd
          rfl

/-- The context of a driver that `GkeDriverFactory.Create` returns is the map
built from its plan. -/
theorem gke_create_ctx (w : World) (plan : Plan) (h : List Event) (d : GkeDriver)
    (hd : (GkeDriverFactory.Create w plan h).1 = Res.val (some d, none)) :
    d.ctx = GkeDriver.ctxOf d.plan := by
  simp only [GkeDriverFactory.Create, exec_pure_apply, Res.val.injEq, Prod.mk.injEq,
    Option.some.injEq, and_true] at hd
  subst hd
  rfl

/-- What `Command.wellKeyed` says: every variable of the template text has a
value in the context the command is rendered with. -/
theorem wellKeyed_lookup (c : Command) (hc : c.wellKeyed = true) (ps : Ctx)
    (hps : c.params = some ps) (v : String) (hv : v ∈ templateVars c.command.data) :
    (ctxGet ps v).isSome = true := by
  simp only [Command.wellKeyed, hps, List.all_eq_true, List.any_eq_true] at hc
  obtain ⟨kv, hkv, hkey⟩ := hc v hv
  simp only [ctxGet, Option.isSome_map', List.find?_isSome]
  exact ⟨kv, hkv, hkey⟩

set_option maxRecDepth 100000 in
/-- C13 as stated fails for the AKS create command in service-account mode: its
template text is the literal followed by the two secret values, so a secret that
contains a template action makes the command read a variable that is not a key
of the context built by `Create`. -/
theorem aks_create_template_reads_secret_text :
    (AksDriverFactory.Create
        (World.absentWithSecrets (sampleAksSA "create").clusterExistsCmd
          ["\x7b\x7b.Oops\x7d\x7d", "pw", "tenant"])
        (samplePlanSA "create") []).1 = Res.val (some (sampleAksSA "create"), none) ∧
    ((sampleAksSA "create").Execute
        (World.absentWithSecrets (sampleAksSA "create").clusterExistsCmd
          ["\x7b\x7b.Oops\x7d\x7d", "pw", "tenant"]) []).2 =
      [Event.log "Authenticating as service account...",
       Event.vaultGetMany (sampleAksSA "create").vaultClient AksVaultPath
         ["appId", "password", "tenant"],
       Event.exec (AksDriver.loginCmd "\x7b\x7b.Oops\x7d\x7d" "pw" "tenant"),
       Event.log "Checking if cluster exists...",
       Event.exec (sampleAksSA "create").clusterExistsCmd,
       Event.log "Creating cluster...",
       Event.vaultGetMany (sampleAksSA "create").vaultClient AksVaultPath ["appId", "password"],
       Event.exec ((sampleAksSA "create").createCmd
         " --service-principal \x7b\x7b.Oops\x7d\x7d --client-secret pw"),
       Event.log "Configuring Docker...", Event.exec (sampleAksSA "create").acrLoginCmd,
       Event.log "Getting credentials...", Event.exec (sampleAksSA "create").getCredentialsCmd] ∧
    ((sampleAksSA "create").createCmd
        " --service-principal \x7b\x7b.Oops\x7d\x7d --client-secret pw").params =
      some (sampleAksSA "create").ctx ∧
    templateVars ((sampleAksSA "create").createCmd
        " --service-principal \x7b\x7b.Oops\x7d\x7d --client-secret pw").command.data =
      ["ResourceGroup", "ClusterName", "NodeCount", "MachineType", "KubernetesVersion", "Oops"] ∧
    ctxGet (sampleAksSA "create").ctx "Oops" = none :=
  ⟨rfl, rfl, rfl, rfl, rfl⟩

/-- C13, amended: for a driver returned by the provider's `Create`, every
command that `Execute` issues as a template is well keyed: each variable that
its template text reads has a value in the map it is rendered with, be it the
driver's context or an ad-hoc map.  For AKS this holds provided the two secret
values that `create` splices into the template text in service-account mode
contain no opening brace; for GKE it holds without condition. -/
theorem template_variables_are_context_keys (w : World) :
    (∀ (plan : Plan) (h0 : List Event) (d : AksDriver),
      (AksDriverFactory.Create w plan h0).1 = Res.val (some d, none) →
      (∀ (H : List Event) (s : String),
        s ∈ (w.getMany H d.vaultClient AksVaultPath ["appId", "password"]).1 →
          '\x7b' ∉ s.data) →
      ∀ h : List Event, ∃ new : List Event, (d.Execute w h).2 = h ++ new ∧
        ∀ c, Event.exec c ∈ new → ∀ ps, c.params = some ps →
          ∀ v ∈ templateVars c.command.data, (ctxGet ps v).isSome = true) ∧
    (∀ (plan : Plan) (h0 : List Event) (d : GkeDriver),
      (GkeDriverFactory.Create w plan h0).1 = Res.val (some d, none) →
      ∀ h : List Event, ∃ new : List Event, (d.Execute w h).2 = h ++ new ∧
        ∀ c, Event.exec c ∈ new → ∀ ps, c.params = some ps →
          ∀ v ∈ templateVars c.command.data, (ctxGet ps v).isSome = true) := by
  constructor
  · intro plan h0 d hd hsecrets h
    obtain ⟨new, hnew, hP⟩ :=
      aks_execute_keyed w d d.plan (aks_create_ctx w plan h0 d hd) hsecrets h
    exact ⟨new, hnew, fun c hc ps hps v hv => wellKeyed_lookup c (hP c hc) ps hps v hv⟩
  · intro plan h0 d hd h
    obtain ⟨new, hnew, hP⟩ := gke_execute_keyed w d d.plan (gke_create_ctx w plan h0 d hd) h
    exact ⟨new, hnew, fun c hc ps hps v hv => wellKeyed_lookup c (hP c hc) ps hps v hv⟩

/-- C13 amended, at a concrete input: the drivers that `Create` returns for a
service-account plan, in a world whose secrets are plain words. -/
theorem template_variables_are_context_keys_witness :
    ((AksDriverFactory.Create (World.quiet "") (samplePlanSA "create") []).1 =
        Res.val (some (sampleAksSA "create"), none) ∧
      ∃ new : List Event,
        ((sampleAksSA "create").Execute (World.quiet "") []).2 = [] ++ new ∧
        ∀ c, Event.exec c ∈ new → ∀ ps, c.params = some ps →
          ∀ v ∈ templateVars c.command.data, (ctxGet ps v).isSome = true) ∧
    ((GkeDriverFactory.Create (World.quiet "") (samplePlanSA "create") []).1 =
        Res.val (some (sampleGkeSA "create"), none) ∧
      ∃ new : List Event,
        ((sampleGkeSA "create").Execute (World.quiet "") []).2 = [] ++ new ∧
        ∀ c, Event.exec c ∈ new → ∀ ps, c.params = some ps →
          ∀ v ∈ templateVars c.command.data, (ctxGet ps v).isSome = true) :=
  ⟨⟨rfl, (template_variables_are_context_keys (World.quiet "")).1 (samplePlanSA "create") []
      (sampleAksSA "create") rfl
      (fun _ s hs => by
        simp only [World.quiet, World.scripted, List.mem_cons, List.mem_singleton,
          List.not_mem_nil, or_false] at hs
        rcases hs with rfl | rfl | rfl <;> decide) []⟩,
   ⟨rfl, (template_variables_are_context_keys (World.quiet "")).2 (samplePlanSA "create") []
      (sampleGkeSA "create") rfl []⟩⟩

/-! ## The cloned storage class manifest -/

theorem replaceChars_nil (old new : List Char) (k : Nat) (hold : old ≠ []) :
    replaceChars old new k [] = [] := by
  cases k <;> simp [replaceChars, hold]

/-- Dropping the characters of a match and going on is the same as counting
them down. -/
theorem replaceChars_skip (old new : List Char) (hold : old ≠ []) (s : List Char) :
    ∀ k : Nat, replaceChars old new k s = replaceChars old new 0 (s.drop k) := by
  induction s with
  | nil => intro k; simp [replaceChars_nil old new _ hold]
  | cons c cs ih =>
    intro k
    cases k with
    | zero => rfl
    | succ k => simp only [replaceChars, List.drop_succ_cons, ih k]

theorem replaceChars_cons_match (old new : List Char) (hold : old ≠ []) (c : Char)
    (cs : List Char) (hm : old.isPrefixOf (c :: cs) = true) :
    replaceChars old new 0 (c :: cs) =
      new ++ replaceChars old new 0 ((c :: cs).drop old.length) := by
  have hlen : old.length = (old.length - 1) + 1 := by
    have := List.length_pos.mpr hold
    omega
  rw [hlen, List.drop_succ_cons, ← replaceChars_skip old new hold cs]
  simp [replaceChars, hold, hm]

theorem replaceChars_cons_skip (old new : List Char) (hold : old ≠ []) (c : Char)
    (cs : List Char) (hm : old.isPrefixOf (c :: cs) = false) :
    replaceChars old new 0 (c :: cs) = c :: replaceChars old new 0 cs := by
  simp [replaceChars, hold, hm]

theorem containsChars_length (sub : List Char) :
    ∀ s : List Char, containsChars sub s = true → sub.length ≤ s.length := by
  intro s
  induction s with
  | nil =>
    intro h
    simp only [containsChars, List.isEmpty_iff] at h
    simp [h]
  | cons c cs ih =>
    intro h
    simp only [containsChars, Bool.or_eq_true] at h
    rcases h with h | h
    · exact (List.isPrefixOf_iff_prefix.mp h).length_le
    · exact Nat.le_succ_of_le (ih h)

/-- A text that does not begin with `old` may be put in front of a rewriting. -/
theorem rewrites_cons (old new : List Char) (c : Char) (s r : List Char)
    (hm : old.isPrefixOf (c :: s) = false) (h : Rewrites old new s r) :
    Rewrites old new (c :: s) (c :: r) := by
  cases h with
  | done _ hnone =>
    exact Rewrites.done _ (by simp [containsChars, hm, hnone])
  | step a b r1 hnone hrest =>
    have hfirst : old.isPrefixOf (c :: (a ++ old.dropLast)) = false := by
      cases hp : old.isPrefixOf (c :: (a ++ old.dropLast)) with
      | false => rfl
      | true =>
        have h1 : old <+: c :: (a ++ old.dropLast) := List.isPrefixOf_iff_prefix.mp hp
        have h2 : c :: (a ++ old.dropLast) <+: c :: (a ++ old ++ b) := by
          have h3 : old.dropLast <+: old ++ b :=
            (List.dropLast_prefix old).trans (List.prefix_append old b)
          have h4 : a ++ old.dropLast <+: a ++ (old ++ b) :=
            (List.prefix_append_right_inj a).mpr h3
          rw [List.append_assoc]
          exact (List.prefix_cons_inj c).mpr h4
        have h5 := List.isPrefixOf_iff_prefix.mpr (h1.trans h2)
        rw [h5] at hm
        exact absurd hm (by decide)
    have := @Rewrites.step old new (c :: a) b r1
      (by simp only [List.cons_append, containsChars, List.append_eq, hfirst, hnone,
            Bool.or_self]) hrest
    simpa using this

/-- `strings.Replace(s, old, new, -1)` rewrites every occurrence of `old`. -/
theorem replaceChars_rewrites (old new : List Char) (hold : old ≠ []) :
    ∀ (n : Nat) (s : List Char), s.length ≤ n →
      Rewrites old new s (replaceChars old new 0 s) := by
  intro n
  induction n with
  | zero =>
    intro s hs
    have : s = [] := List.length_eq_zero.mp (Nat.le_zero.mp hs)
    subst this
    rw [replaceChars_nil old new 0 hold]
    exact Rewrites.done _ (by simp [containsChars, hold])
  | succ n ih =>
    intro s hs
    cases s with
    | nil =>
      rw [replaceChars_nil old new 0 hold]
      exact Rewrites.done _ (by simp [containsChars, hold])
    | cons c cs =>
      cases hm : old.isPrefixOf (c :: cs) with
      | false =>
        rw [replaceChars_cons_skip old new hold c cs hm]
        exact rewrites_cons old new c cs _ hm (ih cs (by simpa using hs))
      | true =>
        rw [replaceChars_cons_match old new hold c cs hm]
        obtain ⟨t, ht⟩ := List.isPrefixOf_iff_prefix.mp hm
        have hdrop : (c :: cs).drop old.length = t := by
          rw [← ht]
          exact List.drop_left' rfl
        rw [hdrop]
        have hlen : t.length ≤ n := by
          have h1 : (c :: cs).length = old.length + t.length := by
            rw [← ht, List.length_append]
          have h2 := List.length_pos.mpr hold
          simp only [List.length_cons] at hs h1
          omega
        have hshort : containsChars old ([] ++ old.dropLast) = false := by
          cases hc : containsChars old ([] ++ old.dropLast) with
          | false => rfl
          | true =>
            have h1 := containsChars_length old _ hc
            have h2 := List.length_pos.mpr hold
            simp only [List.nil_append, List.length_dropLast] at h1
            omega
        have := @Rewrites.step old new [] t _ hshort (ih t hlen)
        rw [← ht]
        simpa using this

/-- A text without the first character of `old` that begins the rewritten text
begins the original text too. -/
theorem prefix_of_replaceChars (v : Char) (T new : List Char) (hnew : new.head? = some v) :
    ∀ U : List Char, v ∉ U → ∀ cs : List Char,
      U.isPrefixOf (replaceChars (v :: T) new 0 cs) = true → U.isPrefixOf cs = true := by
  intro U
  induction U with
  | nil => intro _ cs _; simp [List.isPrefixOf]
  | cons u U ih =>
    intro hv cs hp
    simp only [List.mem_cons, not_or] at hv
    have huv : (u == v) = false := by
      simp only [beq_eq_false_iff_ne, ne_eq]
      exact fun h => hv.1 h.symm
    cases cs with
    | nil =>
      rw [replaceChars_nil (v :: T) new 0 (by simp)] at hp
      simp [List.isPrefixOf] at hp
    | cons c cs =>
      cases hm : (v :: T).isPrefixOf (c :: cs) with
      | true =>
        rw [replaceChars_cons_match (v :: T) new (by simp) c cs hm] at hp
        cases new with
        | nil => simp at hnew
        | cons n0 new1 =>
          simp only [List.head?_cons, Option.some.injEq] at hnew
          subst hnew
          simp [List.isPrefixOf, huv] at hp
      | false =>
        rw [replaceChars_cons_skip (v :: T) new (by simp) c cs hm] at hp
        simp only [List.isPrefixOf, Bool.and_eq_true] at hp ⊢
        exact ⟨hp.1, ih hv.2 cs hp.2⟩

/-- Characters other than the first character of `old`, put in front of a
text, add no occurrence of `old`. -/
theorem containsChars_skip_front (v : Char) (T : List Char) :
    ∀ Y : List Char, v ∉ Y → ∀ X : List Char,
      containsChars (v :: T) (Y ++ X) = containsChars (v :: T) X := by
  intro Y
  induction Y with
  | nil => intro _ X; rfl
  | cons y Y ih =>
    intro hv X
    simp only [List.mem_cons, not_or] at hv
    have hvy : (v == y) = false := by
      simp only [beq_eq_false_iff_ne, ne_eq]
      exact hv.1
    simp only [List.cons_append, containsChars, List.append_eq, List.isPrefixOf, hvy,
      Bool.false_and, Bool.false_or]
    exact ih hv.2 X

/-- After `strings.Replace(s, old, new, -1)` no occurrence of `old` is left,
when `old` and `new` begin with the same character, that character occurs
nowhere else in them, and they differ after it. -/
theorem replaceChars_no_occurrence (v : Char) (T T1 : List Char) (hT : v ∉ T) (hT1 : v ∉ T1)
    (hdiff : ∀ rest : List Char, T.isPrefixOf (T1 ++ rest) = false) :
    ∀ (n : Nat) (s : List Char), s.length ≤ n →
      containsChars (v :: T) (replaceChars (v :: T) (v :: T1) 0 s) = false := by
  intro n
  induction n with
  | zero =>
    intro s hs
    have : s = [] := List.length_eq_zero.mp (Nat.le_zero.mp hs)
    subst this
    rw [replaceChars_nil _ _ 0 (by simp)]
    simp [containsChars]
  | succ n ih =>
    intro s hs
    cases s with
    | nil =>
      rw [replaceChars_nil _ _ 0 (by simp)]
      simp [containsChars]
    | cons c cs =>
      cases hm : (v :: T).isPrefixOf (c :: cs) with
      | true =>
        rw [replaceChars_cons_match _ _ (by simp) c cs hm]
        have hlen : ((c :: cs).drop (v :: T).length).length ≤ n := by
          simp only [List.length_drop, List.length_cons] at hs ⊢
          omega
        have hrest := ih _ hlen
        simp only [List.cons_append, containsChars, List.append_eq, List.isPrefixOf, beq_self_eq_true,
          Bool.true_and, hdiff, Bool.false_or]
        rw [containsChars_skip_front v T T1 hT1]
        exact hrest
      | false =>
        rw [replaceChars_cons_skip _ _ (by simp) c cs hm]
        have hrest := ih cs (by simpa using hs)
        simp only [containsChars, hrest, Bool.or_false]
        cases hp : (v :: T).isPrefixOf (c :: replaceChars (v :: T) (v :: T1) 0 cs) with
        | false => rfl
        | true =>
          simp only [List.isPrefixOf, Bool.and_eq_true] at hp hm
          have h2 := prefix_of_replaceChars v T (v :: T1) rfl T hT cs hp.2
          simp [hp.1, h2] at hm

/-- C15 as stated fails where the two patterns overlap: for a class named "v"
and the manifest text "name: volumeBindingMode: Immediate", the first
replacement consumes the "v", so the occurrence of
"volumeBindingMode: Immediate" is not rewritten to
"volumeBindingMode: WaitForFirstConsumer". -/
theorem customizedManifest_overlap :
    strContains "name: volumeBindingMode: Immediate" "volumeBindingMode: Immediate" = true ∧
    strContains "name: volumeBindingMode: Immediate" "name: v" = true ∧
    GkeDriver.customizedManifest "name: volumeBindingMode: Immediate" "v" =
      "name: standard-customizedolumeBindingMode: Immediate" ∧
    strContains (GkeDriver.customizedManifest "name: volumeBindingMode: Immediate" "v")
      "volumeBindingMode: WaitForFirstConsumer" = false :=
  ⟨by decide, by decide, by decide, by decide⟩

/-- C15, amended: for every manifest text `sc` and every default class name,
the manifest that `patchStorageClass` applies contains no occurrence of
"volumeBindingMode: Immediate".  It is made in two passes: the first rewrites
every occurrence of "name: <defaultName>" in `sc` to "name: standard-customized",
the second rewrites every occurrence of "volumeBindingMode: Immediate" in the
result of the first to "volumeBindingMode: WaitForFirstConsumer"; each pass
takes the occurrences from the left, without overlap, and leaves the rest of
the text unchanged. -/
theorem customizedManifest_rewrites (sc defaultName : String) :
    strContains (GkeDriver.customizedManifest sc defaultName)
      "volumeBindingMode: Immediate" = false ∧
    ∃ mid : List Char,
      Rewrites ("name: " ++ defaultName).data "name: standard-customized".data sc.data mid ∧
      Rewrites "volumeBindingMode: Immediate".data "volumeBindingMode: WaitForFirstConsumer".data
        mid (GkeDriver.customizedManifest sc defaultName).data := by
  constructor
  · simp only [strContains, GkeDriver.customizedManifest, strReplaceAll]
    exact replaceChars_no_occurrence 'v' "olumeBindingMode: Immediate".data
      "olumeBindingMode: WaitForFirstConsumer".data (by decide) (by decide)
      (fun rest => by rfl) _ _ (Nat.le_refl _)
  · refine ⟨replaceChars ("name: " ++ defaultName).data "name: standard-customized".data 0 sc.data,
      replaceChars_rewrites _ _ (by simp) _ _ (Nat.le_refl _), ?_⟩
    simp only [GkeDriver.customizedManifest, strReplaceAll]
    exact replaceChars_rewrites _ _ (by decide) _ _ (Nat.le_refl _)

end Runner

namespace Sset

open Runner

/-! ## Pod names -/

theorem digitValue_digitChar : ∀ k : Nat, k < 10 → digitValue (digitChar k) = some k := by
  decide

theorem digitChar_not_sign : ∀ k : Nat, k < 10 → digitChar k ≠ '-' ∧ digitChar k ≠ '+' := by
  decide

/-- Every character of the digits of a number is a decimal digit. -/
theorem decimalRev_digits (fuel n : Nat) :
    ∀ c ∈ decimalRev fuel n, ∃ k, k < 10 ∧ c = digitChar k := by
  induction fuel generalizing n with
  | zero => intro c hc; simp [decimalRev] at hc
  | succ fuel ih =>
    intro c hc
    simp only [decimalRev, List.mem_cons] at hc
    rcases hc with hc | hc
    · exact ⟨n % 10, Nat.mod_lt _ (by decide), hc⟩
    · by_cases hn : n < 10
      · simp [hn] at hc
      · simp only [hn, if_false] at hc
        exact ih _ c hc

/-- Reading the digits of `n` from the most significant one gives back `n`. -/
theorem foldr_decimalRev (fuel n : Nat) (hfuel : n < fuel) :
    (decimalRev fuel n).foldr (fun c acc => parseStep acc c) (some 0) = some n := by
  induction fuel generalizing n with
  | zero => exact absurd hfuel (Nat.not_lt_zero _)
  | succ fuel ih =>
    simp only [decimalRev, List.foldr_cons]
    by_cases hn : n < 10
    · simp only [hn, if_true, List.foldr_nil, parseStep,
        digitValue_digitChar (n % 10) (Nat.mod_lt _ (by decide))]
      simp [Nat.mod_eq_of_lt hn]
    · simp only [hn, if_false]
      have hdiv : n / 10 < fuel := by omega
      rw [ih (n / 10) hdiv]
      simp only [parseStep, digitValue_digitChar (n % 10) (Nat.mod_lt _ (by decide))]
      congr 1
      omega

theorem parseDigits_natDecimal (n : Nat) : parseDigits (natDecimal n) = some n := by
  simp only [parseDigits, natDecimal, List.foldl_reverse]
  exact foldr_decimalRev (n + 1) n (Nat.lt_succ_self n)

theorem natDecimal_digits (n : Nat) : ∀ c ∈ natDecimal n, ∃ k, k < 10 ∧ c = digitChar k := by
  intro c hc
  simp only [natDecimal, List.mem_reverse] at hc
  exact decimalRev_digits _ _ c hc

theorem natDecimal_ne_nil (n : Nat) : natDecimal n ≠ [] := by
  simp [natDecimal, decimalRev]

theorem lastIndexChars_ge (sep : Char) (cs : List Char) : -1 ≤ lastIndexChars sep cs := by
  induction cs with
  | nil => simp [lastIndexChars]
  | cons c cs ih =>
    simp only [lastIndexChars]
    split
    · omega
    · split <;> omega

theorem lastIndexChars_absent (sep : Char) (cs : List Char) (h : sep ∉ cs) :
    lastIndexChars sep cs = -1 := by
  induction cs with
  | nil => rfl
  | cons c cs ih =>
    simp only [List.mem_cons, not_or] at h
    have hcs := ih h.2
    have hne : c ≠ sep := fun hc => h.1 hc.symm
    simp [lastIndexChars, hcs, hne]

/-- The last separator of a text that ends with a separator-free part. -/
theorem lastIndexChars_append (sep : Char) (a ds : List Char) (h : sep ∉ ds) :
    lastIndexChars sep (a ++ sep :: ds) = a.length := by
  induction a with
  | nil => simp [lastIndexChars, lastIndexChars_absent sep ds h]
  | cons c a ih =>
    have hpos : lastIndexChars sep (a ++ sep :: ds) ≥ 0 := by
      rw [ih]
      exact Int.ofNat_nonneg _
    show (if lastIndexChars sep (a ++ sep :: ds) ≥ 0 then lastIndexChars sep (a ++ sep :: ds) + 1
      else if c = sep then 0 else -1) = ((a.length + 1 : Nat) : Int)
    rw [if_pos hpos, ih]
    push_cast
    rfl

theorem foldl_parseStep_none (cs : List Char) : cs.foldl parseStep none = none := by
  induction cs with
  | nil => rfl
  | cons c cs ih => simpa only [List.foldl_cons, parseStep] using ih

/-- Reading more digits does not make the number smaller. -/
theorem foldl_parseStep_le (cs : List Char) :
    ∀ a n : Nat, cs.foldl parseStep (some a) = some n → a ≤ n := by
  induction cs with
  | nil =>
    intro a n h
    simp only [List.foldl_nil, Option.some.injEq] at h
    omega
  | cons c cs ih =>
    intro a n h
    simp only [List.foldl_cons] at h
    cases hd : digitValue c with
    | none => simp [parseStep, hd, foldl_parseStep_none] at h
    | some d =>
      simp only [parseStep, hd] at h
      have := ih _ _ h
      omega

/-- Below its bound the loop of `ParseUint` computes the number the digits
write. -/
theorem parseUintLoop_parseDigits (cs : List Char) :
    ∀ a n : Nat, cs.foldl parseStep (some a) = some n → n ≤ 18446744073709551615 →
      parseUintLoop a cs = (n, none) := by
  induction cs with
  | nil =>
    intro a n h _
    simp only [List.foldl_nil, Option.some.injEq] at h
    simp only [parseUintLoop, h]
  | cons c cs ih =>
    intro a n h hn
    simp only [List.foldl_cons] at h
    cases hd : digitValue c with
    | none => simp [parseStep, hd, foldl_parseStep_none] at h
    | some d =>
      simp only [parseStep, hd] at h
      have hle := foldl_parseStep_le cs _ _ h
      have h1 : ¬ (a ≥ 1844674407370955162) := by omega
      have h2 : ¬ (a * 10 + d > 18446744073709551615) := by omega
      simp only [parseUintLoop, hd, h1, h2, if_false]
      exact ih _ _ h hn

/-- `Atoi` reads the decimal digits of a number that fits in an `int`. -/
theorem Atoi_natDecimal (printable : Char → Bool) (n : Nat) (hn : n ≤ 9223372036854775807) :
    Atoi printable (String.mk (natDecimal n)) = ((n : Int), none) := by
  have hne := natDecimal_ne_nil n
  have hdig := natDecimal_digits n
  have hparse : (natDecimal n).foldl parseStep (some 0) = some n := parseDigits_natDecimal n
  have hloop := parseUintLoop_parseDigits (natDecimal n) 0 n hparse (by omega)
  cases hds : natDecimal n with
  | nil => exact absurd hds hne
  | cons c r =>
    rw [hds] at hdig hloop
    obtain ⟨k, hk, hc⟩ := hdig c (List.mem_cons_self _ _)
    obtain ⟨h1, h2⟩ := digitChar_not_sign k hk
    rw [← hc] at h1 h2
    have hle : ¬ (n ≥ 9223372036854775808) := by omega
    simp [Atoi, ParseInt, ParseUint, h1, h2, hloop, hle]

/-- C17: `StatefulSetName` undoes `PodName`: for every StatefulSet name `s`,
also one that contains "-", and every ordinal `n` with 0 <= n <= 2^31 - 1,
`StatefulSetName (PodName s n)` returns `(s, n)` with a nil error, whatever the
table `printable` of `strconv.IsPrint` is. -/
theorem StatefulSetName_PodName (printable : Char → Bool) (s : String) (n : Int) (h0 : 0 ≤ n)
    (hmax : n ≤ 2147483647) :
    StatefulSetName printable (PodName s n) = Res.val (s, n, none) := by
  obtain ⟨k, rfl⟩ := Int.eq_ofNat_of_zero_le h0
  have hk : k ≤ 2147483647 := by omega
  have hdash : '-' ∉ natDecimal k := by
    intro hmem
    obtain ⟨j, hj, hc⟩ := natDecimal_digits k '-' hmem
    exact (digitChar_not_sign j hj).1 hc.symm
  have hdata : (PodName s (k : Int)).data = s.data ++ '-' :: natDecimal k := by
    simp [PodName, intDecimal]
  have hlast : LastIndex (PodName s (k : Int)) '-' = (s.data.length : Int) := by
    simp only [LastIndex, hdata]
    exact lastIndexChars_append '-' s.data (natDecimal k) hdash
  have hfrom : sliceFrom (PodName s (k : Int)) ((s.data.length : Int) + 1) =
      Res.val (String.mk (natDecimal k)) := by
    have hnat : ((s.data.length : Int) + 1).toNat = s.data.length + 1 := by omega
    have hdrop : List.drop (s.data.length + 1) (s.data ++ '-' :: natDecimal k) = natDecimal k := by
      rw [show s.data ++ '-' :: natDecimal k = (s.data ++ ['-']) ++ natDecimal k by simp]
      exact List.drop_left' (by simp)
    simp only [sliceFrom, hdata, List.length_append, List.length_cons, hnat]
    rw [if_pos (by constructor <;> omega), hdrop]
  have hto : sliceTo (PodName s (k : Int)) (s.data.length : Int) = Res.val s := by
    have htake : List.take s.data.length (s.data ++ '-' :: natDecimal k) = s.data :=
      List.take_left' rfl
    simp only [sliceTo, hdata, List.length_append, List.length_cons, Int.toNat_ofNat]
    rw [if_pos (by constructor <;> omega), htake]
  have hatoi := Atoi_natDecimal printable k (by omega)
  have h32 : toInt32 (k : Int) = (k : Int) := by
    simp only [toInt32]
    omega
  simp only [StatefulSetName, hlast, hfrom, hto, hatoi, h32]

/-- C17, at a concrete input: a StatefulSet name with dashes and ordinal 12. -/
theorem StatefulSetName_PodName_witness :
    (0 : Int) ≤ 12 ∧ (12 : Int) ≤ 2147483647 ∧
    StatefulSetName (fun _ => true) (PodName "es-master-nodes" 12) =
      Res.val ("es-master-nodes", 12, none) :=
  ⟨by decide, by decide,
    StatefulSetName_PodName (fun _ => true) "es-master-nodes" 12 (by decide) (by decide)⟩

/-- A pod name without "-" makes `StatefulSetName` slice out of range. -/
theorem StatefulSetName_no_dash (printable : Char → Bool) (podName : String)
    (h : '-' ∉ podName.data) :
    StatefulSetName printable podName = Res.panic "slice bounds out of range" := by
  have hlast : LastIndex podName '-' = -1 := lastIndexChars_absent '-' podName.data h
  have hfrom : sliceFrom podName (-1 + 1) = Res.val podName := by
    simp [sliceFrom]
  have hto : sliceTo podName (-1) = Res.panic "slice bounds out of range" := by
    simp [sliceTo]
  simp only [StatefulSetName, hlast, hfrom, hto]

/-- C18 fails on the code: for the empty pod name and for a pod name without
"-", `strings.LastIndex` is -1 and the slice `podName[:ordinalPos]` is out of
range, so `StatefulSetName` panics instead of returning a triple.  With a "-"
in the name it returns, with a non-nil error when the text after the last "-"
is not a decimal integer.  This holds whatever the table `printable` of
`strconv.IsPrint` is. -/
theorem StatefulSetName_not_total (printable : Char → Bool) :
    LastIndex "" '-' = -1 ∧
    StatefulSetName printable "" = Res.panic "slice bounds out of range" ∧
    LastIndex "elasticsearch" '-' = -1 ∧
    StatefulSetName printable "elasticsearch" = Res.panic "slice bounds out of range" ∧
    StatefulSetName printable "es-master-x1" =
      Res.val ("es-master", 0,
        some { msg := "strconv.Atoi: parsing \"x1\": invalid syntax" }) :=
  ⟨by decide, rfl, by decide, rfl, rfl⟩

/-- Pods of one StatefulSet with different ordinals have different names. -/
theorem PodName_injective (name : String) :
    Function.Injective (fun i : Nat => PodName name (i : Int)) := by
  intro i j hij
  have hdata := congrArg String.data hij
  simp only [PodName, intDecimal, String.data_append, Int.toNat_ofNat] at hdata
  have hi : ¬ ((i : Int) < 0) := by omega
  have hj : ¬ ((j : Int) < 0) := by omega
  simp only [hi, hj, if_false, List.append_cancel_left_eq] at hdata
  have hp := congrArg parseDigits hdata
  rw [parseDigits_natDecimal, parseDigits_natDecimal] at hp
  exact Option.some.inj hp

/-- With a replica count that is not negative `PodNames` returns the names of
the ordinals below the replica count, in order. -/
theorem PodNames_of_nonneg (sset : StatefulSet) (h : 0 ≤ sset.Replicas) :
    PodNames sset =
      Res.val ((List.range sset.Replicas.toNat).map (fun (i : Nat) => PodName sset.Name (i : Int))) := by
  have hneg : ¬ (sset.Replicas < 0) := by omega
  simp only [PodNames, hneg, if_false]

/-- The test of `PodReconciliationDoneForSset` on the two lists of names. -/
theorem names_match_iff_perm (actual expected : List String) (hnodup : expected.Nodup) :
    (decide (actual.length = expected.length) && StringsInSlice expected actual) = true ↔
      actual.Perm expected := by
  simp only [Bool.and_eq_true, decide_eq_true_eq, StringsInSlice, List.all_eq_true,
    List.contains, List.elem_eq_mem]
  constructor
  · rintro ⟨hlen, hsub⟩
    have hsp : expected.Subperm actual := List.subperm_of_subset hnodup hsub
    exact (hsp.perm_of_length_le (le_of_eq hlen)).symm
  · intro hperm
    exact ⟨hperm.length_eq, fun s hs => hperm.symm.subset hs⟩

/-- C16 as stated fails: it speaks of every StatefulSet, but for a negative
replica count `make([]string, 0, GetReplicas(sset))` in `PodNames` panics, so
after a successful listing `PodReconciliationDoneForSset` returns nothing,
neither true nor false. -/
theorem PodReconciliationDone_panics_on_negative_replicas :
    PodNames { Name := "es", Namespace := "ns", Replicas := -1 } =
      Res.panic "makeslice: cap out of range" ∧
    PodReconciliationDoneForSset "statefulset-name" (fun _ => ([], none))
        { Name := "es", Namespace := "ns", Replicas := -1 } =
      Res.panic "makeslice: cap out of range" :=
  ⟨rfl, rfl⟩

/-- C16, amended: for every StatefulSet whose replica count is not negative,
when the listing succeeds with the pods `pods`, `PodNames statefulSet` returns
the expected names, which are the names `PodName` gives for the ordinals below
the replica count, and `PodReconciliationDoneForSset` returns no error and
true exactly when the names of `pods` are a permutation of the expected names.
For a negative replica count and a successful listing it panics in `PodNames`.
For every StatefulSet, when the listing fails with `err` it returns
`(false, err)`. -/
theorem PodReconciliationDone_iff_perm (labelName : String) (c : Client) (sset : StatefulSet) :
    (∀ pods : List Pod,
      c { Namespace := sset.Namespace, LabelSelector := [(labelName, sset.Name)] } = (pods, none) →
      0 ≤ sset.Replicas →
      ∃ (expected : List String) (done : Bool),
        PodNames sset = Res.val expected ∧
        (∀ i : Nat, expected[i]? =
          if (i : Int) < sset.Replicas then some (PodName sset.Name (i : Int)) else none) ∧
        PodReconciliationDoneForSset labelName c sset = Res.val (done, none) ∧
        (done = true ↔ (k8sPodNames pods).Perm expected)) ∧
    (∀ pods : List Pod,
      c { Namespace := sset.Namespace, LabelSelector := [(labelName, sset.Name)] } = (pods, none) →
      sset.Replicas < 0 →
      PodReconciliationDoneForSset labelName c sset = Res.panic "makeslice: cap out of range") ∧
    (∀ (pods : List Pod) (err : GoError),
      c { Namespace := sset.Namespace, LabelSelector := [(labelName, sset.Name)] } =
        (pods, some err) →
      PodReconciliationDoneForSset labelName c sset = Res.val (false, some err)) := by
  refine ⟨?_, ?_, ?_⟩
  · intro pods hlist hrep
    have hnames := PodNames_of_nonneg sset hrep
    have hnodup : ((List.range sset.Replicas.toNat).map
        (fun (i : Nat) => PodName sset.Name (i : Int))).Nodup :=
      (List.nodup_range _).map (PodName_injective sset.Name)
    have hiff := names_match_iff_perm (k8sPodNames pods) _ hnodup
    have hget : ∀ i : Nat, ((List.range sset.Replicas.toNat).map
        (fun (i : Nat) => PodName sset.Name (i : Int)))[i]? =
          if (i : Int) < sset.Replicas then some (PodName sset.Name (i : Int)) else none := by
      intro i
      by_cases hi : (i : Int) < sset.Replicas
      · have hi2 : i < sset.Replicas.toNat := by omega
        simp [hi, List.getElem?_range hi2]
      · have hi2 : sset.Replicas.toNat ≤ i := by omega
        simp [hi, hi2]
    by_cases hm : (decide ((k8sPodNames pods).length = ((List.range sset.Replicas.toNat).map
          (fun (i : Nat) => PodName sset.Name (i : Int))).length) &&
        StringsInSlice ((List.range sset.Replicas.toNat).map
          (fun (i : Nat) => PodName sset.Name (i : Int))) (k8sPodNames pods)) = true
    · refine ⟨_, true, hnames, hget, ?_, ?_⟩
      · simp only [PodReconciliationDoneForSset, GetActualPodsForStatefulSet, hlist, hnames, hm,
          Bool.not_true, Bool.false_eq_true, if_false]
      · simp only [true_iff]
        exact hiff.mp hm
    · have hperm : ¬ (k8sPodNames pods).Perm ((List.range sset.Replicas.toNat).map
          (fun (i : Nat) => PodName sset.Name (i : Int))) := fun hp => hm (hiff.mpr hp)
      simp only [Bool.not_eq_true] at hm
      refine ⟨_, false, hnames, hget, ?_, ?_⟩
      · simp only [PodReconciliationDoneForSset, GetActualPodsForStatefulSet, hlist, hnames, hm,
          Bool.not_false, if_true]
      · simp only [Bool.false_eq_true, false_iff]
        exact hperm
  · intro pods hlist hrep
    simp only [PodReconciliationDoneForSset, GetActualPodsForStatefulSet, hlist, PodNames, hrep,
      if_true]
  · intro pods err hlist
    simp only [PodReconciliationDoneForSset, GetActualPodsForStatefulSet, hlist]

/-- C16 amended, at a concrete input: three replicas, listed out of order, and
a listing that fails. -/
theorem PodReconciliationDone_iff_perm_witness :
    (0 : Int) ≤ 3 ∧
    (∃ (expected : List String) (done : Bool),
      PodNames { Name := "es", Namespace := "ns", Replicas := 3 } = Res.val expected ∧
      (∀ i : Nat, expected[i]? =
        if (i : Int) < 3 then some (PodName "es" (i : Int)) else none) ∧
      PodReconciliationDoneForSset "statefulset-name"
          (fun _ => ([{ Name := "es-1" }, { Name := "es-0" }, { Name := "es-2" }], none))
          { Name := "es", Namespace := "ns", Replicas := 3 } = Res.val (done, none) ∧
      (done = true ↔
        (k8sPodNames [{ Name := "es-1" }, { Name := "es-0" }, { Name := "es-2" }]).Perm expected)) ∧
    PodReconciliationDoneForSset "statefulset-name"
        (fun _ => ([], some { msg := "connection refused" }))
        { Name := "es", Namespace := "ns", Replicas := 3 } =
      Res.val (false, some { msg := "connection refused" }) :=
  ⟨by decide,
   (PodReconciliationDone_iff_perm "statefulset-name"
      (fun _ => ([{ Name := "es-1" }, { Name := "es-0" }, { Name := "es-2" }], none))
      { Name := "es", Namespace := "ns", Replicas := 3 }).1 _ rfl (by decide),
   (PodReconciliationDone_iff_perm "statefulset-name"
      (fun _ => ([], some { msg := "connection refused" }))
      { Name := "es", Namespace := "ns", Replicas := 3 }).2.2 [] _ rfl⟩

end Sset
